import Mathlib

/-!
# actsim command handlers (`main.cc`)

A shallow embedding of the interactive command handlers of the actsim
simulator front end, and theorems about them.

The handlers in `main.cc` act on process-wide globals (`glob_sim`, `glob_sp`,
`glob_dummy`, the static state of `SimDES`) and on the standard streams.  The
embedding threads one `Simulator` record through every handler; a handler is a
function from the record and `argv` to a return code and the new record.

Classes that `main.cc` only calls (`BigInt`, `ActId`, `ActSim`, `ActSimObj`,
`ChpSim`, `SimDES`, `ActStatePass`) are not part of the file.  Their parsing
routines are taken as parameters (`ActLib`), their per-design lookup tables are
fields of the record, and their mutators are modelled from the specification;
each such definition says so in its doc comment.
-/

namespace Actsim

/-! ## Return codes and values -/

/-- Outcome of a command handler: one of the `LISP_RET_*` codes of `lispCli.h`,
or termination of the simulator process (`exit`, `fatal_error`, a failed
`Assert`, a null dereference). -/
inductive LispRet where
  | LISP_RET_ERROR
  | LISP_RET_TRUE
  | LISP_RET_FALSE
  | LISP_RET_INT
  | LISP_RET_LIST
  | exited (code : Nat)
  | crashed
  deriving DecidableEq, Repr

/-- Value handed back to the interpreter by `LispSetReturnInt` or by the
`LispSetReturnListStart` / `LispAppendReturnInt` / `LispSetReturnListEnd`
sequence. -/
inductive LispVal where
  | none
  | int (n : Nat)
  | list (ws : List Nat)
  deriving DecidableEq, Repr

/-! ## BigInt -/

/-- Modelled from the spec: `BigInt` (class of the common library, absent from
`main.cc`) is the arbitrary-width integer with a fixed declared bitwidth.  The
record keeps the declared width and the numeric value; a value read by `sscan`
may be negative, a stored one is reduced to its width by `setWidth`. -/
structure BigInt where
  width : Nat
  val : Int
  deriving DecidableEq, Repr

/-- Modelled from the spec: `BigInt::isNegative`. -/
def BigInt.isNegative (b : BigInt) : Bool := decide (b.val < 0)

/-- Modelled from the spec: `BigInt::getWidth`, the declared bitwidth. -/
def BigInt.getWidth (b : BigInt) : Nat := b.width

/-- Modelled from the spec: `BigInt::setWidth` re-sizes the integer to `w` bits,
keeping the low `w` bits of the value, so that the result lies in `[0, 2^w)`. -/
def BigInt.setWidth (b : BigInt) (w : Nat) : BigInt := ⟨w, b.val % 2 ^ w⟩

/-- Modelled from the spec: `operator!=` on `BigInt` compares numeric values. -/
def BigInt.ne (a b : BigInt) : Bool := a.val != b.val

/-- Modelled from the spec: `BigInt::getLen`, the number of 64-bit machine words
that hold an integer of the declared width (at least one). -/
def BigInt.getLen (b : BigInt) : Nat := max 1 ((b.width + 63) / 64)

/-- Modelled from the spec: `BigInt::getVal (i)`, the `i`-th 64-bit word of the
value, least significant word first. -/
def BigInt.getVal (b : BigInt) (i : Nat) : Nat := (b.val.toNat / 2 ^ (64 * i)) % 2 ^ 64

/-- Assignment `BigInt tmpv; tmpv = val;` of a machine integer. -/
def BigInt.ofInt (v : Int) : BigInt := ⟨64, v⟩

/-- Numeric value denoted by a list of 64-bit words, least significant first. -/
def wordsValue : List Nat → Nat
  | [] => 0
  | w :: ws => w + 2 ^ 64 * wordsValue ws

/-! ## Identifiers and the instance table -/

/-- One link of an `ActId` chain: the name, the printed array dereference
(such as `[3]`) when there is one, and whether the link is a namespace
qualifier (`ActId::isNamespace`). -/
structure ActIdComp where
  name : String
  arr : Option String
  ns : Bool
  deriving DecidableEq, Repr

/-- An `ActId *`: the chain of links, `NULL` being the empty chain; `Rest()` is
the tail. -/
abbrev ActId := List ActIdComp

/-- The text `sPrint` produces for a pruned (single-link) identifier. -/
def ActIdComp.sPrint (c : ActIdComp) : String := c.name ++ c.arr.getD ""

/-- The text of `ActId::Print`: the links separated by dots. -/
def printId : ActId → String
  | [] => ""
  | [c] => c.sPrint
  | c :: rest => c.sPrint ++ "." ++ printId rest

/-- Library routines of ACT that parse command arguments; they are called by
`main.cc` and defined elsewhere, so the handlers take them as a parameter. -/
structure ActLib where
  /-- Parser `ActId::parseId`; `none` is the `NULL` result. -/
  parseId : String → Option ActId
  /-- Reader `BigInt::sscan`. -/
  sscan : String → BigInt
  /-- Conversion `sscanf (s, "%ld", &n)`: the number stored, `none` when no conversion
  took place and the variable keeps its previous content. -/
  sscanf_ld : String → Option Int
  /-- Conversion `atoi`. -/
  atoi : String → Int

/-- A simulation object (`ActSimObj *`): the process it simulates, whether it is
a `ChpSim` (the `dynamic_cast` succeeds), its map from a local offset and a
type to the global offset (`getGlobalOffset (offset, type)`), and the name of
the instance (`getName ()`), which tells the objects of a design apart. -/
structure ActSimObj where
  proc : String
  isChp : Bool
  getGlobalOffset : Int → Int → Int
  name : String := ""

/-- The instance table `ActInstTable`: an optional simulation object `obj` and
an optional hash table `H` from a printed instance name to the sub-table. -/
inductive ActInstTable where
  | mk (obj : Option ActSimObj) (H : Option (List (String × ActInstTable))) : ActInstTable

/-- Field `obj` of an instance table. -/
def ActInstTable.obj : ActInstTable → Option ActSimObj
  | .mk o _ => o

/-- Field `H` of an instance table. -/
def ActInstTable.H : ActInstTable → Option (List (String × ActInstTable))
  | .mk _ h => h

/-- The bytes of one character of a C string (its UTF-8 encoding). -/
def charBytes (ch : Char) : List Nat :=
  if ch.toNat < 128 then [ch.toNat]
  else if ch.toNat < 2048 then [192 + ch.toNat / 64, 128 + ch.toNat % 64]
  else if ch.toNat < 65536 then
    [224 + ch.toNat / 4096, 128 + ch.toNat / 64 % 64, 128 + ch.toNat % 64]
  else
    [240 + ch.toNat / 262144, 128 + ch.toNat / 4096 % 64, 128 + ch.toNat / 64 % 64,
      128 + ch.toNat % 64]

/-- The bytes of a C string, the terminating NUL left out. -/
def cstr (s : String) : List Nat := s.data.flatMap charBytes

/-- The content of `buf` after `sPrint (buf, sz)` on a pruned identifier: the
printed text, cut to the `sz - 1` bytes that fit in front of the terminating NUL. -/
def ActIdComp.sPrintBuf (c : ActIdComp) (sz : Nat) : List Nat := (cstr c.sPrint).take (sz - 1)

/-- Lookup `hash_lookup (H, buf)`: the value of the bucket whose key is the C
string in the buffer, `none` when there is no such bucket. -/
def hash_lookup (h : List (String × ActInstTable)) (buf : List Nat) : Option ActInstTable :=
  match h.find? (fun kv => cstr kv.1 == buf) with
  | some kv => some kv.2
  | none => none

/-- Per-process state information (`stateinfo_t`) as `id_obj_to_siminfo` uses
it: the lookups it performs on the process scope `si->bnl->cur` and on the state
pass.  Type codes are 0 for a Bool, 1 for an Int, 2 for a channel input and 3
for a channel output. -/
structure stateinfo_t where
  /-- Whether `FullLookup (id, NULL)` finds an instance type. -/
  FullLookup : ActId → Bool
  /-- Result of `id->validateDeref (cur)`. -/
  validateDeref : ActId → Bool
  /-- Result of `TypeFactory::isParamType` on the type found for the identifier. -/
  isParamType : ActId → Bool
  /-- Connection `id->Canonical (cur, true)`, `none` when it is `NULL`. -/
  Canonical : ActId → Option Nat
  /-- Connection `orig->Canonical (cur)` of an identifier that `FullLookup` found;
  the source asserts that it is not `NULL`. -/
  CanonicalBase : ActId → Nat
  /-- Result of `getTypeOffset (si, c, &offset, &type, NULL)`: the offset and the type
  on success. -/
  getTypeOffset : Nat → Option (Int × Int)
  /-- Flattened subscript `it->arrayInfo()->Offset (ta)` for the array found under the
  identifier and the dereference `ta`. -/
  arrayOffset : ActId → String → Int

/-! ## Simulator state -/

/-- Modelled from the spec: phase of a rendezvous channel (section 3,
ChannelState). -/
inductive Phase where
  | Idle
  | WaitingSender
  | WaitingReceiver
  | WaitingSendProbe
  | WaitingRecvProbe
  deriving DecidableEq, Repr

/-- Modelled from the spec: `act_channel_state`, declared in a header that is
not part of `main.cc`; the phase, the latched data and the count of completed
actions. -/
structure act_channel_state where
  phase : Phase
  data : Int
  count : Nat
  deriving DecidableEq, Repr

/-- Modelled from the spec: macro `WAITING_SENDER`. -/
def WAITING_SENDER (c : act_channel_state) : Bool := c.phase == Phase.WaitingSender

/-- Modelled from the spec: macro `WAITING_SEND_PROBE`. -/
def WAITING_SEND_PROBE (c : act_channel_state) : Bool := c.phase == Phase.WaitingSendProbe

/-- Modelled from the spec: macro `WAITING_RECEIVER`. -/
def WAITING_RECEIVER (c : act_channel_state) : Bool := c.phase == Phase.WaitingReceiver

/-- Modelled from the spec: macro `WAITING_RECV_PROBE`. -/
def WAITING_RECV_PROBE (c : act_channel_state) : Bool := c.phase == Phase.WaitingRecvProbe

/-- Origin of an event: a production-rule node, an HSE process or a CHP
process. -/
inductive Origin where
  | prs
  | hse
  | chp
  deriving DecidableEq, Repr

/-- Modelled from the spec: a scheduled event (section 3, Event). -/
structure Event where
  deadline : Nat
  tiebreak : Nat
  owner : Nat
  kind : Origin
  deriving DecidableEq, Repr

/-- Modelled from the spec: what the owner of an event does when the event is
dispatched, as far as the kernel sees it: the follow-up events it posts (delay,
owner, origin) and whether it raises the breakpoint flag. -/
structure Reaction where
  post : List (Nat × Nat × Origin)
  brk : Bool

/-- Modelled from the spec: the timing policy set by `setRandom` and
`setNoRandom` (section 4.2, Random timing): deterministic delays, random delays
without a configured range, or random delays in the range `[min, max]`; `unspec`
tells whether only the delays the graph left unspecified are randomised. -/
inductive RandomCfg where
  | off
  | on (unspec : Bool)
  | range (min : Int) (max : Int) (unspec : Bool)
  deriving DecidableEq, Repr

/-- One item written to standard output. -/
inductive Out where
  /-- The line `[<time>] <[env]> <name> := <value>` that `set` prints for a watched Bool. -/
  | boolSet (tm : Nat) (name : String) (val : Nat)
  /-- The line `[<time>] <[env]> <name> := <dec> (0x<hex>)` that `set` prints for a watched Int. -/
  | intSet (tm : Nat) (name : String) (rd : BigInt)
  /-- Any other text. -/
  | text (s : String)
  deriving DecidableEq, Repr

/-- Whether an output item is a `:=` log line. -/
def Out.isSetLog : Out → Bool
  | .boolSet _ _ _ => true
  | .intSet _ _ _ => true
  | .text _ => false

/-- Decimal text of a number, right-aligned in a field of `w` characters
(`decPrint (stdout, w)`). -/
def decPrint (n : Nat) (w : Nat) : String :=
  String.mk (List.replicate (w - (Nat.repr n).length) ' ') ++ Nat.repr n

/-- Hexadecimal text of a number (`hexPrint`). -/
def hexPrint (n : Nat) : String := String.mk (Nat.toDigits 16 n)

/-- The character `(val == 2 ? 'X' : ((char)val + '0'))`. -/
def boolChar (val : Nat) : Char := if val = 2 then 'X' else Char.ofNat (val + 48)

/-- The characters an output item puts on standard output. -/
def Out.render : Out → String
  | .boolSet tm name val =>
    "[" ++ decPrint tm 20 ++ "] <[env]> " ++ name ++ " := " ++ String.singleton (boolChar val) ++ "\n"
  | .intSet tm name rd =>
    "[" ++ decPrint tm 20 ++ "] <[env]> " ++ name ++ " := " ++ decPrint rd.val.toNat 0
      ++ " (0x" ++ hexPrint rd.val.toNat ++ ")\n"
  | .text s => s

/-- An entry handed to the trace backends by `recordTrace (nm, type, ACT_CHAN_IDLE, v)`. -/
structure TraceRec where
  name : String
  type : Int
  val : BigInt
  deriving DecidableEq, Repr

/-- A stream a snapshot is written to (`FILE *`): the standard output, or a file
opened for writing, by the name it was opened under. -/
inductive FILE where
  | stdout
  | file (name : String)
  deriving DecidableEq, Repr

/-- A call of a method whose body is outside `main.cc`, on a simulation object
or on the simulator as a whole; the embedding records the call and its
arguments. -/
inductive Call where
  /-- The call `p->propagate (glob_dummy)` on fanout entry `p`, with the value of
  `glob_dummy->causeGlobalIdx()` at the time of the call. -/
  | propagate (p : Nat) (cause : Int)
  /-- The call `chp->skipChannelAction (is_send, offset)`. -/
  | skipChannelAction (is_send : Int) (offset : Int)
  /-- The call `chp->awakenDeadlockedGC ()` on the object simulating a process. -/
  | awakenDeadlockedGC (proc : String)
  /-- The call `chp->jumpTo (label)` on the object simulating a process. -/
  | jumpTo (proc : String) (label : String)
  /-- The statement `delete glob_sim`. -/
  | delete_glob_sim
  /-- The statement `delete glob_sp`. -/
  | delete_glob_sp
  /-- The call `SimDES::Init ()`. -/
  | SimDES_Init
  /-- The statements `glob_sp = new ActStatePass (glob_act); glob_sp->run (p)`. -/
  | new_ActStatePass (proc : String)
  /-- The statement `glob_sim = new ActSim (p)`. -/
  | new_ActSim (proc : String)
  /-- The call `glob_sim->runInit ()`. -/
  | runInit
  /-- A successful `fopen (name, "w")`. -/
  | fopen (name : String)
  /-- The call `fclose (fp)` on the file opened under the name. -/
  | fclose (name : String)
  /-- The call `x->obj->dumpState (fp)` on the object of an instance, by its name. -/
  | dumpState (fp : FILE) (inst : String)
  /-- The call `cobj->dumpStats (fp)` on the CHP object of an instance, by its name. -/
  | dumpStats (fp : FILE) (inst : String)
  /-- The call `warning (msg)`. -/
  | warning (msg : String)
  deriving DecidableEq, Repr

/-- The state the command handlers act on: the globals `glob_sp`, `glob_sim`,
`glob_dummy`, the static state of `SimDES`, the interpreter return value and the
two output streams. -/
structure Simulator where
  /-- State pass `glob_sp->getStateInfo (proc)`, by process name. -/
  getStateInfo : String → Option stateinfo_t
  /-- Root table `glob_sim->getInstTable ()`. -/
  getInstTable : ActInstTable
  /-- Bool slots by global offset (`glob_sim->getBool`): 0, 1, or 2 for X. -/
  getBool : Int → Nat
  /-- Int slots by global offset (`glob_sim->getInt`), `none` for a `NULL` pointer. -/
  getInt : Int → Option BigInt
  /-- Channel slots by global offset (`glob_sim->getChan`). -/
  getChan : Int → act_channel_state
  /-- Watchpoint registry `glob_sim->chkWatchPt (type, offset)`: the bucket name of a
  watched signal, `none` for `NULL`. -/
  chkWatchPt : Int → Int → Option String
  /-- Breakpoint registry by type and global offset. -/
  chkBreakPt : Int → Int → Option String
  /-- Fanout `glob_sim->getFO (offset, type)`; `numFanout` is its length. -/
  getFO : Int → Int → List Nat
  /-- Mode flag `glob_sim->isResetMode ()`. -/
  isResetMode : Bool
  /-- Warning policy `glob_sim->onWarning ()`: 0 resume, 1 break, 2 exit. -/
  onWarning : Nat
  /-- Current time `SimDES::CurTime ()`. -/
  CurTime : Nat
  /-- Pending events of `SimDES`. -/
  queue : List Event
  /-- Next tiebreak sequence number. -/
  seq : Nat
  /-- Interrupt flag (`LispInterruptExecution`, `SimDES::interrupt`). -/
  interrupted : Bool
  /-- Breakpoint flag of the kernel. -/
  break_flag : Bool
  /-- Events dispatched so far, oldest first. -/
  fired : List Event
  /-- Behaviour of the event owners. -/
  react : Event → Reaction
  /-- Field `gid` of `glob_dummy`. -/
  gid : Int
  /-- Interpreter return value. -/
  lispReturn : LispVal
  /-- Standard output, oldest item first. -/
  out : List Out
  /-- Standard error, oldest line first. -/
  err : List String
  /-- Trace entries recorded, oldest first. -/
  trace : List TraceRec
  /-- Calls made on simulation objects, oldest first. -/
  calls : List Call
  /-- Timing policy of `glob_sim`. -/
  random : RandomCfg := RandomCfg.off
  /-- Program counters of the live threads of each CHP object, by instance name. -/
  chp_threads : String → List Nat := fun _ => []
  /-- Program counter of a label of a process, `none` when the process has no such
  label. -/
  chp_labels : String → String → Option Nat := fun _ _ => none
  /-- Whether `fopen (name, "w")` returns `NULL` for the file name. -/
  fopen_fails : String → Bool := fun _ => false

/-- Modelled from the spec: `glob_sim->setBool (offset, val)` writes the Bool slot
at the global offset. -/
def Simulator.setBool (s : Simulator) (offset : Int) (val : Nat) : Simulator :=
  { s with getBool := fun k => if k = offset then val else s.getBool k }

/-- Modelled from the spec: `glob_sim->setInt (offset, v)` writes the Int slot at
the global offset. -/
def Simulator.setInt (s : Simulator) (offset : Int) (v : BigInt) : Simulator :=
  { s with getInt := fun k => if k = offset then some v else s.getInt k }

/-- Number of fanout entries `glob_sim->numFanout (offset, type)`. -/
def Simulator.numFanout (s : Simulator) (offset : Int) (type : Int) : Nat :=
  (s.getFO offset type).length

/-- Recording `glob_sim->recordTrace (nm, type, ACT_CHAN_IDLE, v)`. -/
def Simulator.recordTrace (s : Simulator) (nm : String) (type : Int) (v : BigInt) : Simulator :=
  { s with trace := s.trace ++ [⟨nm, type, v⟩] }

/-- Writing an item to standard output (`printf`). -/
def Simulator.printf (s : Simulator) (o : Out) : Simulator :=
  { s with out := s.out ++ [o] }

/-- Writing lines to standard error (`fprintf (stderr, ...)`). -/
def Simulator.eprintf (s : Simulator) (msgs : List String) : Simulator :=
  { s with err := s.err ++ msgs }

/-! ## Resolving an identifier -/

/-- Function `my_parse_id`. -/
def my_parse_id (L : ActLib) (s : String) : Option ActId := L.parseId s

/-- Function `find_table`: the table reached from `x` along the links of `id`;
each link is printed into `char buf[1024]` and the buffer is looked up. -/
def find_table : ActId → ActInstTable → Option ActInstTable
  | [], x => some x
  | c :: rest, x =>
    match x.H with
    | none => none
    | some h =>
      match hash_lookup h (c.sPrintBuf 1024) with
      | none => none
      | some t => find_table rest t

/-- Function `find_object`: the object found and the identifier `*id` is left
at; each link is printed into `char buf[1024]` and the buffer is looked up. -/
def find_object : ActId → ActInstTable → Option ActSimObj × ActId
  | [], x => (x.obj, [])
  | c :: rest, x =>
    match x.H with
    | none => (x.obj, c :: rest)
    | some h =>
      if c.ns then (x.obj, c :: rest)
      else
        match hash_lookup h (c.sPrintBuf 1024) with
        | none => (x.obj, c :: rest)
        | some t => find_object rest t

/-- The array dereference `ta` of the last link of an identifier
(`while (id->Rest()) id = id->Rest(); ta = id->arrayInfo();`). -/
def lastArray : ActId → Option String
  | [] => none
  | [c] => c.arr
  | _ :: rest => lastArray rest

/-- The identifier with the array dereference of its last link removed
(`id->setArray (NULL)` on the last link). -/
def stripLastArray : ActId → ActId
  | [] => []
  | [c] => [{ c with arr := none }]
  | c :: rest => c :: stripLastArray rest

/-- Function `id_obj_to_siminfo`: the type and the local offset of `id` within
`obj`, or the lines written to standard error when it returns 0. -/
def id_obj_to_siminfo (s : Simulator) (obj : Option ActSimObj) (id : ActId) :
    Except (List String) (Int × Int) :=
  match obj, id with
  | none, _ => .error []
  | some _, [] => .error []
  | some o, id =>
    match s.getStateInfo o.proc with
    | none => .error ["Could not find info for process `" ++ o.proc ++ "'\n"]
    | some si =>
      if !si.FullLookup id then
        .error ["Could not find identifier `" ++ printId id ++ "' within process `" ++ o.proc ++ "'\n"]
      else if !si.validateDeref id then
        .error ["Array index is missing/out of bounds in `" ++ printId id ++ "'!\n"]
      else if si.isParamType id then
        .error ["Operation only works for a circuit object, not parameter `" ++ printId id ++ "'\n"]
      else
        match si.Canonical id with
        | none => .error ["Identifier `" ++ printId id ++ "' not found in the design.\n"]
        | some c =>
          match si.getTypeOffset c with
          | some (offset, type) => .ok (type, offset)
          | none =>
            match lastArray id with
            | some ta =>
              let orig := stripLastArray id
              if !si.FullLookup orig then
                .error ["Could not find identifier `" ++ printId orig ++ "' within process `"
                  ++ o.proc ++ "'\n"]
              else
                match si.getTypeOffset (si.CanonicalBase orig) with
                | some (offset, type) => .ok (type, offset + si.arrayOffset orig ta)
                | none =>
                  .error ["Could not find identifier `" ++ printId id ++ "' within process `"
                    ++ o.proc ++ "'\n"]
            | none =>
              .error ["Could not find identifier `" ++ printId id ++ "' within process `"
                ++ o.proc ++ "'\n"]

/-- Function `id_to_siminfo_raw`: type, local offset and object of the named
signal. -/
def id_to_siminfo_raw (L : ActLib) (s : Simulator) (name : String) :
    Except (List String) (Int × Int × ActSimObj) :=
  match my_parse_id L name with
  | none => .error ["Could not parse `" ++ name ++ "' into an identifier\n"]
  | some id =>
    match find_object id s.getInstTable with
    | (none, _) => .error ["Could not find `" ++ name ++ "' in simulation\n"]
    | (some obj, tmp) =>
      match id_obj_to_siminfo s (some obj) tmp with
      | .error msgs => .error msgs
      | .ok (type, offset) => .ok (type, offset, obj)

/-- Function `id_to_siminfo`: as `id_to_siminfo_raw`, with type 3 turned into 2. -/
def id_to_siminfo (L : ActLib) (s : Simulator) (name : String) :
    Except (List String) (Int × Int × ActSimObj) :=
  match id_to_siminfo_raw L s name with
  | .error msgs => .error msgs
  | .ok (type, offset, obj) => .ok (if type = 3 then 2 else type, offset, obj)

/-- Function `id_to_siminfo_glob`: as `id_to_siminfo`, with the global offset. -/
def id_to_siminfo_glob (L : ActLib) (s : Simulator) (name : String) :
    Except (List String) (Int × Int × ActSimObj) :=
  match id_to_siminfo L s name with
  | .error msgs => .error msgs
  | .ok (type, offset, myobj) => .ok (type, myobj.getGlobalOffset offset type, myobj)

/-- Function `id_to_siminfo_glob_raw`: as `id_to_siminfo_raw`, with the global
offset. -/
def id_to_siminfo_glob_raw (L : ActLib) (s : Simulator) (name : String) :
    Except (List String) (Int × Int × ActSimObj) :=
  match id_to_siminfo_raw L s name with
  | .error msgs => .error msgs
  | .ok (type, offset, myobj) =>
    .ok (type, myobj.getGlobalOffset offset (if type = 3 then 2 else type), myobj)

/-! ## set -/

/-- The fanout loop of `process_set`: `p->propagate (glob_dummy)` on each entry,
in array order. -/
def propagate_all (s : Simulator) : List Nat → Simulator
  | [] => s
  | p :: ps => propagate_all { s with calls := s.calls ++ [Call.propagate p s.gid] } ps

/-- The tail of `process_set` (lines 853 to 861): set the cause of `glob_dummy`
and propagate to the fanout of the slot. -/
def set_fanout (s : Simulator) (offset : Int) (type : Int) : LispRet × Simulator :=
  let arr := s.getFO offset type
  let s1 := { s with gid := offset }
  (LispRet.LISP_RET_TRUE, propagate_all s1 (arr.take (s1.numFanout offset type)))

/-- The chain of `strcmp` tests of `process_set` (lines 786 to 798): the value
a Bool literal denotes, `none` for a literal that is rejected. -/
def bool_literal (v : String) : Option Nat :=
  if v = "0" ∨ v = "#f" then some 0
  else if v = "1" ∨ v = "#t" then some 1
  else if v = "X" then some 2
  else none

/-- The watchpoint block of the Bool branch of `process_set` (lines 799 to
814): when the slot is watched and the new value differs from the old one, the
log line is printed and the trace entry recorded. -/
def set_bool_watch (s : Simulator) (offset : Int) (type : Int) (val : Nat) : Simulator :=
  match s.chkWatchPt 0 offset with
  | some nm =>
    if s.getBool offset ≠ val then
      (s.printf (Out.boolSet s.CurTime nm val)).recordTrace nm type (BigInt.ofInt val)
    else s
  | none => s

/-- The watchpoint block of the Int branch of `process_set` (lines 831 to 846):
when the slot is watched and the new value differs from the old one, the log
line is printed and the trace entry recorded. -/
def set_int_watch (s : Simulator) (offset : Int) (type : Int) (otmp : BigInt) (rd : BigInt) :
    Simulator :=
  match s.chkWatchPt 1 offset with
  | some nm =>
    if otmp.ne rd then
      (s.printf (Out.intSet s.CurTime nm rd)).recordTrace nm type rd
    else s
  | none => s

/-- Function `process_set`. -/
def process_set (L : ActLib) (s : Simulator) (argv : List String) : LispRet × Simulator :=
  match argv with
  | [_, name, v] =>
    match id_to_siminfo_glob L s name with
    | .error msgs => (LispRet.LISP_RET_ERROR, s.eprintf msgs)
    | .ok (type, offset, _) =>
      if type = 2 ∨ type = 3 then
        (LispRet.LISP_RET_ERROR,
          s.printf (Out.text ("'" ++ name ++ "' is a channel; not currently supported!\n")))
      else if type = 0 then
        match bool_literal v with
        | none =>
          (LispRet.LISP_RET_ERROR, s.eprintf ["Boolean must be set to either 0, 1, or X\n"])
        | some val =>
          set_fanout ((set_bool_watch s offset type val).setBool offset val) offset type
      else if type = 1 then
        let rd := L.sscan v
        if rd.isNegative then
          (LispRet.LISP_RET_ERROR, s.eprintf ["Integers are unsigned.\n"])
        else
          match s.getInt offset with
          | none => (LispRet.crashed, s)
          | some otmp =>
            let before := rd
            let rd := rd.setWidth otmp.getWidth
            if before.ne rd then
              (LispRet.LISP_RET_ERROR,
                s.eprintf ["Value does not fit into variable's bitwidth.\n"])
            else
              set_fanout ((set_int_watch s offset type otmp rd).setInt offset rd) offset type
      else (LispRet.crashed, s.eprintf ["Should not be here"])
  | _ =>
    (LispRet.LISP_RET_ERROR, s.eprintf ["Usage: " ++ argv.headD "" ++ " <name> <val>\n"])

/-! ## get -/

/-- The channel branch shared by `process_get` and `process_assert`: the phase
code chosen by the chain of tests on the channel state. -/
def chan_code (c : act_channel_state) : Nat :=
  if WAITING_SENDER c then 1
  else if WAITING_SEND_PROBE c then 2
  else if WAITING_RECEIVER c then 3
  else if WAITING_RECV_PROBE c then 4
  else 0

/-- The text `process_get` prints for a channel in the phase with the given
code. -/
def chan_text (code : Nat) : String :=
  if code = 1 then "waiting sender"
  else if code = 2 then "waiting sender probe"
  else if code = 3 then "waiting receiver"
  else if code = 4 then "waiting receiver probe"
  else "idle"

/-- Function `process_get`. -/
def process_get (L : ActLib) (s : Simulator) (argv : List String) : LispRet × Simulator :=
  if argv.length ≠ 2 ∧ argv.length ≠ 3 then
    (LispRet.LISP_RET_ERROR, s.eprintf ["Usage: " ++ argv.headD "" ++ " <name> [#f]\n"])
  else
    let name := argv.getD 1 ""
    match id_to_siminfo_glob L s name with
    | .error msgs => (LispRet.LISP_RET_ERROR, s.eprintf msgs)
    | .ok (type, offset, _) =>
      if type = 0 then
        let val := s.getBool offset
        let s1 := { s with lispReturn := LispVal.int val }
        let s2 :=
          if argv.length = 2 then
            s1.printf (Out.text (name ++ ": "
              ++ (if val = 0 then "0" else if val = 1 then "1" else "X") ++ "\n"))
          else s1
        (LispRet.LISP_RET_INT, s2)
      else if type = 1 then
        match s.getInt offset with
        | none =>
          (LispRet.LISP_RET_ERROR,
            s.printf (Out.text (argv.headD "" ++ ": couldn't get integer `" ++ name ++ "'?\n")))
        | some ival =>
          if ival.getLen > 1 then
            let s1 :=
              { s with lispReturn := LispVal.list ((List.range ival.getLen).map ival.getVal) }
            let s2 :=
              if argv.length = 2 then
                s1.printf (Out.text (name ++ ": " ++ decPrint ival.val.toNat 0 ++ "  (0x"
                  ++ hexPrint ival.val.toNat ++ ")\n"))
              else s1
            (LispRet.LISP_RET_LIST, s2)
          else
            let val := ival.getVal 0
            let s1 := { s with lispReturn := LispVal.int val }
            let s2 :=
              if argv.length = 2 then
                s1.printf (Out.text (name ++ ": " ++ decPrint val 0 ++ "  (0x"
                  ++ hexPrint val ++ ")\n"))
              else s1
            (LispRet.LISP_RET_INT, s2)
      else
        let c := s.getChan offset
        let s1 := s.printf (Out.text (name ++ ": " ++ chan_text (chan_code c) ++ "\n"))
        (LispRet.LISP_RET_INT, { s1 with lispReturn := LispVal.int (chan_code c) })

/-! ## watch and unwatch -/

/-- Modelled from the spec: `obj->addWatchPoint (type, offset, name)` enters the
signal, keyed by its type and global offset, into the set of watched signals,
under the name given (section 4.6, WatchBreak). -/
def Simulator.addWatchPoint (s : Simulator) (obj : ActSimObj) (type : Int) (offset : Int)
    (name : String) : Simulator :=
  { s with chkWatchPt := fun t k =>
      if t = type ∧ k = obj.getGlobalOffset offset type then some name else s.chkWatchPt t k }

/-- Modelled from the spec: `obj->delWatchPoint (type, offset)` removes the
signal, keyed by its type and global offset, from the set of watched signals
(section 4.6, WatchBreak). -/
def Simulator.delWatchPoint (s : Simulator) (obj : ActSimObj) (type : Int) (offset : Int) :
    Simulator :=
  { s with chkWatchPt := fun t k =>
      if t = type ∧ k = obj.getGlobalOffset offset type then none else s.chkWatchPt t k }

/-- The loop of `process_watch` over `argv[1]`, ..., `argv[argc-1]`. -/
def watch_loop (L : ActLib) (s : Simulator) : List String → LispRet × Simulator
  | [] => (LispRet.LISP_RET_TRUE, s)
  | name :: rest =>
    match id_to_siminfo L s name with
    | .error msgs => (LispRet.LISP_RET_ERROR, s.eprintf msgs)
    | .ok (type, offset, obj) => watch_loop L (s.addWatchPoint obj type offset name) rest

/-- Function `process_watch`. -/
def process_watch (L : ActLib) (s : Simulator) (argv : List String) : LispRet × Simulator :=
  if argv.length < 2 then
    (LispRet.LISP_RET_ERROR, s.eprintf ["Usage: " ++ argv.headD "" ++ " <n1> <n2> ...\n"])
  else watch_loop L s argv.tail

/-- The loop of `process_unwatch` over `argv[1]`, ..., `argv[argc-1]`. -/
def unwatch_loop (L : ActLib) (s : Simulator) : List String → LispRet × Simulator
  | [] => (LispRet.LISP_RET_TRUE, s)
  | name :: rest =>
    match id_to_siminfo L s name with
    | .error msgs => (LispRet.LISP_RET_ERROR, s.eprintf msgs)
    | .ok (type, offset, obj) => unwatch_loop L (s.delWatchPoint obj type offset) rest

/-- Function `process_unwatch`. -/
def process_unwatch (L : ActLib) (s : Simulator) (argv : List String) : LispRet × Simulator :=
  if argv.length < 2 then
    (LispRet.LISP_RET_ERROR, s.eprintf ["Usage: " ++ argv.headD "" ++ " <n1> <n2> ...\n"])
  else unwatch_loop L s argv.tail

/-! ## skip-comm -/

/-- Modelled from the spec: `chp->skipChannelAction (is_send, offset)` drops the
pending send (`is_send` = 1) of a channel waiting for its sender to be met, or
the pending receive (`is_send` = 0) of a channel waiting for its receiver to be
met, and returns the channel to Idle; the completed count is not changed
(section 4.3, skip rows).  The call is recorded. -/
def Simulator.skipChannelAction (s : Simulator) (is_send : Int) (offset : Int) : Simulator :=
  let c := s.getChan offset
  let c1 : act_channel_state :=
    if (is_send = 1 ∧ c.phase = Phase.WaitingSender)
        ∨ (is_send = 0 ∧ c.phase = Phase.WaitingReceiver) then
      { c with phase := Phase.Idle }
    else c
  { s with
    getChan := fun k => if k = offset then c1 else s.getChan k
    calls := s.calls ++ [Call.skipChannelAction is_send offset] }

/-- Function `process_skipcomm`. -/
def process_skipcomm (L : ActLib) (s : Simulator) (argv : List String) : LispRet × Simulator :=
  match argv with
  | [cmd, name] =>
    match id_to_siminfo_glob_raw L s name with
    | .error msgs => (LispRet.LISP_RET_ERROR, s.eprintf msgs)
    | .ok (type, offset, _) =>
      if ¬ (type = 2 ∨ type = 3) then
        (LispRet.LISP_RET_ERROR,
          s.printf (Out.text (cmd ++ ": '" ++ name ++ "' is a not a channel!\n")))
      else
        match my_parse_id L name with
        | none =>
          (LispRet.LISP_RET_ERROR,
            s.eprintf [cmd ++ ": could not parse `" ++ name ++ "' into an identifier"])
        | some id =>
          match (find_object id s.getInstTable).1 with
          | none =>
            (LispRet.LISP_RET_ERROR,
              s.eprintf [cmd ++ ": could not find instance `" ++ name ++ "'\n"])
          | some obj =>
            if ¬ obj.isChp then
              (LispRet.LISP_RET_ERROR,
                s.eprintf [cmd ++ ": only supported for CHP/HSE components\n"])
            else
              let c := s.getChan offset
              if WAITING_SENDER c then
                if type ≠ 3 then
                  (LispRet.LISP_RET_ERROR, s.printf (Out.text (name
                    ++ ": state is waiting-send; use this command for the sending process.\n")))
                else (LispRet.LISP_RET_TRUE, s.skipChannelAction 1 offset)
              else if WAITING_RECEIVER c then
                if type ≠ 2 then
                  (LispRet.LISP_RET_ERROR, s.printf (Out.text (name
                    ++ ": state is waiting-recv; use this command for the receiving process.\n")))
                else (LispRet.LISP_RET_TRUE, s.skipChannelAction 0 offset)
              else
                (LispRet.LISP_RET_ERROR, s.printf (Out.text (cmd ++ ": channel `" ++ name
                  ++ "' is not in a state where it can be skipped.\n")))
  | _ => (LispRet.LISP_RET_ERROR, s.eprintf ["Usage: " ++ argv.headD "" ++ " <name>\n"])

/-! ## The event kernel and step -/

/-- Modelled from the spec: the order of events, lexicographic on the deadline
and the tiebreak (section 4.1). -/
def Event.before (a b : Event) : Bool :=
  a.deadline < b.deadline || (a.deadline == b.deadline && a.tiebreak < b.tiebreak)

/-- Modelled from the spec: the earliest event of a list in the order
`Event.before`. -/
def earliest : List Event → Option Event
  | [] => none
  | e :: es =>
    match earliest es with
    | none => some e
    | some m => if m.before e then some m else some e

/-- Modelled from the spec: the dispatch filter; in reset mode only events of
PRS or HSE origin are dispatched (section 4.2, `reset_mode`). -/
def Simulator.eligible (s : Simulator) (e : Event) : Bool :=
  !s.isResetMode || e.kind != Origin.chp

/-- Modelled from the spec: the events a dispatched event posts, at the current
time plus their delay and with consecutive fresh tiebreaks. -/
def postAll (now : Nat) : Nat → List (Nat × Nat × Origin) → List Event
  | _, [] => []
  | seq, (d, o, k) :: ps => ⟨now + d, seq, o, k⟩ :: postAll now (seq + 1) ps

/-- Modelled from the spec: dispatch of one event; the time becomes its
deadline, the event leaves the queue, its owner posts the follow-up events and
may raise the breakpoint flag (section 4.2, Dispatch).  The pending events that
come before it in the order, which the filter did not admit (CHP processes in
reset mode), are skipped: they leave the queue without their owner being run, so
that no event stays pending with a deadline before the current time (section 3:
every fired event has `deadline ≥ now_before_fire`, and `now` is
non-decreasing). -/
def Simulator.dispatch (s : Simulator) (ev : Event) : Simulator :=
  let r := s.react ev
  { s with
    CurTime := ev.deadline
    queue := (s.queue.filter (fun e => !e.before ev)).erase ev
      ++ postAll ev.deadline s.seq r.post
    seq := s.seq + r.post.length
    break_flag := s.break_flag || r.brk
    fired := s.fired ++ [ev] }

/-- Modelled from the spec: the dispatch loop of `Step`: up to `n` times the
earliest event the filter admits is dispatched, stopping at the interrupt flag,
at the breakpoint flag, or when the filter admits no pending event. -/
def Simulator.stepLoop : Nat → Simulator → Simulator
  | 0, s => s
  | n + 1, s =>
    if s.interrupted || s.break_flag then s
    else
      match earliest (s.queue.filter s.eligible) with
      | none => s
      | some ev => Simulator.stepLoop n (s.dispatch ev)

/-- Modelled from the spec: `glob_sim->Step (n)` pops and dispatches up to `n`
events or until the interrupt flag or a breakpoint flag is raised (section 4.2,
`step(n)`); the breakpoint flag is cleared on entry. -/
def Simulator.Step (s : Simulator) (n : Int) : Simulator :=
  Simulator.stepLoop n.toNat { s with break_flag := false }

/-- Modelled from the spec: `SimDES::hasPendingEvent ()`, whether the event
queue is not empty. -/
def Simulator.hasPendingEvent (s : Simulator) : Bool := !s.queue.isEmpty

/-- The tail of `process_step` (lines 133 to 139). -/
def step_run (s : Simulator) (nsteps : Int) : LispRet × Simulator :=
  let s1 := s.Step nsteps
  if s1.hasPendingEvent then (LispRet.LISP_RET_TRUE, s1) else (LispRet.LISP_RET_FALSE, s1)

/-- Function `process_step`.  The local `nsteps` is not initialised in the
source; `uninit` is the content it has before `sscanf` runs. -/
def process_step (L : ActLib) (uninit : Int) (s : Simulator) (argv : List String) :
    LispRet × Simulator :=
  match argv with
  | [_] => step_run s 1
  | [cmd, a] =>
    let nsteps := (L.sscanf_ld a).getD uninit
    if nsteps ≤ 0 then
      (LispRet.LISP_RET_ERROR, s.eprintf [cmd ++ ": zero/negative steps?\n"])
    else step_run s nsteps
  | _ => (LispRet.LISP_RET_ERROR, s.eprintf ["Usage: " ++ argv.headD "" ++ " [num]\n"])

/-! ## cycle -/

/-- Function `signal_handler`: the interrupt flag of the interpreter and of the
kernel is raised. -/
def signal_handler (s : Simulator) : Simulator := { s with interrupted := true }

/-- Function `clr_interrupt`. -/
def clr_interrupt (s : Simulator) : Simulator := { s with interrupted := false }

/-- Modelled from the spec: the predicate `_match_hseprs`, whether an event is
of PRS or HSE origin. -/
def _match_hseprs (e : Event) : Bool := e.kind != Origin.chp

/-- Modelled from the spec: `SimDES::matchPendingEvent (f)`, whether some
pending event satisfies the predicate. -/
def Simulator.matchPendingEvent (s : Simulator) (f : Event → Bool) : Bool := s.queue.any f

/-- The dispatch loop of `runSim`; it ends at the interrupt flag, at the
breakpoint flag, or when no event can be dispatched; `none` when the fuel runs
out before that. -/
def Simulator.runLoop : Nat → Simulator → Option Simulator
  | 0, s =>
    if s.interrupted || s.break_flag then some s
    else
      match earliest (s.queue.filter s.eligible) with
      | none => some s
      | some _ => none
  | fuel + 1, s =>
    if s.interrupted || s.break_flag then some s
    else
      match earliest (s.queue.filter s.eligible) with
      | none => some s
      | some ev => Simulator.runLoop fuel (s.dispatch ev)

/-- Modelled from the spec: `glob_sim->runSim (NULL)` steps until the queue is
empty, a breakpoint trips, or the interrupt flag is raised (section 4.2,
`run()`); the breakpoint flag is cleared on entry. -/
def Simulator.runSim (s : Simulator) (fuel : Nat) : Option Simulator :=
  Simulator.runLoop fuel { s with break_flag := false }

/-- The state at the `i`-th test of `LispInterruptExecution` in the loop of
`process_cycle`: `sig i` tells whether SIGINT was delivered, and so
`signal_handler` run, since the test before. -/
def at_test (sig : Nat → Bool) (i : Nat) (s : Simulator) : Simulator :=
  if sig i then signal_handler s else s

/-- The loop of `process_cycle` in reset mode (lines 102 to 108), from its `i`-th
test on; `none` when the fuel runs out before the loop ends. -/
def cycle_reset_loop (sig : Nat → Bool) : Nat → Nat → Simulator → Option Simulator
  | 0, i, s =>
    if (at_test sig i s).interrupted then some (at_test sig i s)
    else if !(at_test sig i s).matchPendingEvent _match_hseprs then some (at_test sig i s)
    else none
  | fuel + 1, i, s =>
    if (at_test sig i s).interrupted then some (at_test sig i s)
    else if !(at_test sig i s).matchPendingEvent _match_hseprs then some (at_test sig i s)
    else cycle_reset_loop sig fuel (i + 1) ((at_test sig i s).Step 1)

/-- Function `process_cycle`; `none` when the fuel runs out before the
simulation stops. -/
def process_cycle (sig : Nat → Bool) (fuel : Nat) (s : Simulator) (argv : List String) :
    Option (LispRet × Simulator) :=
  if argv.length ≠ 1 then
    some (LispRet.LISP_RET_ERROR, s.eprintf ["Usage: " ++ argv.headD "" ++ "\n"])
  else if s.isResetMode then
    match cycle_reset_loop sig fuel 0 s with
    | some s1 => some (LispRet.LISP_RET_TRUE, s1)
    | none => none
  else
    match s.runSim fuel with
    | some s1 => some (LispRet.LISP_RET_TRUE, s1)
    | none => none

/-! ## mode -/

/-- Modelled from the spec: `glob_sim->setMode (m)` sets the dispatch filter,
reset mode for 1 and run mode for 0; the queue is not flushed (section 5, Reset
vs run modes). -/
def Simulator.setMode (s : Simulator) (m : Int) : Simulator :=
  { s with isResetMode := decide (m = 1) }

/-- Function `process_mode`. -/
def process_mode (s : Simulator) (argv : List String) : LispRet × Simulator :=
  match argv with
  | [cmd, m] =>
    if m = "reset" then (LispRet.LISP_RET_TRUE, s.setMode 1)
    else if m = "run" then (LispRet.LISP_RET_TRUE, s.setMode 0)
    else (LispRet.LISP_RET_ERROR, s.eprintf [cmd ++ ": unknown mode\n"])
  | _ => (LispRet.LISP_RET_ERROR, s.eprintf ["Usage: " ++ argv.headD "" ++ " reset|run\n"])

/-! ## assert -/

/-- Modelled from the spec: `operator==` on `BigInt` compares numeric values. -/
def BigInt.eq (a b : BigInt) : Bool := a.val == b.val

/-- The character `(v == 0 ? '0' : (v == 1 ? '1' : 'X'))`. -/
def ternChar (v : Nat) : String := if v = 0 then "0" else if v = 1 then "1" else "X"

/-- One branch of the channel chain of `process_assert`: the channel is in the
phase with the given code and text; the result is the state after the warning,
if any, and the flag `assert_false`. -/
def assert_chan (s : Simulator) (name : String) (code : Nat) (text : String)
    (expected_int : Nat) : Simulator × Bool :=
  if code = expected_int then (s, false)
  else
    (s.printf (Out.text ("Warning: WRONG ASSERT:\t\"" ++ name ++ "\" has state "
      ++ decPrint code 0 ++ " (" ++ text ++ ") and not " ++ decPrint expected_int 0 ++ ".\n")),
      true)

/-- The tail of `process_assert` (lines 1059 to 1064): a failed assertion ends the
process with code 2 under exit-on-warn and returns `LISP_RET_FALSE` otherwise. -/
def assert_end (r : Simulator × Bool) : LispRet × Simulator :=
  if r.2 then
    if r.1.onWarning = 2 then (LispRet.exited 2, r.1) else (LispRet.LISP_RET_FALSE, r.1)
  else (LispRet.LISP_RET_TRUE, r.1)

/-- Function `process_assert`. -/
def process_assert (L : ActLib) (s : Simulator) (argv : List String) : LispRet × Simulator :=
  match argv with
  | [cmd, name, v] =>
    match id_to_siminfo_glob L s name with
    | .error msgs => (LispRet.LISP_RET_ERROR, s.eprintf msgs)
    | .ok (type, offset, _) =>
      let expected_val := L.sscan v
      let expected_int := expected_val.getVal 0
      if type = 0 then
        if expected_val.getVal 0 > 2 ∨ expected_val.getLen > 1 then
          (LispRet.LISP_RET_ERROR, s.printf (Out.text
            "ERROR: A Boolean value should only be asserted to be 0 (F), 1 (T), or 2 (X)\n"))
        else
          let val := s.getBool offset
          if val = expected_int then assert_end (s, false)
          else
            assert_end (s.printf (Out.text ("Warning: WRONG ASSERT:\t\"" ++ name
              ++ "\" has value " ++ ternChar val ++ " and not " ++ ternChar expected_int
              ++ ".\n")), true)
      else if type = 1 then
        match s.getInt offset with
        | none =>
          (LispRet.LISP_RET_ERROR,
            s.printf (Out.text (cmd ++ ": couldn't get integer `" ++ name ++ "'?\n")))
        | some ival =>
          if ival.eq expected_val then assert_end (s, false)
          else
            assert_end (s.printf (Out.text ("Warning: WRONG ASSERT:\t\"" ++ name
              ++ "\" has value " ++ decPrint ival.val.toNat 0 ++ "and not"
              ++ decPrint expected_val.val.toNat 0 ++ "\n")), true)
      else
        let c := s.getChan offset
        if WAITING_SENDER c then
          assert_end (assert_chan s name 1 "waiting sender" expected_int)
        else if WAITING_SEND_PROBE c then
          assert_end (assert_chan s name 2 "waiting sender probe" expected_int)
        else if WAITING_RECEIVER c then
          assert_end (assert_chan s name 3 "waiting receiver" expected_int)
        else if WAITING_RECV_PROBE c then
          assert_end (assert_chan s name 4 "waiting receiver probe" expected_int)
        else assert_end (assert_chan s name 0 "idle" expected_int)
  | _ =>
    (LispRet.LISP_RET_ERROR, s.eprintf ["Usage: " ++ argv.headD "" ++ " <name> <value>\n"])

/-! ## random -/

/-- Modelled from the spec: `glob_sim->setRandom (b)`, random delays without a
configured range; `b` tells whether only unspecified delays are randomised. -/
def Simulator.setRandom (s : Simulator) (unspec : Bool) : Simulator :=
  { s with random := RandomCfg.on unspec }

/-- Modelled from the spec: `glob_sim->setRandom (min, max, b)`, random delays
drawn from `[min, max]`; `b` tells whether only unspecified delays are
randomised (section 4.2, Random timing). -/
def Simulator.setRandomRange (s : Simulator) (min : Int) (max : Int) (unspec : Bool) :
    Simulator :=
  { s with random := RandomCfg.range min max unspec }

/-- Function `process_random`. -/
def process_random (L : ActLib) (s : Simulator) (argv : List String) : LispRet × Simulator :=
  if argv.length = 1 then (LispRet.LISP_RET_TRUE, s.setRandom false)
  else if argv.length = 3 ∨ argv.length = 4 then
    if argv.length = 4 ∧ argv.getD 1 "" ≠ "-u" then
      (LispRet.LISP_RET_ERROR, s.eprintf ["Usage: " ++ argv.headD "" ++ " [-u] [min max]\n"])
    else
      (LispRet.LISP_RET_TRUE,
        s.setRandomRange (L.atoi (argv.getD 1 "")) (L.atoi (argv.getD 2 ""))
          (if argv.length = 4 then true else false))
  else if argv.length = 2 then
    if argv.getD 1 "" ≠ "-u" then
      (LispRet.LISP_RET_ERROR, s.eprintf ["Usage: " ++ argv.headD "" ++ " [-u] [min max]\n"])
    else (LispRet.LISP_RET_TRUE, s.setRandom true)
  else
    (LispRet.LISP_RET_ERROR, s.eprintf ["Usage: " ++ argv.headD "" ++ " [-u] [min max]\n"])

/-! ## goto -/

/-- Modelled from the spec: `chp->jumpTo (label)` moves the program counter of
a process with exactly one live thread to the labelled statement and returns 1;
it fails, returning 0 and changing nothing, when the process has several live
threads or none, or has no such label (section 4.4, GOTO and jump-to-label).
The call is recorded. -/
def Simulator.jumpTo (s : Simulator) (chp : ActSimObj) (label : String) : Bool × Simulator :=
  let s1 := { s with calls := s.calls ++ [Call.jumpTo chp.proc label] }
  match s.chp_threads chp.name, s.chp_labels chp.proc label with
  | [_], some pc =>
    (true, { s1 with chp_threads := fun k => if k = chp.name then [pc] else s.chp_threads k })
  | _, _ => (false, s1)

/-- The identifier `id` of `process_goto` (lines 553 to 563): the parsed
instance name when there is one, `NULL` (the empty chain) otherwise; `none`
when the name does not parse. -/
def goto_id (L : ActLib) (argv : List String) : Option ActId :=
  if argv.length = 3 then my_parse_id L (argv.getD 1 "") else some []

/-- The label `argv[argc-1]` of `process_goto`. -/
def goto_label (argv : List String) : String := argv.getD (argv.length - 1) ""

/-- Function `process_goto`. -/
def process_goto (L : ActLib) (s : Simulator) (argv : List String) : LispRet × Simulator :=
  if argv.length ≠ 3 ∧ argv.length ≠ 2 then
    (LispRet.LISP_RET_ERROR,
      s.eprintf ["Usage: " ++ argv.headD "" ++ " [<inst-name>] <label>\n"])
  else
    match goto_id L argv with
    | none =>
      (LispRet.LISP_RET_ERROR,
        s.eprintf ["Could not parse `" ++ argv.getD 1 "" ++ "' into an instance name\n"])
    | some id =>
      match find_table id s.getInstTable with
      | none =>
        (LispRet.LISP_RET_ERROR,
          s.eprintf ["Could not find instance `" ++ argv.getD 1 "" ++ "'\n"])
      | some inst =>
        match inst.obj.filter (fun o => o.isChp) with
        | none =>
          (LispRet.LISP_RET_ERROR,
            s.eprintf ["Instance `" ++ argv.getD 1 "" ++ "' is not a CHP process.\n"])
        | some chp =>
          if (s.jumpTo chp (goto_label argv)).1 then
            (LispRet.LISP_RET_TRUE, (s.jumpTo chp (goto_label argv)).2)
          else (LispRet.LISP_RET_ERROR, (s.jumpTo chp (goto_label argv)).2)

/-! ## initialize -/

/-- A process of the design (`Process *`): its name and whether it is expanded. -/
structure Process where
  name : String
  isExpanded : Bool
  deriving DecidableEq, Repr

/-- The design read at start-up (`glob_act`), as `process_initialize` uses it:
the lookup `findProcess`, and for each process the state pass and the simulator
that `new ActStatePass`, `run`, `new ActSim` and `runInit` build for it. -/
structure Act where
  /-- Lookup `glob_act->findProcess (name)`, `none` for `NULL`. -/
  findProcess : String → Option Process
  /-- The state pass and the simulator built for a process, initial events posted. -/
  design : Process → Simulator

/-- Lines 178 to 186 of `process_initialize`: the old simulator and state pass
are deleted, the kernel is initialised again, and the state pass and the
simulator of `p` take their place.  The output streams, the interpreter return
value, `glob_dummy`, the interrupt flag, the file system and the records kept by
the embedding are not part of the simulator and stay. -/
def Act.install (A : Act) (s : Simulator) (p : Process) : Simulator :=
  { A.design p with
    out := s.out
    err := s.err
    lispReturn := s.lispReturn
    gid := s.gid
    interrupted := s.interrupted
    trace := s.trace
    fired := s.fired
    fopen_fails := s.fopen_fails
    calls := s.calls ++ [Call.delete_glob_sim, Call.delete_glob_sp, Call.SimDES_Init,
      Call.new_ActStatePass p.name, Call.new_ActSim p.name, Call.runInit] }

/-- Function `process_initialize`. -/
def process_initialize (A : Act) (s : Simulator) (argv : List String) : LispRet × Simulator :=
  match argv with
  | [cmd, pname] =>
    match A.findProcess pname with
    | none =>
      (LispRet.LISP_RET_ERROR,
        s.eprintf [cmd ++ ": could not find process " ++ pname ++ "\n"])
    | some p =>
      if !p.isExpanded then
        (LispRet.LISP_RET_ERROR,
          s.eprintf [cmd ++ ": `" ++ pname ++ "' is not an expanded process\n"])
      else (LispRet.LISP_RET_TRUE, A.install s p)
  | _ => (LispRet.LISP_RET_ERROR, s.eprintf ["Usage: " ++ argv.headD "" ++ " <process>\n"])

/-! ## procinfo and coverage -/

mutual
/-- Function `dump_state` on a table that is not `NULL`: `dumpState (fp)` on the
object of the table, if it has one, and then on the sub-tables, in the order of
the hash table. -/
def dump_state (fp : FILE) : ActInstTable → List Call
  | .mk obj H =>
    (match obj with
      | none => []
      | some o => [Call.dumpState fp o.name]) ++ dump_state_H fp H
/-- The part of `dump_state` guarded by `if (x->H)`. -/
def dump_state_H (fp : FILE) : Option (List (String × ActInstTable)) → List Call
  | none => []
  | some h => dump_state_buckets fp h
/-- The loop of `dump_state` over the buckets of the hash table. -/
def dump_state_buckets (fp : FILE) : List (String × ActInstTable) → List Call
  | [] => []
  | b :: rest => dump_state_bucket fp b ++ dump_state_buckets fp rest
/-- The body of the loop of `dump_state`, on the value `b->v` of one bucket. -/
def dump_state_bucket (fp : FILE) : String × ActInstTable → List Call
  | (_, tmp) => dump_state fp tmp
end

mutual
/-- Function `dump_coverage` on a table that is not `NULL`: `dumpStats (fp)` on
the object of the table, if it is a `ChpSim`, and then on the sub-tables, in the
order of the hash table. -/
def dump_coverage (fp : FILE) : ActInstTable → List Call
  | .mk obj H =>
    (match obj with
      | none => []
      | some o => if o.isChp then [Call.dumpStats fp o.name] else []) ++ dump_coverage_H fp H
/-- The part of `dump_coverage` guarded by `if (x->H)`. -/
def dump_coverage_H (fp : FILE) : Option (List (String × ActInstTable)) → List Call
  | none => []
  | some h => dump_coverage_buckets fp h
/-- The loop of `dump_coverage` over the buckets of the hash table. -/
def dump_coverage_buckets (fp : FILE) : List (String × ActInstTable) → List Call
  | [] => []
  | b :: rest => dump_coverage_bucket fp b ++ dump_coverage_buckets fp rest
/-- The body of the loop of `dump_coverage`, on the value `b->v` of one bucket. -/
def dump_coverage_bucket (fp : FILE) : String × ActInstTable → List Call
  | (_, tmp) => dump_coverage fp tmp
end

/-- Function `dump_state` on the result of `find_table`: a warning for `NULL`. -/
def dump_state_at (fp : FILE) (x : Option ActInstTable) : List Call :=
  match x with
  | none => [Call.warning "Didn't find info; is this a valid instance?"]
  | some t => dump_state fp t

/-- Function `dump_coverage` on the result of `find_table`: a warning for `NULL`. -/
def dump_coverage_at (fp : FILE) (x : Option ActInstTable) : List Call :=
  match x with
  | none => [Call.warning "Didn't find info; is this a valid instance?"]
  | some t => dump_coverage fp t

/-- Lines 379 to 389 of `process_procinfo` (503 to 513 of `process_coverage`):
the stream for `argv[1]`, the standard output for `-` and otherwise the file
opened under that name; `none` when `fopen` returns `NULL`. -/
def open_out (s : Simulator) (a1 : String) : Option (FILE × Simulator) :=
  if a1 = "-" then some (FILE.stdout, s)
  else if s.fopen_fails a1 then none
  else some (FILE.file a1, { s with calls := s.calls ++ [Call.fopen a1] })

/-- The statement `if (fp != stdout) fclose (fp)`. -/
def close_out (s : Simulator) (fp : FILE) : Simulator :=
  match fp with
  | .stdout => s
  | .file n => { s with calls := s.calls ++ [Call.fclose n] }

/-- Function `process_procinfo`. -/
def process_procinfo (L : ActLib) (s : Simulator) (argv : List String) : LispRet × Simulator :=
  if argv.length ≠ 2 ∧ argv.length ≠ 3 then
    (LispRet.LISP_RET_ERROR,
      s.eprintf ["Usage: " ++ argv.headD "" ++ " <filename> [<instance-name>]\n"])
  else
    match open_out s (argv.getD 1 "") with
    | none =>
      (LispRet.LISP_RET_ERROR,
        s.eprintf [argv.headD "" ++ ": could not open file `" ++ argv.getD 1 ""
          ++ "' for writing\n"])
    | some (fp, s1) =>
      if argv.length = 2 then
        (LispRet.LISP_RET_TRUE,
          close_out { s1 with calls := s1.calls ++ dump_state fp s1.getInstTable } fp)
      else
        match my_parse_id L (argv.getD 1 "") with
        | none =>
          (LispRet.LISP_RET_ERROR,
            s1.eprintf ["Could not parse `" ++ argv.getD 1 "" ++ "' into an instance name\n"])
        | some id =>
          (LispRet.LISP_RET_TRUE,
            close_out
              { s1 with calls := s1.calls ++ dump_state_at fp (find_table id s1.getInstTable) }
              fp)

/-- Function `process_coverage`. -/
def process_coverage (L : ActLib) (s : Simulator) (argv : List String) : LispRet × Simulator :=
  if argv.length ≠ 2 ∧ argv.length ≠ 3 then
    (LispRet.LISP_RET_ERROR,
      s.eprintf ["Usage: " ++ argv.headD "" ++ " <filename> [<instance-name>]\n"])
  else
    match open_out s (argv.getD 1 "") with
    | none =>
      (LispRet.LISP_RET_ERROR,
        s.eprintf [argv.headD "" ++ ": could not open file `" ++ argv.getD 1 ""
          ++ "' for writing\n"])
    | some (fp, s1) =>
      if argv.length = 2 then
        (LispRet.LISP_RET_TRUE,
          close_out { s1 with calls := s1.calls ++ dump_coverage fp s1.getInstTable } fp)
      else
        match my_parse_id L (argv.getD 1 "") with
        | none =>
          (LispRet.LISP_RET_ERROR,
            s1.eprintf ["Could not parse `" ++ argv.getD 1 "" ++ "' into an instance name\n"])
        | some id =>
          (LispRet.LISP_RET_TRUE,
            close_out
              { s1 with
                calls := s1.calls ++ dump_coverage_at fp (find_table id s1.getInstTable) }
              fp)

/-! ## mget -/

/-- The loop of `process_mget` over `argv[1]`, ..., `argv[argc-1]`.  The pointer
`glob_sim->getInt (offset)` is used without a test, so a `NULL` ends the
process. -/
def mget_loop (L : ActLib) (s : Simulator) : List String → LispRet × Simulator
  | [] => (LispRet.LISP_RET_TRUE, s)
  | name :: rest =>
    match id_to_siminfo_glob L s name with
    | .error msgs => (LispRet.LISP_RET_ERROR, s.eprintf msgs)
    | .ok (type, offset, _) =>
      if type = 2 ∨ type = 3 then
        (LispRet.LISP_RET_ERROR,
          s.printf (Out.text ("'" ++ name ++ "' is a channel; not currently supported!\n")))
      else if type = 0 then
        let val := s.getBool offset
        mget_loop L
          (s.printf (Out.text (name ++ ": "
            ++ (if val = 0 then "0" else if val = 1 then "1" else "X") ++ "\n")))
          rest
      else if type = 1 then
        match s.getInt offset with
        | none => (LispRet.crashed, s)
        | some ival =>
          mget_loop L
            (s.printf (Out.text (name ++ ": " ++ decPrint (ival.getVal 0) 0 ++ "  (0x"
              ++ hexPrint (ival.getVal 0) ++ ")\n")))
            rest
      else mget_loop L s rest

/-- Function `process_mget`. -/
def process_mget (L : ActLib) (s : Simulator) (argv : List String) : LispRet × Simulator :=
  if argv.length < 2 then
    (LispRet.LISP_RET_ERROR,
      s.eprintf ["Usage: " ++ argv.headD "" ++ " <name1> <name2> ...\n"])
  else mget_loop L s argv.tail

/-! ## Observations used in the statements -/

/-- The value a `set` argument denotes for a slot of the given type: the value
of the Bool literal for type 0 (`none` for a literal that is rejected), the
integer read by `sscan` otherwise. -/
def set_value (L : ActLib) (type : Int) (v : String) : Option Int :=
  if type = 0 then (bool_literal v).map Int.ofNat else some (L.sscan v).val

/-- The current value of the Bool slot (type 0) or of the Int slot at a global
offset. -/
def slot_value (s : Simulator) (type : Int) (offset : Int) : Option Int :=
  if type = 0 then some (Int.ofNat (s.getBool offset)) else (s.getInt offset).map BigInt.val

/-- Scenario S4 of the specification: `watch n; set n 1; set n 1; set n 0`. -/
def scenario_S4 (L : ActLib) (s : Simulator) (n : String) : Simulator :=
  let s1 := (process_watch L s ["watch", n]).2
  let s2 := (process_set L s1 ["set", n, "1"]).2
  let s3 := (process_set L s2 ["set", n, "1"]).2
  (process_set L s3 ["set", n, "0"]).2

/-- The state invariant of the Int slots: every slot holds a value in
`[0, 2^W)`, `W` being its declared width. -/
def int_slots_in_range (s : Simulator) : Prop :=
  ∀ k b, s.getInt k = some b → 0 ≤ b.val ∧ b.val < 2 ^ b.width

/-- The state `assert` compares with the expected value: the value of the Bool
slot (type 0), the value of the Int slot (type 1), or the phase code of the
channel (0 idle, 1 waiting sender, 2 waiting send probe, 3 waiting receiver, 4
waiting receive probe). -/
def assert_state (s : Simulator) (type : Int) (offset : Int) : Option Int :=
  if type = 0 then some (Int.ofNat (s.getBool offset))
  else if type = 1 then (s.getInt offset).map BigInt.val
  else some (Int.ofNat (chan_code (s.getChan offset)))

/-- The expected values for which `assert` compares: for a Bool (type 0) a
value that passes the guard of line 989 and is a machine-word natural, for an
Int (type 1) any value provided the slot exists, for a channel a machine-word
natural. -/
def assert_accepts (L : ActLib) (s : Simulator) (type : Int) (offset : Int) (v : String) :
    Prop :=
  if type = 0 then
    ¬ ((L.sscan v).getVal 0 > 2 ∨ (L.sscan v).getLen > 1)
      ∧ 0 ≤ (L.sscan v).val ∧ (L.sscan v).val < 2 ^ 64
  else if type = 1 then (s.getInt offset).isSome = true
  else 0 ≤ (L.sscan v).val ∧ (L.sscan v).val < 2 ^ 64

/-- The sub-table of a table under a link, in the words of the specification:
the lookup of the printed link, whole, in the child map of the table; `none`
when the table has no child map or the map has no such key. -/
def ActInstTable.child (t : ActInstTable) (c : ActIdComp) : Option ActInstTable :=
  match t.H with
  | none => none
  | some h => hash_lookup h (cstr c.sPrint)

/-- The walk along a dotted instance path in the words of the specification:
look up the first component in the child map of `x`, the second in the map of
that child, and so on; the empty path stays at `x`. -/
def table_walk (id : ActId) (x : ActInstTable) : Option ActInstTable :=
  id.foldlM (fun t c => t.child c) x

/-- The number `get` hands to the interpreter: the integer of a `LISP_RET_INT`
result, or the number whose 64-bit words, least significant first, are the list
of a `LISP_RET_LIST` result. -/
def get_value (r : LispRet × Simulator) : Option Int :=
  match r.1, r.2.lispReturn with
  | LispRet.LISP_RET_INT, LispVal.int n => some (Int.ofNat n)
  | LispRet.LISP_RET_LIST, LispVal.list ws => some (Int.ofNat (wordsValue ws))
  | _, _ => none

/-! ## A concrete library and design

Used to evaluate the handlers on explicit inputs. -/

/-- Splitting the characters of a dotted name at each dot; `cur` holds the
characters of the current link, last one first. -/
def splitOnDot : List Char → List Char → List (List Char)
  | [], cur => [cur.reverse]
  | c :: cs, cur => if c = '.' then cur.reverse :: splitOnDot cs [] else splitOnDot cs (c :: cur)

/-- One link of a dotted name: the name up to an opening bracket and the array
dereference after it; `none` when the name is empty. -/
def parseLink (cs : List Char) : Option ActIdComp :=
  let nm := cs.takeWhile (fun c => c != '[')
  let rest := cs.dropWhile (fun c => c != '[')
  if nm.isEmpty then none
  else some ⟨String.mk nm, if rest.isEmpty then none else some (String.mk rest), false⟩

/-- All links of a dotted name, `none` when one of them does not parse. -/
def parseLinks : List (List Char) → Option ActId
  | [] => some []
  | l :: ls =>
    match parseLink l, parseLinks ls with
    | some c, some cs => some (c :: cs)
    | _, _ => none

/-- Modelled from the spec: identifier syntax, hierarchical dotted names with
array indexing (`a.b[3].c`). -/
def stdParseId (s : String) : Option ActId := parseLinks (splitOnDot s.data [])

/-- Value of a run of leading decimal digits, continuing from `acc`. -/
def decDigits : List Char → Nat → Nat
  | [], acc => acc
  | c :: cs, acc => if c.isDigit then decDigits cs (acc * 10 + (c.toNat - 48)) else acc

/-- Modelled from the spec: reading a decimal literal with an optional minus
sign into a `BigInt` wide enough to hold it. -/
def stdSscan (s : String) : BigInt :=
  match s.data with
  | '-' :: cs => ⟨4 * cs.length + 1, - (decDigits cs 0 : Int)⟩
  | cs => ⟨4 * cs.length + 1, (decDigits cs 0 : Int)⟩

/-- Modelled from the spec: the `%ld` conversion, a decimal number with an
optional minus sign; no conversion when no digit comes first. -/
def stdSscanfLd (s : String) : Option Int :=
  match s.data with
  | '-' :: c :: cs => if c.isDigit then some (- (decDigits (c :: cs) 0 : Int)) else none
  | c :: cs => if c.isDigit then some (decDigits (c :: cs) 0 : Int) else none
  | [] => none

/-- The concrete parsing library. -/
def stdLib : ActLib :=
  { parseId := stdParseId
    sscan := stdSscan
    sscanf_ld := stdSscanfLd
    atoi := fun s => (stdSscanfLd s).getD 0 }

/-- Signals of the process `top` of the demonstration design, with their
connection index: `n : bool`, `x : int<4>`, `y : int<128>`, the channel output
`C` and the channel input `D`. -/
def demoNames : List (String × Nat) := [("n", 0), ("x", 1), ("y", 2), ("C", 3), ("D", 4)]

/-- Connection index of a signal of the demonstration design. -/
def demoConn (id : ActId) : Option Nat :=
  match demoNames.find? (fun kv => kv.1 == printId id) with
  | some kv => some kv.2
  | none => none

/-- State information of the process `top` of the demonstration design. -/
def demoInfo : stateinfo_t :=
  { FullLookup := fun id => (demoConn id).isSome
    validateDeref := fun _ => true
    isParamType := fun _ => false
    Canonical := demoConn
    CanonicalBase := fun id => (demoConn id).getD 0
    getTypeOffset := fun c =>
      if c = 0 then some (0, 0)
      else if c = 1 then some (0, 1)
      else if c = 2 then some (1, 1)
      else if c = 3 then some (0, 3)
      else if c = 4 then some (1, 2)
      else none
    arrayOffset := fun _ _ => 0 }

/-- The object simulating the process `top`, a CHP process whose local offsets
are the global ones. -/
def demoTop : ActSimObj :=
  { proc := "top", isChp := true, getGlobalOffset := fun offset _ => offset }

/-- The demonstration design before any command: `n` is 1, `x` holds 3 in four
bits, `y` holds 5 in 128 bits, `C` waits for its sender to be met, `D` is idle;
nothing is watched, the Bool `n` has the fanout entries 7 and 8, and no event is
pending. -/
def demoSim : Simulator :=
  { getStateInfo := fun p => if p = "top" then some demoInfo else none
    getInstTable := ActInstTable.mk (some demoTop) (some [])
    getBool := fun k => if k = 0 then 1 else 2
    getInt := fun k =>
      if k = 0 then some ⟨4, 3⟩ else if k = 1 then some ⟨128, 5⟩ else none
    getChan := fun k => if k = 0 then ⟨Phase.WaitingSender, 5, 0⟩ else ⟨Phase.Idle, 0, 0⟩
    chkWatchPt := fun _ _ => none
    chkBreakPt := fun _ _ => none
    getFO := fun offset type => if offset = 0 ∧ type = 0 then [7, 8] else []
    isResetMode := false
    onWarning := 0
    CurTime := 0
    queue := []
    seq := 0
    interrupted := false
    break_flag := false
    fired := []
    react := fun _ => ⟨[], false⟩
    gid := -1
    lispReturn := LispVal.none
    out := []
    err := []
    trace := []
    calls := [] }

/-- The demonstration design with the Bool `n` at the unknown value X. -/
def demoSimX : Simulator := demoSim.setBool 0 2

/-- The demonstration design after `watch x`. -/
def demoWatchX : Simulator := (process_watch stdLib demoSim ["watch", "x"]).2

/-- The demonstration design after `watch n`. -/
def demoWatchN : Simulator := (process_watch stdLib demoSim ["watch", "n"]).2

/-- The demonstration design with three pending events: one at time 5 and two
at time 3, posted in this order. -/
def demoSimEv : Simulator :=
  { demoSim with
    queue := [⟨5, 0, 1, Origin.prs⟩, ⟨3, 1, 2, Origin.chp⟩, ⟨3, 2, 1, Origin.hse⟩]
    seq := 3 }

/-- The demonstration design in reset mode. -/
def demoReset : Simulator := demoSim.setMode 1

/-- The demonstration design in reset mode with an HSE event pending at time 3
and a PRS event at time 5, every dispatch raising the breakpoint flag. -/
def demoSimBrk : Simulator :=
  { demoSim with
    isResetMode := true
    queue := [⟨3, 0, 1, Origin.hse⟩, ⟨5, 1, 2, Origin.prs⟩]
    seq := 2
    react := fun _ => ⟨[], true⟩ }

/-- The demonstration design under exit-on-warn. -/
def demoExit : Simulator := { demoSim with onWarning := 2 }

/-- The demonstration design with the process `top` in one thread at program
counter 4 and the label `L0` at program counter 9. -/
def demoOneThread : Simulator :=
  { demoSim with
    chp_threads := fun _ => [4]
    chp_labels := fun _ l => if l = "L0" then some 9 else none }

/-- The demonstration design with the process `top` in the two threads of a
parallel composition, at program counters 4 and 6. -/
def demoTwoThreads : Simulator := { demoOneThread with chp_threads := fun _ => [4, 6] }

/-- A design with the expanded process `top`, built as the demonstration design,
and the process `cell` that is not expanded. -/
def demoAct : Act :=
  { findProcess := fun n =>
      if n = "top" then some ⟨"top", true⟩
      else if n = "cell" then some ⟨"cell", false⟩
      else none
    design := fun _ => demoSim }

/-- The object of the instance `a` of the demonstration tree, a CHP process. -/
def demoObjA : ActSimObj :=
  { proc := "cell", isChp := true, getGlobalOffset := fun offset _ => offset, name := "a" }

/-- The object of the instance `b` of the demonstration tree, not a CHP process. -/
def demoObjB : ActSimObj :=
  { proc := "pair", isChp := false, getGlobalOffset := fun offset _ => offset, name := "b" }

/-- The object of the instance `b.c` of the demonstration tree, a CHP process. -/
def demoObjBC : ActSimObj :=
  { proc := "cell", isChp := true, getGlobalOffset := fun offset _ => offset, name := "b.c" }

/-- An instance tree: the root with the object of `top` and the children `a`, a
leaf, and `b`, which has the one child `c`, a leaf. -/
def demoTreeTable : ActInstTable :=
  .mk (some { demoTop with name := "top" })
    (some [("a", .mk (some demoObjA) none),
      ("b", .mk (some demoObjB) (some [("c", .mk (some demoObjBC) none)]))])

/-- The demonstration design over the instance tree `demoTreeTable`. -/
def demoTree : Simulator := { demoSim with getInstTable := demoTreeTable }

/-- The demonstration design with `y : int<128>` holding 2^64 + 5. -/
def demoWide : Simulator := demoSim.setInt 1 ⟨128, 18446744073709551621⟩

/-- A link whose name has 1024 characters: 1023 times `a`, then `b`. -/
def demoLongLink : ActIdComp := ⟨String.mk (List.replicate 1023 'a' ++ ['b']), none, false⟩

/-- An instance tree whose root has the one child named by 1023 times `a`, a
leaf with the object of `a`. -/
def demoLongTable : ActInstTable :=
  .mk none (some [(String.mk (List.replicate 1023 'a'), .mk (some demoObjA) none)])

/-! ## Shared lemmas -/

theorem propagate_all_eq (l : List Nat) : ∀ s : Simulator,
    propagate_all s l = { s with calls := s.calls ++ l.map (fun p => Call.propagate p s.gid) } := by
  induction l with
  | nil => intro s; simp [propagate_all]
  | cons p ps ih => intro s; rw [propagate_all, ih]; simp

theorem set_fanout_eq (s : Simulator) (offset type : Int) :
    set_fanout s offset type =
      (LispRet.LISP_RET_TRUE,
        { s with gid := offset,
                 calls := s.calls
                   ++ (s.getFO offset type).map (fun p => Call.propagate p offset) }) := by
  simp [set_fanout, propagate_all_eq, Simulator.numFanout]

theorem emod_two_pow_eq_self_iff (v : Int) (w : Nat) (h : 0 ≤ v) :
    v % 2 ^ w = v ↔ v < 2 ^ w := by
  have hp : (0 : Int) < 2 ^ w := by positivity
  constructor
  · intro e; rw [← e]; exact Int.emod_lt_of_pos v hp
  · intro hlt; exact Int.emod_eq_of_lt h hlt

theorem id_obj_to_siminfo_congr (s1 s2 : Simulator) (h : s1.getStateInfo = s2.getStateInfo)
    (obj : Option ActSimObj) (id : ActId) :
    id_obj_to_siminfo s1 obj id = id_obj_to_siminfo s2 obj id := by
  unfold id_obj_to_siminfo
  rw [h]

theorem id_to_siminfo_raw_congr (L : ActLib) (s1 s2 : Simulator)
    (h : s1.getStateInfo = s2.getStateInfo) (ht : s1.getInstTable = s2.getInstTable)
    (name : String) :
    id_to_siminfo_raw L s1 name = id_to_siminfo_raw L s2 name := by
  unfold id_to_siminfo_raw
  rw [ht]
  simp only [id_obj_to_siminfo_congr s1 s2 h]

theorem id_to_siminfo_congr (L : ActLib) (s1 s2 : Simulator)
    (h : s1.getStateInfo = s2.getStateInfo) (ht : s1.getInstTable = s2.getInstTable)
    (name : String) :
    id_to_siminfo L s1 name = id_to_siminfo L s2 name := by
  unfold id_to_siminfo
  rw [id_to_siminfo_raw_congr L s1 s2 h ht]

theorem id_to_siminfo_glob_congr (L : ActLib) (s1 s2 : Simulator)
    (h : s1.getStateInfo = s2.getStateInfo) (ht : s1.getInstTable = s2.getInstTable)
    (name : String) :
    id_to_siminfo_glob L s1 name = id_to_siminfo_glob L s2 name := by
  unfold id_to_siminfo_glob
  rw [id_to_siminfo_congr L s1 s2 h ht]

theorem set_bool_watch_tables (s : Simulator) (offset type : Int) (val : Nat) :
    (set_bool_watch s offset type val).getStateInfo = s.getStateInfo
    ∧ (set_bool_watch s offset type val).getInstTable = s.getInstTable
    ∧ (set_bool_watch s offset type val).chkWatchPt = s.chkWatchPt := by
  unfold set_bool_watch
  split
  · split_ifs <;> simp [Simulator.printf, Simulator.recordTrace]
  · simp

theorem set_int_watch_tables (s : Simulator) (offset type : Int) (otmp rd : BigInt) :
    (set_int_watch s offset type otmp rd).getStateInfo = s.getStateInfo
    ∧ (set_int_watch s offset type otmp rd).getInstTable = s.getInstTable
    ∧ (set_int_watch s offset type otmp rd).chkWatchPt = s.chkWatchPt := by
  unfold set_int_watch
  split
  · split_ifs <;> simp [Simulator.printf, Simulator.recordTrace]
  · simp

/-- The command `set` changes neither what identifiers resolve to nor the
watchpoint registry. -/
theorem process_set_tables (L : ActLib) (s : Simulator) (argv : List String) :
    (process_set L s argv).2.getStateInfo = s.getStateInfo
    ∧ (process_set L s argv).2.getInstTable = s.getInstTable
    ∧ (process_set L s argv).2.chkWatchPt = s.chkWatchPt := by
  unfold process_set
  repeat' split
  all_goals first
    | (simp [set_fanout_eq, Simulator.setBool, Simulator.setInt, Simulator.printf,
        Simulator.eprintf, set_bool_watch_tables, set_int_watch_tables]; done)
    | (dsimp only; split_ifs <;> simp [set_fanout_eq, Simulator.setBool, Simulator.setInt,
        Simulator.printf, Simulator.eprintf, set_bool_watch_tables, set_int_watch_tables])

/-- When the raw resolution succeeds, `id_to_siminfo_glob` succeeds with type 3
turned into 2 and the global offset taken for that type. -/
theorem id_to_siminfo_glob_of_raw (L : ActLib) (s : Simulator) (name : String)
    (type offset : Int) (obj : ActSimObj)
    (h : id_to_siminfo_raw L s name = .ok (type, offset, obj)) :
    id_to_siminfo_glob L s name
      = .ok (if type = 3 then 2 else type,
          obj.getGlobalOffset offset (if type = 3 then 2 else type), obj) := by
  simp [id_to_siminfo_glob, id_to_siminfo, h]

/-! ## C1: `set` on an Int honours the declared width -/

/-- C1. For an Int slot of declared width `W` (the name resolves to type 1 and
the slot holds a `BigInt` of width `W`) and the integer `v` that `BigInt::sscan`
reads from the argument, `set <name> v` returns `LISP_RET_TRUE` iff
`0 ≤ v < 2^W`.  Otherwise it returns `LISP_RET_ERROR`, and the state differs
from the one before only by the error line on standard error ("Integers are
unsigned." for a negative `v`, "Value does not fit into variable's bitwidth."
for `v ≥ 2^W`): the slot is unchanged, nothing is printed on standard output,
no trace entry is recorded and `propagate` is called on no fanout entry. -/
theorem set_int_succeeds_iff_in_range (L : ActLib) (s : Simulator) (cmd name v : String)
    (offset : Int) (obj : ActSimObj) (b : BigInt)
    (hres : id_to_siminfo_glob L s name = .ok (1, offset, obj))
    (hint : s.getInt offset = some b) :
    ((process_set L s [cmd, name, v]).1 = LispRet.LISP_RET_TRUE
        ↔ 0 ≤ (L.sscan v).val ∧ (L.sscan v).val < 2 ^ b.width)
    ∧ (¬ (0 ≤ (L.sscan v).val ∧ (L.sscan v).val < 2 ^ b.width) →
        (process_set L s [cmd, name, v]).1 = LispRet.LISP_RET_ERROR
        ∧ (process_set L s [cmd, name, v]).2
            = s.eprintf [if (L.sscan v).val < 0 then "Integers are unsigned.\n"
                else "Value does not fit into variable's bitwidth.\n"]
        ∧ (process_set L s [cmd, name, v]).2.getInt = s.getInt
        ∧ (process_set L s [cmd, name, v]).2.out = s.out
        ∧ (process_set L s [cmd, name, v]).2.trace = s.trace
        ∧ (process_set L s [cmd, name, v]).2.calls = s.calls) := by
  by_cases hneg : (L.sscan v).val < 0
  · have h1 : ¬ (0 ≤ (L.sscan v).val ∧ (L.sscan v).val < 2 ^ b.width) := by omega
    simp [process_set, hres, BigInt.isNegative, hneg, h1, Simulator.eprintf]
  · have h0 : 0 ≤ (L.sscan v).val := by omega
    by_cases hfit : (L.sscan v).val < 2 ^ b.width
    · have e := (emod_two_pow_eq_self_iff _ b.width h0).2 hfit
      simp [process_set, hres, hint, BigInt.isNegative, hneg, h0, hfit, BigInt.ne,
        BigInt.setWidth, BigInt.getWidth, e, set_fanout_eq]
    · have e2 : ¬ ((L.sscan v).val = (L.sscan v).val % 2 ^ b.width) :=
        fun h => hfit ((emod_two_pow_eq_self_iff _ b.width h0).1 h.symm)
      simp [process_set, hres, hint, BigInt.isNegative, hneg, h0, hfit, BigInt.ne,
        BigInt.setWidth, BigInt.getWidth, e2, Simulator.eprintf]

/-- C1, at `x : int<4>` holding 3 and the argument 16: the command is rejected
with "Value does not fit into variable's bitwidth." and `x` still holds 3. -/
theorem set_int_succeeds_iff_in_range_witness :
    id_to_siminfo_glob stdLib demoSim "x" = .ok (1, 0, demoTop)
    ∧ demoSim.getInt 0 = some ⟨4, 3⟩
    ∧ (stdLib.sscan "16").val = 16
    ∧ (process_set stdLib demoSim ["set", "x", "16"]).1 = LispRet.LISP_RET_ERROR
    ∧ (process_set stdLib demoSim ["set", "x", "16"]).2
        = demoSim.eprintf ["Value does not fit into variable's bitwidth.\n"]
    ∧ (process_set stdLib demoSim ["set", "x", "16"]).2.getInt 0 = some ⟨4, 3⟩ :=
  have h := (set_int_succeeds_iff_in_range stdLib demoSim "set" "x" "16" 0 demoTop ⟨4, 3⟩
    rfl rfl).2 (by decide)
  ⟨rfl, rfl, by decide, h.1, h.2.1, by rw [h.2.2.1]; rfl⟩

/-! ## C5: Bool literals accepted by `set` -/

/-- C5. For a Bool slot (the name resolves to type 0), `set` returns
`LISP_RET_TRUE` exactly for the literals "0", "#f", "1", "#t" and "X"; it stores
0 for "0" and "#f", 1 for "1" and "#t", and 2 (the unknown value) for "X".  For
every other literal it returns `LISP_RET_ERROR` and the state differs from the
one before only by the error line on standard error: the Bool slots are
unchanged, nothing is printed on standard output, no trace entry is recorded
and `propagate` is called on no fanout entry. -/
theorem set_bool_accepts_exactly_ternary_literals (L : ActLib) (s : Simulator)
    (cmd name v : String) (offset : Int) (obj : ActSimObj)
    (hres : id_to_siminfo_glob L s name = .ok (0, offset, obj)) :
    ((process_set L s [cmd, name, v]).1 = LispRet.LISP_RET_TRUE
        ↔ v = "0" ∨ v = "#f" ∨ v = "1" ∨ v = "#t" ∨ v = "X")
    ∧ (v = "0" ∨ v = "#f" → (process_set L s [cmd, name, v]).2.getBool offset = 0)
    ∧ (v = "1" ∨ v = "#t" → (process_set L s [cmd, name, v]).2.getBool offset = 1)
    ∧ (v = "X" → (process_set L s [cmd, name, v]).2.getBool offset = 2)
    ∧ (¬ (v = "0" ∨ v = "#f" ∨ v = "1" ∨ v = "#t" ∨ v = "X") →
        (process_set L s [cmd, name, v]).1 = LispRet.LISP_RET_ERROR
        ∧ (process_set L s [cmd, name, v]).2
            = s.eprintf ["Boolean must be set to either 0, 1, or X\n"]
        ∧ (process_set L s [cmd, name, v]).2.getBool = s.getBool
        ∧ (process_set L s [cmd, name, v]).2.out = s.out
        ∧ (process_set L s [cmd, name, v]).2.trace = s.trace
        ∧ (process_set L s [cmd, name, v]).2.calls = s.calls) := by
  by_cases h0 : v = "0" ∨ v = "#f"
  · have hl : bool_literal v = some 0 := by simp [bool_literal, h0]
    have hne1 : ¬ (v = "1" ∨ v = "#t") := by
      rcases h0 with h | h <;> subst h <;> decide
    have hneX : ¬ v = "X" := by
      rcases h0 with h | h <;> subst h <;> decide
    have hacc : v = "0" ∨ v = "#f" ∨ v = "1" ∨ v = "#t" ∨ v = "X" := by tauto
    simp [process_set, hres, hl, set_fanout_eq, Simulator.setBool, hacc, hne1, hneX]
    tauto
  · by_cases h1 : v = "1" ∨ v = "#t"
    · have hl : bool_literal v = some 1 := by simp [bool_literal, h0, h1]
      have hneX : ¬ v = "X" := by
        rcases h1 with h | h <;> subst h <;> decide
      have hacc : v = "0" ∨ v = "#f" ∨ v = "1" ∨ v = "#t" ∨ v = "X" := by tauto
      simp [process_set, hres, hl, set_fanout_eq, Simulator.setBool, hacc, h0, hneX]
      tauto
    · by_cases hX : v = "X"
      · have hl : bool_literal v = some 2 := by simp [bool_literal, h0, h1, hX]
        have hacc : v = "0" ∨ v = "#f" ∨ v = "1" ∨ v = "#t" ∨ v = "X" := by tauto
        simp [process_set, hres, hl, set_fanout_eq, Simulator.setBool, hacc, h0, h1]
      · have hl : bool_literal v = none := by simp [bool_literal, h0, h1, hX]
        have hacc : ¬ (v = "0" ∨ v = "#f" ∨ v = "1" ∨ v = "#t" ∨ v = "X") := by tauto
        simp [process_set, hres, hl, hacc, h0, h1, hX, Simulator.eprintf]

/-- C5, on the Bool `n` of the demonstration design: the lower-case literal "x"
is rejected and leaves the slots as they were, "#f" is accepted and stores 0. -/
theorem set_bool_accepts_exactly_ternary_literals_witness :
    id_to_siminfo_glob stdLib demoSim "n" = .ok (0, 0, demoTop)
    ∧ (process_set stdLib demoSim ["set", "n", "x"]).1 = LispRet.LISP_RET_ERROR
    ∧ (process_set stdLib demoSim ["set", "n", "x"]).2.getBool = demoSim.getBool
    ∧ (process_set stdLib demoSim ["set", "n", "#f"]).1 = LispRet.LISP_RET_TRUE
    ∧ (process_set stdLib demoSim ["set", "n", "#f"]).2.getBool 0 = 0 :=
  have h := set_bool_accepts_exactly_ternary_literals stdLib demoSim "set" "n" "x" 0 demoTop rfl
  have g := set_bool_accepts_exactly_ternary_literals stdLib demoSim "set" "n" "#f" 0 demoTop rfl
  ⟨rfl, (h.2.2.2.2 (by decide)).1, (h.2.2.2.2 (by decide)).2.2.1, g.1.2 (by decide),
    g.2.1 (by decide)⟩

/-! ## C6: `set` on a channel -/

/-- C6. For an identifier that resolves to a channel slot, whether its input
endpoint (type 2) or its output endpoint (type 3), `set <name> <value>` returns
`LISP_RET_ERROR` for every value.  The state differs from the one before only
by the diagnostic "'<name>' is a channel; not currently supported!" on standard
output: no Bool, Int or channel slot changes, no `:=` log line is printed, no
trace entry is recorded and `propagate` is called on no fanout entry. -/
theorem set_rejects_channel (L : ActLib) (s : Simulator) (cmd name v : String)
    (type offset : Int) (obj : ActSimObj)
    (hres : id_to_siminfo_raw L s name = .ok (type, offset, obj))
    (hchan : type = 2 ∨ type = 3) :
    (process_set L s [cmd, name, v]).1 = LispRet.LISP_RET_ERROR
    ∧ (process_set L s [cmd, name, v]).2
        = s.printf (Out.text ("'" ++ name ++ "' is a channel; not currently supported!\n"))
    ∧ (process_set L s [cmd, name, v]).2.getBool = s.getBool
    ∧ (process_set L s [cmd, name, v]).2.getInt = s.getInt
    ∧ (process_set L s [cmd, name, v]).2.getChan = s.getChan
    ∧ (process_set L s [cmd, name, v]).2.out.filter Out.isSetLog = s.out.filter Out.isSetLog
    ∧ (process_set L s [cmd, name, v]).2.trace = s.trace
    ∧ (process_set L s [cmd, name, v]).2.calls = s.calls := by
  have hg := id_to_siminfo_glob_of_raw L s name type offset obj hres
  have ht : (if type = 3 then (2 : Int) else type) = 2 := by
    rcases hchan with h | h <;> simp [h]
  rw [ht] at hg
  simp [process_set, hg, Simulator.printf, Out.isSetLog]

/-- C6, on the channel output `C` and the channel input `D` of the
demonstration design. -/
theorem set_rejects_channel_witness :
    id_to_siminfo_raw stdLib demoSim "C" = .ok (3, 0, demoTop)
    ∧ id_to_siminfo_raw stdLib demoSim "D" = .ok (2, 1, demoTop)
    ∧ (process_set stdLib demoSim ["set", "C", "0"]).1 = LispRet.LISP_RET_ERROR
    ∧ (process_set stdLib demoSim ["set", "D", "1"]).1 = LispRet.LISP_RET_ERROR :=
  ⟨rfl, rfl,
    (set_rejects_channel stdLib demoSim "set" "C" "0" 3 0 demoTop rfl (Or.inr rfl)).1,
    (set_rejects_channel stdLib demoSim "set" "D" "1" 2 1 demoTop rfl (Or.inl rfl)).1⟩

/-! ## Shared lemmas on `set` and `get` -/

/-- The Bool branch of `set` on an accepted literal. -/
theorem process_set_bool_eq (L : ActLib) (s : Simulator) (cmd name v : String)
    (offset : Int) (obj : ActSimObj) (val : Nat)
    (hres : id_to_siminfo_glob L s name = .ok (0, offset, obj))
    (hl : bool_literal v = some val) :
    process_set L s [cmd, name, v]
      = set_fanout ((set_bool_watch s offset 0 val).setBool offset val) offset 0 := by
  simp [process_set, hres, hl]

/-- The Int branch of `set` on a value in range. -/
theorem process_set_int_eq (L : ActLib) (s : Simulator) (cmd name v : String)
    (offset : Int) (obj : ActSimObj) (b : BigInt)
    (hres : id_to_siminfo_glob L s name = .ok (1, offset, obj))
    (hint : s.getInt offset = some b)
    (h0 : 0 ≤ (L.sscan v).val) (hfit : (L.sscan v).val < 2 ^ b.width) :
    process_set L s [cmd, name, v]
      = set_fanout ((set_int_watch s offset 1 b ⟨b.width, (L.sscan v).val⟩).setInt offset
          ⟨b.width, (L.sscan v).val⟩) offset 1 := by
  have e := (emod_two_pow_eq_self_iff _ b.width h0).2 hfit
  have hneg : ¬ (L.sscan v).val < 0 := by omega
  simp [process_set, hres, hint, BigInt.isNegative, hneg, BigInt.ne, BigInt.setWidth,
    BigInt.getWidth, e]

/-- A `set` that returns `LISP_RET_TRUE` went through the Bool branch on an
accepted literal or through the Int branch on a value in range. -/
theorem process_set_true_inv (L : ActLib) (s : Simulator) (cmd name v : String)
    (type offset : Int) (obj : ActSimObj)
    (hres : id_to_siminfo_glob L s name = .ok (type, offset, obj))
    (hok : (process_set L s [cmd, name, v]).1 = LispRet.LISP_RET_TRUE) :
    (type = 0 ∧ ∃ val, bool_literal v = some val)
    ∨ (type = 1 ∧ ∃ b, s.getInt offset = some b ∧ 0 ≤ (L.sscan v).val
        ∧ (L.sscan v).val < 2 ^ b.width) := by
  by_cases hc : type = 2 ∨ type = 3
  · simp [process_set, hres, hc] at hok
  · by_cases h0 : type = 0
    · subst h0
      left
      refine ⟨rfl, ?_⟩
      cases hl : bool_literal v with
      | none => simp [process_set, hres, hl] at hok
      | some val => exact ⟨val, rfl⟩
    · by_cases h1 : type = 1
      · subst h1
        right
        refine ⟨rfl, ?_⟩
        by_cases hneg : (L.sscan v).val < 0
        · simp [process_set, hres, BigInt.isNegative, hneg] at hok
        · cases hint : s.getInt offset with
          | none => simp [process_set, hres, BigInt.isNegative, hneg, hint] at hok
          | some b =>
            have h0 : 0 ≤ (L.sscan v).val := by omega
            by_cases hfit : (L.sscan v).val < 2 ^ b.width
            · exact ⟨b, rfl, h0, hfit⟩
            · have e2 : ¬ ((L.sscan v).val = (L.sscan v).val % 2 ^ b.width) :=
                fun h => hfit ((emod_two_pow_eq_self_iff _ b.width h0).1 h.symm)
              simp [process_set, hres, hint, BigInt.isNegative, hneg, BigInt.ne,
                BigInt.setWidth, BigInt.getWidth, e2] at hok
      · simp [process_set, hres, hc, h0, h1] at hok


/-- The words of a number from word `k` on denote the number shifted by `k`
words, reduced to `n` words. -/
theorem wordsValue_map_range (x : Nat) : ∀ n k : Nat,
    wordsValue ((List.range n).map (fun i => x / 2 ^ (64 * (i + k)) % 2 ^ 64))
      = (x / 2 ^ (64 * k)) % 2 ^ (64 * n) := by
  intro n
  induction n with
  | zero => intro k; simp [wordsValue, Nat.mod_one]
  | succ n ih =>
    intro k
    rw [List.range_succ_eq_map, List.map_cons, List.map_map, wordsValue]
    have h := ih (k + 1)
    have e : ((fun i => x / 2 ^ (64 * (i + k)) % 2 ^ 64) ∘ Nat.succ)
        = (fun i => x / 2 ^ (64 * (i + (k + 1))) % 2 ^ 64) := by
      funext i
      simp only [Function.comp, Nat.succ_eq_add_one]
      congr 3
      ring
    rw [e, h]
    have e2 : 2 ^ (64 * (n + 1)) = 2 ^ 64 * 2 ^ (64 * n) := by
      rw [← pow_add]; congr 1; ring
    have e3 : x / 2 ^ (64 * (k + 1)) = x / 2 ^ (64 * k) / 2 ^ 64 := by
      rw [Nat.div_div_eq_div_mul, ← pow_add]; congr 2
    rw [e2, Nat.mod_mul, e3]
    simp

/-- The words `get` lists for an Int denote its value. -/
theorem wordsValue_getVal (b : BigInt) (h0 : 0 ≤ b.val) (hfit : b.val < 2 ^ b.width) :
    ((wordsValue ((List.range b.getLen).map b.getVal) : Nat) : Int) = b.val := by
  have h := wordsValue_map_range b.val.toNat b.getLen 0
  simp only [Nat.add_zero, Nat.mul_zero, pow_zero, Nat.div_one] at h
  have e : (fun i => b.val.toNat / 2 ^ (64 * i) % 2 ^ 64) = b.getVal := by
    funext i; rfl
  rw [e] at h
  rw [h]
  have hw : b.width ≤ 64 * b.getLen := by
    unfold BigInt.getLen; omega
  have hlt : b.val.toNat < 2 ^ (64 * b.getLen) := by
    have h1 : b.val.toNat < 2 ^ b.width := by
      have : ((b.val.toNat : Nat) : Int) < ((2 ^ b.width : Nat) : Int) := by
        rw [Int.toNat_of_nonneg h0]; exact_mod_cast hfit
      exact_mod_cast this
    exact lt_of_lt_of_le h1 (Nat.pow_le_pow_right (by norm_num) hw)
  rw [Nat.mod_eq_of_lt hlt, Int.toNat_of_nonneg h0]

/-! ## C2: `get` after `set` -/

/-- C2, counterexample. On `y : int<128>` of the demonstration design, `set y 5`
is accepted and 5 fits one machine word, yet the `get y` that follows returns
`LISP_RET_LIST` with the two words 5 and 0 of the 128-bit slot, not the single
integer 5. -/
theorem get_after_set_wide_small_value :
    id_to_siminfo_glob stdLib demoSim "y" = .ok (1, 1, demoTop)
    ∧ demoSim.getInt 1 = some ⟨128, 5⟩
    ∧ (stdLib.sscan "5").val = 5
    ∧ (5 : Int) < 2 ^ 64
    ∧ (process_set stdLib demoSim ["set", "y", "5"]).1 = LispRet.LISP_RET_TRUE
    ∧ (process_get stdLib (process_set stdLib demoSim ["set", "y", "5"]).2 ["get", "y"]).1
        = LispRet.LISP_RET_LIST
    ∧ (process_get stdLib (process_set stdLib demoSim ["set", "y", "5"]).2
        ["get", "y"]).2.lispReturn = LispVal.list [5, 0]
    ∧ (process_get stdLib (process_set stdLib demoSim ["set", "y", "5"]).2
        ["get", "y"]).2.lispReturn ≠ LispVal.int 5 := by
  refine ⟨rfl, rfl, by decide, by decide, by decide, by decide, by decide, by decide⟩

/-- C2, amended. For a Bool or Int slot `x` and a value that `set` accepts
(`set` returns `LISP_RET_TRUE`), the `get x` that follows, with or without the
argument that turns the display off, returns the value set.  For a Bool it
returns `LISP_RET_INT` with the value 0, 1 or 2 the literal denotes.  For an Int
of declared width `W` it returns `LISP_RET_INT` with the integer `v` when
`W ≤ 64` (the slot occupies one machine word) and `LISP_RET_LIST` when `W > 64`,
the list being the `⌈W/64⌉` words of the slot, least significant first, whose
value is `v`. -/
theorem get_after_set (L : ActLib) (s : Simulator) (cmd name v cmd2 flag : String)
    (type offset : Int) (obj : ActSimObj) (argv2 : List String)
    (hres : id_to_siminfo_glob L s name = .ok (type, offset, obj))
    (hok : (process_set L s [cmd, name, v]).1 = LispRet.LISP_RET_TRUE)
    (hargv : argv2 = [cmd2, name] ∨ argv2 = [cmd2, name, flag]) :
    (type = 0 ∧ ∃ val, bool_literal v = some val ∧ val ≤ 2
        ∧ (process_get L (process_set L s [cmd, name, v]).2 argv2).1 = LispRet.LISP_RET_INT
        ∧ (process_get L (process_set L s [cmd, name, v]).2 argv2).2.lispReturn
            = LispVal.int val)
    ∨ (type = 1 ∧ ∃ b, s.getInt offset = some b
        ∧ 0 ≤ (L.sscan v).val ∧ (L.sscan v).val < 2 ^ b.width
        ∧ (b.width ≤ 64 →
            (process_get L (process_set L s [cmd, name, v]).2 argv2).1 = LispRet.LISP_RET_INT
            ∧ (process_get L (process_set L s [cmd, name, v]).2 argv2).2.lispReturn
                = LispVal.int (L.sscan v).val.toNat)
        ∧ (64 < b.width →
            (process_get L (process_set L s [cmd, name, v]).2 argv2).1 = LispRet.LISP_RET_LIST
            ∧ ∃ ws, (process_get L (process_set L s [cmd, name, v]).2 argv2).2.lispReturn
                  = LispVal.list ws
                ∧ ws.length = (b.width + 63) / 64
                ∧ ((wordsValue ws : Nat) : Int) = (L.sscan v).val)) := by
  have htab := process_set_tables L s [cmd, name, v]
  have hres1 : id_to_siminfo_glob L (process_set L s [cmd, name, v]).2 name
      = .ok (type, offset, obj) := by
    rw [id_to_siminfo_glob_congr L _ s htab.1 htab.2.1, hres]
  have hlen : ¬ (argv2.length ≠ 2 ∧ argv2.length ≠ 3) := by
    rcases hargv with h | h <;> simp [h]
  have hname : argv2.getD 1 "" = name := by
    rcases hargv with h | h <;> simp [h]
  rcases process_set_true_inv L s cmd name v type offset obj hres hok with
    ⟨ht, val, hl⟩ | ⟨ht, b, hint, h0, hfit⟩
  · left
    subst ht
    refine ⟨rfl, val, hl, ?_, ?_, ?_⟩
    · unfold bool_literal at hl
      split_ifs at hl <;> simp at hl <;> omega
    · unfold process_get
      simp only [hlen, hname, hres1]
      simp
    · have hb : (process_set L s [cmd, name, v]).2.getBool offset = val := by
        rw [process_set_bool_eq L s cmd name v offset obj val hres hl]
        simp [set_fanout_eq, Simulator.setBool]
      unfold process_get
      simp only [hlen, hname, hres1]
      simp
      split_ifs <;> simp [Simulator.printf, hb]
  · right
    subst ht
    have hb : (process_set L s [cmd, name, v]).2.getInt offset
        = some ⟨b.width, (L.sscan v).val⟩ := by
      rw [process_set_int_eq L s cmd name v offset obj b hres hint h0 hfit]
      simp [set_fanout_eq, Simulator.setInt]
    refine ⟨rfl, b, hint, h0, hfit, ?_, ?_⟩
    · intro hw
      have hl1 : ¬ (BigInt.getLen ⟨b.width, (L.sscan v).val⟩ > 1) := by
        unfold BigInt.getLen; simp; omega
      have hv : BigInt.getVal ⟨b.width, (L.sscan v).val⟩ 0 = (L.sscan v).val.toNat := by
        have h1 : (L.sscan v).val.toNat < 2 ^ 64 := by
          have h2 : (L.sscan v).val < 2 ^ 64 :=
            lt_of_lt_of_le hfit (pow_le_pow_right₀ (by norm_num) hw)
          omega
        unfold BigInt.getVal
        simp only [Nat.mul_zero, pow_zero, Nat.div_one]
        exact Nat.mod_eq_of_lt h1
      unfold process_get
      simp only [hlen, hname, hres1, hb]
      simp only [hl1]
      simp [hv]
      split_ifs <;> simp [Simulator.printf]
    · intro hw
      have hl1 : BigInt.getLen ⟨b.width, (L.sscan v).val⟩ > 1 := by
        unfold BigInt.getLen; simp; omega
      have hlen2 : BigInt.getLen ⟨b.width, (L.sscan v).val⟩ = (b.width + 63) / 64 := by
        unfold BigInt.getLen; simp; omega
      have hwv := wordsValue_getVal ⟨b.width, (L.sscan v).val⟩ h0 hfit
      unfold process_get
      simp only [hlen, hname, hres1, hb]
      simp only [hl1]
      simp
      refine ⟨(List.range (BigInt.getLen ⟨b.width, (L.sscan v).val⟩)).map
        (BigInt.getVal ⟨b.width, (L.sscan v).val⟩), ?_, ?_, hwv⟩
      · split_ifs <;> simp [Simulator.printf]
      · simp [hlen2]


/-- C2, amended, on `x : int<4>` of the demonstration design: after `set x 9`,
`get x` returns the single integer 9. -/
theorem get_after_set_witness :
    id_to_siminfo_glob stdLib demoSim "x" = .ok (1, 0, demoTop)
    ∧ (process_set stdLib demoSim ["set", "x", "9"]).1 = LispRet.LISP_RET_TRUE
    ∧ (process_get stdLib (process_set stdLib demoSim ["set", "x", "9"]).2
        ["get", "x"]).2.lispReturn = LispVal.int 9 := by
  refine ⟨rfl, by decide, ?_⟩
  rcases get_after_set stdLib demoSim "set" "x" "9" "get" "" 1 0 demoTop ["get", "x"] rfl
    (by decide) (Or.inl rfl) with ⟨h, _⟩ | ⟨_, b, hb, _, _, hsmall, _⟩
  · exact absurd h (by decide)
  · have hb4 : b = ⟨4, 3⟩ := by
      have h : demoSim.getInt 0 = some ⟨4, 3⟩ := rfl
      rw [h] at hb
      exact (Option.some.inj hb).symm
    subst hb4
    exact (hsmall (by decide)).2

/-! ## Shared lemmas on `watch` and on the output of `set` -/

/-- The command `watch` on one name that resolves. -/
theorem process_watch_one (L : ActLib) (s : Simulator) (w name : String)
    (type offset : Int) (obj : ActSimObj)
    (hres : id_to_siminfo L s name = .ok (type, offset, obj)) :
    process_watch L s [w, name]
      = (LispRet.LISP_RET_TRUE, s.addWatchPoint obj type offset name) := by
  simp [process_watch, watch_loop, hres]

/-- The command `unwatch` on one name that resolves. -/
theorem process_unwatch_one (L : ActLib) (s : Simulator) (w name : String)
    (type offset : Int) (obj : ActSimObj)
    (hres : id_to_siminfo L s name = .ok (type, offset, obj)) :
    process_unwatch L s [w, name]
      = (LispRet.LISP_RET_TRUE, s.delWatchPoint obj type offset) := by
  simp [process_unwatch, unwatch_loop, hres]

/-- When `id_to_siminfo` succeeds, `id_to_siminfo_glob` succeeds with the
global offset. -/
theorem id_to_siminfo_glob_of_siminfo (L : ActLib) (s : Simulator) (name : String)
    (type offset : Int) (obj : ActSimObj)
    (h : id_to_siminfo L s name = .ok (type, offset, obj)) :
    id_to_siminfo_glob L s name = .ok (type, obj.getGlobalOffset offset type, obj) := by
  simp [id_to_siminfo_glob, h]

/-- Output and trace of an accepted `set` on a Bool. -/
theorem process_set_bool_out (L : ActLib) (s : Simulator) (cmd name v : String)
    (offset : Int) (obj : ActSimObj) (val : Nat)
    (hres : id_to_siminfo_glob L s name = .ok (0, offset, obj))
    (hl : bool_literal v = some val) :
    (process_set L s [cmd, name, v]).2.out
        = s.out ++ (match s.chkWatchPt 0 offset with
            | some nm => if s.getBool offset ≠ val then [Out.boolSet s.CurTime nm val] else []
            | none => [])
    ∧ (process_set L s [cmd, name, v]).2.trace
        = s.trace ++ (match s.chkWatchPt 0 offset with
            | some nm => if s.getBool offset ≠ val then [⟨nm, 0, BigInt.ofInt val⟩] else []
            | none => [])
    ∧ (process_set L s [cmd, name, v]).2.getBool
        = (fun k => if k = offset then val else s.getBool k)
    ∧ (process_set L s [cmd, name, v]).2.CurTime = s.CurTime := by
  rw [process_set_bool_eq L s cmd name v offset obj val hres hl]
  unfold set_bool_watch
  cases s.chkWatchPt 0 offset with
  | none => simp [set_fanout_eq, Simulator.setBool]
  | some nm =>
    by_cases h : s.getBool offset = val
    · simp [set_fanout_eq, Simulator.setBool, h]
    · simp [set_fanout_eq, Simulator.setBool, h, Simulator.printf, Simulator.recordTrace]

/-- Output and trace of an accepted `set` on an Int. -/
theorem process_set_int_out (L : ActLib) (s : Simulator) (cmd name v : String)
    (offset : Int) (obj : ActSimObj) (b : BigInt)
    (hres : id_to_siminfo_glob L s name = .ok (1, offset, obj))
    (hint : s.getInt offset = some b)
    (h0 : 0 ≤ (L.sscan v).val) (hfit : (L.sscan v).val < 2 ^ b.width) :
    (process_set L s [cmd, name, v]).2.out
        = s.out ++ (match s.chkWatchPt 1 offset with
            | some nm =>
              if b.val ≠ (L.sscan v).val then
                [Out.intSet s.CurTime nm ⟨b.width, (L.sscan v).val⟩]
              else []
            | none => [])
    ∧ (process_set L s [cmd, name, v]).2.trace
        = s.trace ++ (match s.chkWatchPt 1 offset with
            | some nm =>
              if b.val ≠ (L.sscan v).val then [⟨nm, 1, ⟨b.width, (L.sscan v).val⟩⟩] else []
            | none => [])
    ∧ (process_set L s [cmd, name, v]).2.getInt
        = (fun k => if k = offset then some ⟨b.width, (L.sscan v).val⟩ else s.getInt k) := by
  rw [process_set_int_eq L s cmd name v offset obj b hres hint h0 hfit]
  unfold set_int_watch
  cases s.chkWatchPt 1 offset with
  | none => simp [set_fanout_eq, Simulator.setInt]
  | some nm =>
    by_cases h : b.val = (L.sscan v).val
    · simp [set_fanout_eq, Simulator.setInt, h, BigInt.ne]
    · simp [set_fanout_eq, Simulator.setInt, h, Simulator.printf, Simulator.recordTrace,
        BigInt.ne]

/-- A `set` that does not return `LISP_RET_TRUE` writes no slot, prints no `:=`
line, records no trace entry and makes no call. -/
theorem process_set_rejected (L : ActLib) (s : Simulator) (argv : List String)
    (h : (process_set L s argv).1 ≠ LispRet.LISP_RET_TRUE) :
    (process_set L s argv).2.getBool = s.getBool
    ∧ (process_set L s argv).2.getInt = s.getInt
    ∧ (process_set L s argv).2.out.filter Out.isSetLog = s.out.filter Out.isSetLog
    ∧ (process_set L s argv).2.trace = s.trace
    ∧ (process_set L s argv).2.calls = s.calls := by
  revert h
  unfold process_set
  repeat' split
  all_goals first
    | (simp [set_fanout_eq, Simulator.printf, Simulator.eprintf, Out.isSetLog]; done)
    | (dsimp only; split_ifs <;>
        simp [set_fanout_eq, Simulator.printf, Simulator.eprintf, Out.isSetLog])

/-! ## C3: the suppress-when-unchanged rule of `set` -/

/-- C3, counterexample. On the demonstration design with `x : int<4>` watched
and holding 3, `set x 16` is given a value that differs from 3 and yet prints no
`:=` line (the value is rejected), so "prints iff watched and different" fails
there; and with the Bool `n` watched and already 1, the pair `set n 1; set n 1`
prints no `:=` line at all, not one. -/
theorem set_log_rule_counterexample :
    ¬ ((∃ o, o.isSetLog = true
          ∧ (process_set stdLib demoWatchX ["set", "x", "16"]).2.out = demoWatchX.out ++ [o])
        ↔ ((demoWatchX.chkWatchPt 1 0).isSome
            ∧ set_value stdLib 1 "16" ≠ slot_value demoWatchX 1 0))
    ∧ (demoWatchN.chkWatchPt 0 0).isSome = true
    ∧ ((process_set stdLib (process_set stdLib demoWatchN ["set", "n", "1"]).2
          ["set", "n", "1"]).2.out.filter Out.isSetLog).length
        = (demoWatchN.out.filter Out.isSetLog).length := by
  refine ⟨?_, by decide, by decide⟩
  intro h
  obtain ⟨o, _, ho⟩ := h.2 ⟨by decide, by decide⟩
  have e : (process_set stdLib demoWatchX ["set", "x", "16"]).2.out = [] := by decide
  have e2 : demoWatchX.out = [] := by decide
  rw [e, e2] at ho
  simp at ho

/-- C3, amended. For a Bool or Int slot `x` with current value `c` and a value
`v` that `set` accepts (`set` returns `LISP_RET_TRUE`), `set x v` prints a `:=`
log line iff `x` is watched and `v` differs from `c`, and it records a trace
entry under the same condition; otherwise standard output and the trace are
unchanged.  A second `set x v` right after the first prints no line and records
no entry, so the pair `set x 1; set x 1` prints one line when `x` is watched and
was not 1 before, and none otherwise.  A `set` that is rejected prints no `:=`
line and records no entry. -/
theorem set_logs_iff_watched_and_changed (L : ActLib) (s : Simulator)
    (cmd name v : String) (type offset : Int) (obj : ActSimObj)
    (hres : id_to_siminfo_glob L s name = .ok (type, offset, obj)) :
    ((process_set L s [cmd, name, v]).1 = LispRet.LISP_RET_TRUE →
      ((∃ o, o.isSetLog = true ∧ (process_set L s [cmd, name, v]).2.out = s.out ++ [o])
          ↔ ((s.chkWatchPt type offset).isSome
              ∧ set_value L type v ≠ slot_value s type offset))
      ∧ ((∃ t, (process_set L s [cmd, name, v]).2.trace = s.trace ++ [t])
          ↔ ((s.chkWatchPt type offset).isSome
              ∧ set_value L type v ≠ slot_value s type offset))
      ∧ (¬ ((s.chkWatchPt type offset).isSome
              ∧ set_value L type v ≠ slot_value s type offset) →
          (process_set L s [cmd, name, v]).2.out = s.out
          ∧ (process_set L s [cmd, name, v]).2.trace = s.trace)
      ∧ (process_set L (process_set L s [cmd, name, v]).2 [cmd, name, v]).2.out
          = (process_set L s [cmd, name, v]).2.out
      ∧ (process_set L (process_set L s [cmd, name, v]).2 [cmd, name, v]).2.trace
          = (process_set L s [cmd, name, v]).2.trace)
    ∧ ((process_set L s [cmd, name, v]).1 ≠ LispRet.LISP_RET_TRUE →
        (process_set L s [cmd, name, v]).2.out.filter Out.isSetLog
          = s.out.filter Out.isSetLog
        ∧ (process_set L s [cmd, name, v]).2.trace = s.trace) := by
  refine ⟨?_, fun hrej => ⟨(process_set_rejected L s [cmd, name, v] hrej).2.2.1,
    (process_set_rejected L s [cmd, name, v] hrej).2.2.2.1⟩⟩
  intro hok
  have htab := process_set_tables L s [cmd, name, v]
  have hres1 : id_to_siminfo_glob L (process_set L s [cmd, name, v]).2 name
      = .ok (type, offset, obj) := by
    rw [id_to_siminfo_glob_congr L _ s htab.1 htab.2.1, hres]
  rcases process_set_true_inv L s cmd name v type offset obj hres hok with
    ⟨ht, val, hl⟩ | ⟨ht, b, hint, h0, hfit⟩
  · subst ht
    obtain ⟨ho, htr, hb, _⟩ := process_set_bool_out L s cmd name v offset obj val hres hl
    obtain ⟨ho2, htr2, _, _⟩ := process_set_bool_out L _ cmd name v offset obj val hres1 hl
    have hsame : (process_set L s [cmd, name, v]).2.getBool offset = val := by
      rw [hb]; simp
    rw [ho2, htr2, hsame, htab.2.2, ho, htr]
    cases hw : s.chkWatchPt 0 offset with
    | none => simp [set_value, slot_value, hl]
    | some nm =>
      by_cases h : s.getBool offset = val
      · simp [set_value, slot_value, hl, h]
      · have h2 : ¬ val = s.getBool offset := fun e => h e.symm
        simp [set_value, slot_value, hl, h, h2, Out.isSetLog]
  · subst ht
    obtain ⟨ho, htr, hb⟩ := process_set_int_out L s cmd name v offset obj b hres hint h0 hfit
    have hint1 : (process_set L s [cmd, name, v]).2.getInt offset
        = some ⟨b.width, (L.sscan v).val⟩ := by
      rw [hb]; simp
    obtain ⟨ho2, htr2, _⟩ := process_set_int_out L _ cmd name v offset obj
      ⟨b.width, (L.sscan v).val⟩ hres1 hint1 h0 hfit
    rw [ho2, htr2, htab.2.2, ho, htr]
    cases hw : s.chkWatchPt 1 offset with
    | none => simp [set_value, slot_value, hint]
    | some nm =>
      by_cases h : b.val = (L.sscan v).val
      · simp [set_value, slot_value, hint, h]
      · have h2 : ¬ (L.sscan v).val = b.val := fun e => h e.symm
        simp [set_value, slot_value, hint, h, h2, Out.isSetLog]

/-- C3, amended, on the watched Bool `n` of the demonstration design, which
holds 1: `set n 0` prints one `:=` line. -/
theorem set_logs_iff_watched_and_changed_witness :
    id_to_siminfo_glob stdLib demoWatchN "n" = .ok (0, 0, demoTop)
    ∧ (process_set stdLib demoWatchN ["set", "n", "0"]).1 = LispRet.LISP_RET_TRUE
    ∧ ∃ o, o.isSetLog = true
        ∧ (process_set stdLib demoWatchN ["set", "n", "0"]).2.out = demoWatchN.out ++ [o] :=
  ⟨rfl, by decide,
    ((set_logs_iff_watched_and_changed stdLib demoWatchN "set" "n" "0" 0 0 demoTop rfl).1
      (by decide)).1.2 ⟨by decide, by decide⟩⟩

/-! ## C4: the watchpoint trace of scenario S4 -/

/-- C4, counterexample. On the demonstration design the Bool `n` is 1 at the
start, and `watch n; set n 1; set n 1; set n 0` prints one log line (`:= 0`),
not two. -/
theorem scenario_S4_from_one :
    id_to_siminfo stdLib demoSim "n" = .ok (0, 0, demoTop)
    ∧ demoSim.getBool 0 = 1
    ∧ demoSim.out = []
    ∧ (scenario_S4 stdLib demoSim "n").out = [Out.boolSet 0 "n" 0]
    ∧ (scenario_S4 stdLib demoSim "n").out.length ≠ 2 := by
  refine ⟨rfl, rfl, rfl, by decide, by decide⟩

/-- C4, amended. For a Bool slot `n` whose value at the start is not 1 (it is 0
or X), `watch n; set n 1; set n 1; set n 0` adds exactly two lines to standard
output, the first ending in `:= 1` and the second in `:= 0`; when the value at
the start is 1 it adds exactly one line, the one ending in `:= 0`. -/
theorem scenario_S4_log_lines (L : ActLib) (s : Simulator) (n : String)
    (offset : Int) (obj : ActSimObj)
    (hres : id_to_siminfo L s n = .ok (0, offset, obj)) :
    (s.getBool (obj.getGlobalOffset offset 0) ≠ 1 →
        (scenario_S4 L s n).out
          = s.out ++ [Out.boolSet s.CurTime n 1, Out.boolSet s.CurTime n 0])
    ∧ (s.getBool (obj.getGlobalOffset offset 0) = 1 →
        (scenario_S4 L s n).out = s.out ++ [Out.boolSet s.CurTime n 0])
    ∧ (∃ pre, (Out.boolSet s.CurTime n 1).render = pre ++ " := 1\n")
    ∧ (∃ pre, (Out.boolSet s.CurTime n 0).render = pre ++ " := 0\n") := by
  have hw := process_watch_one L s "watch" n 0 offset obj hres
  have hg0 : id_to_siminfo_glob L s n = .ok (0, obj.getGlobalOffset offset 0, obj) :=
    id_to_siminfo_glob_of_siminfo L s n 0 offset obj hres
  -- the state after `watch n`
  have hg1 : id_to_siminfo_glob L (s.addWatchPoint obj 0 offset n) n
      = .ok (0, obj.getGlobalOffset offset 0, obj) := by
    rw [id_to_siminfo_glob_congr L (s.addWatchPoint obj 0 offset n) s rfl rfl n, hg0]
  have hl1 : bool_literal "1" = some 1 := by decide
  have hl0 : bool_literal "0" = some 0 := by decide
  obtain ⟨o2, _, b2, t2⟩ := process_set_bool_out L (s.addWatchPoint obj 0 offset n) "set" n "1"
    (obj.getGlobalOffset offset 0) obj 1 hg1 hl1
  have tab2 := process_set_tables L (s.addWatchPoint obj 0 offset n) ["set", n, "1"]
  have hg2 : id_to_siminfo_glob L (process_set L (s.addWatchPoint obj 0 offset n)
      ["set", n, "1"]).2 n = .ok (0, obj.getGlobalOffset offset 0, obj) := by
    rw [id_to_siminfo_glob_congr L _ _ tab2.1 tab2.2.1, hg1]
  obtain ⟨o3, _, b3, t3⟩ := process_set_bool_out L _ "set" n "1"
    (obj.getGlobalOffset offset 0) obj 1 hg2 hl1
  have tab3 := process_set_tables L (process_set L (s.addWatchPoint obj 0 offset n)
      ["set", n, "1"]).2 ["set", n, "1"]
  have hg3 : id_to_siminfo_glob L (process_set L (process_set L
      (s.addWatchPoint obj 0 offset n) ["set", n, "1"]).2 ["set", n, "1"]).2 n
      = .ok (0, obj.getGlobalOffset offset 0, obj) := by
    rw [id_to_siminfo_glob_congr L _ _ tab3.1 tab3.2.1, hg2]
  obtain ⟨o4, _, _, _⟩ := process_set_bool_out L _ "set" n "0"
    (obj.getGlobalOffset offset 0) obj 0 hg3 hl0
  have hout : (scenario_S4 L s n).out
      = s.out ++ (if s.getBool (obj.getGlobalOffset offset 0) ≠ 1
          then [Out.boolSet s.CurTime n 1] else []) ++ [Out.boolSet s.CurTime n 0] := by
    unfold scenario_S4
    simp only [hw]
    rw [o4, tab3.2.2, tab2.2.2, b3, t3, t2, o3, tab2.2.2, b2, o2]
    simp [Simulator.addWatchPoint]
  refine ⟨?_, ?_, ?_, ?_⟩
  · intro h; rw [hout]; simp [h]
  · intro h; rw [hout]; simp [h]
  · exact ⟨"[" ++ decPrint s.CurTime 20 ++ "] <[env]> " ++ n, by
      simp [Out.render, boolChar, String.append_assoc]; rfl⟩
  · exact ⟨"[" ++ decPrint s.CurTime 20 ++ "] <[env]> " ++ n, by
      simp [Out.render, boolChar, String.append_assoc]; rfl⟩


/-- C4, amended, on the demonstration design with `n` at X: the scenario prints
the two lines `n := 1` and `n := 0`. -/
theorem scenario_S4_log_lines_witness :
    id_to_siminfo stdLib demoSimX "n" = .ok (0, 0, demoTop)
    ∧ demoSimX.getBool (demoTop.getGlobalOffset 0 0) ≠ 1
    ∧ (scenario_S4 stdLib demoSimX "n").out
        = demoSimX.out ++ [Out.boolSet demoSimX.CurTime "n" 1,
            Out.boolSet demoSimX.CurTime "n" 0] :=
  ⟨rfl, by decide, (scenario_S4_log_lines stdLib demoSimX "n" 0 demoTop rfl).1 (by decide)⟩

/-! ## Shared lemmas on the loops of `watch` and `unwatch` -/

/-- The loop of `watch` over names that resolve, followed by one that does not:
the loop stops at that name, after the names before it. -/
theorem watch_loop_stops (L : ActLib) (bad : String) (rest : List String)
    (msgs : List String) : ∀ (pre : List String) (s : Simulator),
    (∀ n ∈ pre, ∃ r, id_to_siminfo L s n = .ok r) →
    id_to_siminfo L s bad = .error msgs →
    watch_loop L s (pre ++ bad :: rest)
        = (LispRet.LISP_RET_ERROR, (watch_loop L s pre).2.eprintf msgs)
    ∧ (watch_loop L s pre).1 = LispRet.LISP_RET_TRUE := by
  intro pre
  induction pre with
  | nil => intro s _ hbad; simp [watch_loop, hbad]
  | cons n pre ih =>
    intro s hpre hbad
    obtain ⟨⟨type, offset, obj⟩, hn⟩ := hpre n (List.mem_cons_self n pre)
    have hc : ∀ m, id_to_siminfo L (s.addWatchPoint obj type offset n) m
        = id_to_siminfo L s m :=
      fun m => id_to_siminfo_congr L (s.addWatchPoint obj type offset n) s rfl rfl m
    have h := ih (s.addWatchPoint obj type offset n)
      (fun m hm => by rw [hc]; exact hpre m (List.mem_cons_of_mem n hm))
      (by rw [hc]; exact hbad)
    simp only [List.cons_append, watch_loop, hn]
    exact h

/-- The loop of `unwatch` over names that resolve, followed by one that does
not: the loop stops at that name, after the names before it. -/
theorem unwatch_loop_stops (L : ActLib) (bad : String) (rest : List String)
    (msgs : List String) : ∀ (pre : List String) (s : Simulator),
    (∀ n ∈ pre, ∃ r, id_to_siminfo L s n = .ok r) →
    id_to_siminfo L s bad = .error msgs →
    unwatch_loop L s (pre ++ bad :: rest)
        = (LispRet.LISP_RET_ERROR, (unwatch_loop L s pre).2.eprintf msgs)
    ∧ (unwatch_loop L s pre).1 = LispRet.LISP_RET_TRUE := by
  intro pre
  induction pre with
  | nil => intro s _ hbad; simp [unwatch_loop, hbad]
  | cons n pre ih =>
    intro s hpre hbad
    obtain ⟨⟨type, offset, obj⟩, hn⟩ := hpre n (List.mem_cons_self n pre)
    have hc : ∀ m, id_to_siminfo L (s.delWatchPoint obj type offset) m
        = id_to_siminfo L s m :=
      fun m => id_to_siminfo_congr L (s.delWatchPoint obj type offset) s rfl rfl m
    have h := ih (s.delWatchPoint obj type offset)
      (fun m hm => by rw [hc]; exact hpre m (List.mem_cons_of_mem n hm))
      (by rw [hc]; exact hbad)
    simp only [List.cons_append, unwatch_loop, hn]
    exact h

/-- A signal that is watched stays watched through the loop of `watch`. -/
theorem watch_loop_keeps (L : ActLib) (t g : Int) : ∀ (l : List String) (s : Simulator),
    (s.chkWatchPt t g).isSome = true →
    ((watch_loop L s l).2.chkWatchPt t g).isSome = true := by
  intro l
  induction l with
  | nil => intro s h; simpa [watch_loop] using h
  | cons n l ih =>
    intro s h
    unfold watch_loop
    split
    · simpa [Simulator.eprintf] using h
    · apply ih
      simp only [Simulator.addWatchPoint]
      split_ifs
      · rfl
      · exact h

/-- A signal that is not watched stays so through the loop of `unwatch`. -/
theorem unwatch_loop_keeps (L : ActLib) (t g : Int) : ∀ (l : List String) (s : Simulator),
    s.chkWatchPt t g = none →
    (unwatch_loop L s l).2.chkWatchPt t g = none := by
  intro l
  induction l with
  | nil => intro s h; simpa [unwatch_loop] using h
  | cons n l ih =>
    intro s h
    unfold unwatch_loop
    split
    · simpa [Simulator.eprintf] using h
    · apply ih
      simp only [Simulator.delWatchPoint]
      split_ifs
      · rfl
      · exact h

/-- Every name the loop of `watch` went through is watched afterwards. -/
theorem watch_loop_watches (L : ActLib) : ∀ (pre : List String) (s : Simulator),
    (∀ n ∈ pre, ∃ r, id_to_siminfo L s n = .ok r) →
    ∀ n type offset obj, n ∈ pre → id_to_siminfo L s n = .ok (type, offset, obj) →
      ((watch_loop L s pre).2.chkWatchPt type (obj.getGlobalOffset offset type)).isSome
        = true := by
  intro pre
  induction pre with
  | nil => intro s _ n type offset obj hn; simp at hn
  | cons m pre ih =>
    intro s hpre n type offset obj hn hres
    obtain ⟨⟨mt, mo, mobj⟩, hm⟩ := hpre m (List.mem_cons_self m pre)
    have hc : ∀ k, id_to_siminfo L (s.addWatchPoint mobj mt mo m) k
        = id_to_siminfo L s k :=
      fun k => id_to_siminfo_congr L (s.addWatchPoint mobj mt mo m) s rfl rfl k
    simp only [watch_loop, hm]
    rcases List.mem_cons.1 hn with e | hmem
    · subst e
      rw [hres] at hm
      injection hm with hm
      injection hm with h1 hm
      injection hm with h2 h3
      subst h1 h2 h3
      apply watch_loop_keeps
      simp [Simulator.addWatchPoint]
    · exact ih (s.addWatchPoint mobj mt mo m)
        (fun k hk => by rw [hc]; exact hpre k (List.mem_cons_of_mem m hk))
        n type offset obj hmem (by rw [hc]; exact hres)

/-- No name the loop of `unwatch` went through is watched afterwards. -/
theorem unwatch_loop_unwatches (L : ActLib) : ∀ (pre : List String) (s : Simulator),
    (∀ n ∈ pre, ∃ r, id_to_siminfo L s n = .ok r) →
    ∀ n type offset obj, n ∈ pre → id_to_siminfo L s n = .ok (type, offset, obj) →
      (unwatch_loop L s pre).2.chkWatchPt type (obj.getGlobalOffset offset type) = none := by
  intro pre
  induction pre with
  | nil => intro s _ n type offset obj hn; simp at hn
  | cons m pre ih =>
    intro s hpre n type offset obj hn hres
    obtain ⟨⟨mt, mo, mobj⟩, hm⟩ := hpre m (List.mem_cons_self m pre)
    have hc : ∀ k, id_to_siminfo L (s.delWatchPoint mobj mt mo) k
        = id_to_siminfo L s k :=
      fun k => id_to_siminfo_congr L (s.delWatchPoint mobj mt mo) s rfl rfl k
    simp only [unwatch_loop, hm]
    rcases List.mem_cons.1 hn with e | hmem
    · subst e
      rw [hres] at hm
      injection hm with hm
      injection hm with h1 hm
      injection hm with h2 h3
      subst h1 h2 h3
      apply unwatch_loop_keeps
      simp [Simulator.delWatchPoint]
    · exact ih (s.delWatchPoint mobj mt mo)
        (fun k hk => by rw [hc]; exact hpre k (List.mem_cons_of_mem m hk))
        n type offset obj hmem (by rw [hc]; exact hres)

/-! ## C7: `watch` and `unwatch` with a name that does not resolve -/

/-- C7, counterexample. On the demonstration design `zz` does not resolve;
`watch n zz` returns `LISP_RET_ERROR` and yet leaves `n`, which was not watched,
watched; `unwatch n zz` on the design in which `n` is watched returns
`LISP_RET_ERROR` and yet leaves `n` no longer watched.  The registry is not
what it was before either command. -/
theorem watch_unwatch_not_atomic :
    id_to_siminfo stdLib demoSim "zz"
        = .error ["Could not find identifier `zz' within process `top'\n"]
    ∧ (process_watch stdLib demoSim ["watch", "n", "zz"]).1 = LispRet.LISP_RET_ERROR
    ∧ demoSim.chkWatchPt 0 0 = none
    ∧ (process_watch stdLib demoSim ["watch", "n", "zz"]).2.chkWatchPt 0 0 = some "n"
    ∧ (process_watch stdLib demoSim ["watch", "n", "zz"]).2.chkWatchPt ≠ demoSim.chkWatchPt
    ∧ (process_unwatch stdLib demoWatchN ["unwatch", "n", "zz"]).1 = LispRet.LISP_RET_ERROR
    ∧ demoWatchN.chkWatchPt 0 0 = some "n"
    ∧ (process_unwatch stdLib demoWatchN ["unwatch", "n", "zz"]).2.chkWatchPt 0 0 = none
    ∧ (process_unwatch stdLib demoWatchN ["unwatch", "n", "zz"]).2.chkWatchPt
        ≠ demoWatchN.chkWatchPt := by
  refine ⟨rfl, by decide, rfl, by decide, ?_, by decide, by decide, by decide, ?_⟩
  · intro h
    have h2 := congrFun (congrFun h 0) 0
    revert h2
    decide
  · intro h
    have h2 := congrFun (congrFun h 0) 0
    revert h2
    decide

/-- C7, amended. When `ni` is the first name of `watch n1 ... nk` (of
`unwatch n1 ... nk`) that fails to resolve, the command returns
`LISP_RET_ERROR` after the loop has gone through `n1 ... n(i-1)`: the state is
the one the loop reaches on these names, with the resolver's lines added to
standard error, so each of `n1 ... n(i-1)` is watched (is no longer watched)
and the names from `ni` on are not processed.  The registry is left as it was
when the failing name is the first one. -/
theorem watch_unwatch_stop_at_first_failure (L : ActLib) (s : Simulator) (cmd bad : String)
    (pre rest msgs : List String)
    (hpre : ∀ n ∈ pre, ∃ r, id_to_siminfo L s n = .ok r)
    (hbad : id_to_siminfo L s bad = .error msgs) :
    ((process_watch L s (cmd :: (pre ++ bad :: rest))).1 = LispRet.LISP_RET_ERROR
      ∧ (process_watch L s (cmd :: (pre ++ bad :: rest))).2
          = (watch_loop L s pre).2.eprintf msgs
      ∧ (watch_loop L s pre).1 = LispRet.LISP_RET_TRUE
      ∧ (∀ n type offset obj, n ∈ pre → id_to_siminfo L s n = .ok (type, offset, obj) →
          ((process_watch L s (cmd :: (pre ++ bad :: rest))).2.chkWatchPt type
            (obj.getGlobalOffset offset type)).isSome = true)
      ∧ (pre = [] →
          (process_watch L s (cmd :: (pre ++ bad :: rest))).2.chkWatchPt = s.chkWatchPt))
    ∧ ((process_unwatch L s (cmd :: (pre ++ bad :: rest))).1 = LispRet.LISP_RET_ERROR
      ∧ (process_unwatch L s (cmd :: (pre ++ bad :: rest))).2
          = (unwatch_loop L s pre).2.eprintf msgs
      ∧ (unwatch_loop L s pre).1 = LispRet.LISP_RET_TRUE
      ∧ (∀ n type offset obj, n ∈ pre → id_to_siminfo L s n = .ok (type, offset, obj) →
          (process_unwatch L s (cmd :: (pre ++ bad :: rest))).2.chkWatchPt type
            (obj.getGlobalOffset offset type) = none)
      ∧ (pre = [] →
          (process_unwatch L s (cmd :: (pre ++ bad :: rest))).2.chkWatchPt
            = s.chkWatchPt)) := by
  have hlen : ¬ ((cmd :: (pre ++ bad :: rest)).length < 2) := by
    simp only [List.length_cons, List.length_append]; omega
  have hw := watch_loop_stops L bad rest msgs pre s hpre hbad
  have hu := unwatch_loop_stops L bad rest msgs pre s hpre hbad
  have ew : process_watch L s (cmd :: (pre ++ bad :: rest))
      = (LispRet.LISP_RET_ERROR, (watch_loop L s pre).2.eprintf msgs) := by
    unfold process_watch
    rw [if_neg hlen]
    exact hw.1
  have eu : process_unwatch L s (cmd :: (pre ++ bad :: rest))
      = (LispRet.LISP_RET_ERROR, (unwatch_loop L s pre).2.eprintf msgs) := by
    unfold process_unwatch
    rw [if_neg hlen]
    exact hu.1
  rw [ew, eu]
  refine ⟨⟨rfl, rfl, hw.2, ?_, ?_⟩, ⟨rfl, rfl, hu.2, ?_, ?_⟩⟩
  · intro n type offset obj hn hres
    exact watch_loop_watches L pre s hpre n type offset obj hn hres
  · intro e; subst e; rfl
  · intro n type offset obj hn hres
    exact unwatch_loop_unwatches L pre s hpre n type offset obj hn hres
  · intro e; subst e; rfl

/-- C7, amended, on `watch n zz` in the demonstration design: the command
returns `LISP_RET_ERROR` and `n` is watched. -/
theorem watch_unwatch_stop_at_first_failure_witness :
    (∀ n ∈ ["n"], ∃ r, id_to_siminfo stdLib demoSim n = .ok r)
    ∧ id_to_siminfo stdLib demoSim "zz"
        = .error ["Could not find identifier `zz' within process `top'\n"]
    ∧ (process_watch stdLib demoSim ("watch" :: (["n"] ++ "zz" :: []))).1
        = LispRet.LISP_RET_ERROR
    ∧ ((process_watch stdLib demoSim ("watch" :: (["n"] ++ "zz" :: []))).2.chkWatchPt 0
        (demoTop.getGlobalOffset 0 0)).isSome = true :=
  have hp : ∀ n ∈ ["n"], ∃ r, id_to_siminfo stdLib demoSim n = .ok r := by
    intro n hn
    rw [List.mem_singleton.1 hn]
    exact ⟨(0, 0, demoTop), rfl⟩
  have h := watch_unwatch_stop_at_first_failure stdLib demoSim "watch" "zz" ["n"] []
    ["Could not find identifier `zz' within process `top'\n"] hp rfl
  ⟨hp, rfl, h.1.1, h.1.2.2.2.1 "n" 0 0 demoTop (List.mem_singleton.2 rfl) rfl⟩

/-! ## C8: `watch x; unwatch x` -/

/-- C8, counterexample. In the demonstration design with `n` already watched,
`watch n; unwatch n` leaves `n` not watched: the registry is not what it was
before the sequence. -/
theorem watch_unwatch_already_watched :
    id_to_siminfo stdLib demoWatchN "n" = .ok (0, 0, demoTop)
    ∧ demoWatchN.chkWatchPt 0 0 = some "n"
    ∧ (process_unwatch stdLib (process_watch stdLib demoWatchN ["watch", "n"]).2
        ["unwatch", "n"]).2.chkWatchPt 0 0 = none
    ∧ (process_unwatch stdLib (process_watch stdLib demoWatchN ["watch", "n"]).2
        ["unwatch", "n"]).2.chkWatchPt ≠ demoWatchN.chkWatchPt := by
  refine ⟨rfl, by decide, by decide, ?_⟩
  intro h
  have h2 := congrFun (congrFun h 0) 0
  revert h2
  decide

/-- C8, amended. For a resolvable signal `x`, both commands of
`watch x; unwatch x` succeed and resolve `x` to the same type, offset and
object; after the sequence `x` is not watched, every other entry of the
watchpoint registry and the whole breakpoint registry are as before.  Hence
when `x` is not watched before the sequence, the registry, and indeed the whole
state, is left as it was: `unwatch` removes exactly the entry `watch` made. -/
theorem watch_unwatch_restores (L : ActLib) (s : Simulator) (w u x : String)
    (type offset : Int) (obj : ActSimObj)
    (hres : id_to_siminfo L s x = .ok (type, offset, obj)) :
    (process_watch L s [w, x]).1 = LispRet.LISP_RET_TRUE
    ∧ id_to_siminfo L (process_watch L s [w, x]).2 x = .ok (type, offset, obj)
    ∧ (process_unwatch L (process_watch L s [w, x]).2 [u, x]).1 = LispRet.LISP_RET_TRUE
    ∧ (process_unwatch L (process_watch L s [w, x]).2 [u, x]).2.chkWatchPt type
        (obj.getGlobalOffset offset type) = none
    ∧ (∀ t k, ¬ (t = type ∧ k = obj.getGlobalOffset offset type) →
        (process_unwatch L (process_watch L s [w, x]).2 [u, x]).2.chkWatchPt t k
          = s.chkWatchPt t k)
    ∧ (process_unwatch L (process_watch L s [w, x]).2 [u, x]).2.chkBreakPt = s.chkBreakPt
    ∧ (s.chkWatchPt type (obj.getGlobalOffset offset type) = none →
        (process_unwatch L (process_watch L s [w, x]).2 [u, x]).2.chkWatchPt = s.chkWatchPt
        ∧ (process_unwatch L (process_watch L s [w, x]).2 [u, x]).2 = s) := by
  have hw := process_watch_one L s w x type offset obj hres
  have hres1 : id_to_siminfo L (s.addWatchPoint obj type offset x) x
      = .ok (type, offset, obj) := by
    rw [id_to_siminfo_congr L (s.addWatchPoint obj type offset x) s rfl rfl x, hres]
  have hu := process_unwatch_one L (s.addWatchPoint obj type offset x) u x type offset obj hres1
  rw [hw, hu]
  refine ⟨rfl, hres1, rfl, ?_, ?_, rfl, ?_⟩
  · simp [Simulator.delWatchPoint]
  · intro t k hne
    simp [Simulator.delWatchPoint, Simulator.addWatchPoint, hne]
  · intro hnot
    have hreg : ((s.addWatchPoint obj type offset x).delWatchPoint obj type offset).chkWatchPt
        = s.chkWatchPt := by
      funext t k
      simp only [Simulator.delWatchPoint, Simulator.addWatchPoint]
      split_ifs with h
      · rw [h.1, h.2, hnot]
      · rfl
    have e : (s.addWatchPoint obj type offset x).delWatchPoint obj type offset
        = { s with chkWatchPt :=
            ((s.addWatchPoint obj type offset x).delWatchPoint obj type offset).chkWatchPt } :=
      rfl
    exact ⟨hreg, by rw [e, hreg]⟩

/-- C8, amended, on the Int `x` of the demonstration design, which is not
watched at the start: the sequence leaves the design as it was. -/
theorem watch_unwatch_restores_witness :
    id_to_siminfo stdLib demoSim "x" = .ok (1, 0, demoTop)
    ∧ demoSim.chkWatchPt 1 (demoTop.getGlobalOffset 0 1) = none
    ∧ (process_unwatch stdLib (process_watch stdLib demoSim ["watch", "x"]).2
        ["unwatch", "x"]).2 = demoSim :=
  ⟨rfl, rfl, ((watch_unwatch_restores stdLib demoSim "watch" "unwatch" "x" 1 0 demoTop
    rfl).2.2.2.2.2.2 rfl).2⟩

/-! ## C9: `skip-comm` -/

/-- When the raw resolution with global offset succeeds, the name parses and
`find_object` finds the object returned. -/
theorem id_to_siminfo_glob_raw_obj (L : ActLib) (s : Simulator) (name : String)
    (type offset : Int) (obj : ActSimObj)
    (h : id_to_siminfo_glob_raw L s name = .ok (type, offset, obj)) :
    ∃ id, my_parse_id L name = some id ∧ (find_object id s.getInstTable).1 = some obj := by
  unfold id_to_siminfo_glob_raw id_to_siminfo_raw at h
  cases hp : my_parse_id L name with
  | none => simp [hp] at h
  | some id =>
    refine ⟨id, rfl, ?_⟩
    simp only [hp] at h
    rcases hf : find_object id s.getInstTable with ⟨o, tmp⟩
    simp only [hf] at h
    cases o with
    | none => simp at h
    | some ob =>
      cases hi : id_obj_to_siminfo s (some ob) tmp with
      | error e => simp [hi] at h
      | ok r =>
        obtain ⟨t, off⟩ := r
        simp [hi] at h
        simp [h.2.2]

/-- The command `skip-comm` on a name that resolves to an object that is a
`ChpSim`: what it returns and the state it leaves, by type and phase. -/
theorem process_skipcomm_eq (L : ActLib) (s : Simulator) (cmd name : String)
    (type offset : Int) (obj : ActSimObj)
    (h : id_to_siminfo_glob_raw L s name = .ok (type, offset, obj))
    (hchp : obj.isChp = true) :
    process_skipcomm L s [cmd, name] =
      if ¬ (type = 2 ∨ type = 3) then
        (LispRet.LISP_RET_ERROR,
          s.printf (Out.text (cmd ++ ": '" ++ name ++ "' is a not a channel!\n")))
      else if (s.getChan offset).phase = Phase.WaitingSender then
        if type ≠ 3 then
          (LispRet.LISP_RET_ERROR, s.printf (Out.text (name
            ++ ": state is waiting-send; use this command for the sending process.\n")))
        else (LispRet.LISP_RET_TRUE, s.skipChannelAction 1 offset)
      else if (s.getChan offset).phase = Phase.WaitingReceiver then
        if type ≠ 2 then
          (LispRet.LISP_RET_ERROR, s.printf (Out.text (name
            ++ ": state is waiting-recv; use this command for the receiving process.\n")))
        else (LispRet.LISP_RET_TRUE, s.skipChannelAction 0 offset)
      else
        (LispRet.LISP_RET_ERROR, s.printf (Out.text (cmd ++ ": channel `" ++ name
          ++ "' is not in a state where it can be skipped.\n"))) := by
  obtain ⟨id, hp, hf⟩ := id_to_siminfo_glob_raw_obj L s name type offset obj h
  simp only [process_skipcomm, h, hp, hf, hchp, WAITING_SENDER, WAITING_RECEIVER]
  simp


/-- The command `skip-comm` returns `LISP_RET_TRUE` or `LISP_RET_ERROR`, and in
the second case leaves the channels and the calls made as they were. -/
theorem process_skipcomm_error (L : ActLib) (s : Simulator) (argv : List String)
    (h : (process_skipcomm L s argv).1 ≠ LispRet.LISP_RET_TRUE) :
    (process_skipcomm L s argv).1 = LispRet.LISP_RET_ERROR
    ∧ (process_skipcomm L s argv).2.getChan = s.getChan
    ∧ (process_skipcomm L s argv).2.calls = s.calls := by
  revert h
  unfold process_skipcomm
  repeat' split
  all_goals first
    | (simp [Simulator.printf, Simulator.eprintf]; done)
    | (dsimp only; split_ifs <;> simp [Simulator.printf, Simulator.eprintf])

/-- A `skip-comm` that returns `LISP_RET_TRUE` on a name that resolves was
issued inside a CHP/HSE process, on the side the channel is waiting for. -/
theorem process_skipcomm_true_inv (L : ActLib) (s : Simulator) (cmd name : String)
    (type offset : Int) (obj : ActSimObj)
    (hres : id_to_siminfo_glob_raw L s name = .ok (type, offset, obj))
    (hret : (process_skipcomm L s [cmd, name]).1 = LispRet.LISP_RET_TRUE) :
    obj.isChp = true
    ∧ (((s.getChan offset).phase = Phase.WaitingSender ∧ type = 3)
        ∨ ((s.getChan offset).phase = Phase.WaitingReceiver ∧ type = 2)) := by
  by_cases hchp : obj.isChp = true
  · refine ⟨hchp, ?_⟩
    rw [process_skipcomm_eq L s cmd name type offset obj hres hchp] at hret
    split_ifs at hret with h1 h2 h3 h4 h5
    all_goals first
      | exact absurd hret (by decide)
      | (left; exact ⟨h2, not_not.1 h3⟩)
      | (right; exact ⟨h4, not_not.1 h5⟩)
  · exfalso
    obtain ⟨id, hp, hf⟩ := id_to_siminfo_glob_raw_obj L s name type offset obj hres
    simp only [process_skipcomm, hres, hp, hf, hchp] at hret
    split_ifs at hret
    all_goals contradiction

/-- C9. The command `skip-comm <ch>` performs a skip (it returns `LISP_RET_TRUE`
after the call `skipChannelAction`) iff the identifier resolves inside a
CHP/HSE process and either the channel is in phase WaitingSender and the
identifier is the sending endpoint (type 3, skip of the send), or the channel is
in phase WaitingReceiver and the identifier is the receiving endpoint (type 2,
skip of the receive).  The skip returns the channel to Idle and keeps its
count.  In every other case (idle channel, send-probe or receive-probe wait,
endpoint on the wrong side, identifier not a channel or not resolved, object
not a CHP/HSE process) the command returns `LISP_RET_ERROR`, calls no skip
action and leaves every channel state unchanged. -/
theorem skipcomm_skips_iff_waiting_side (L : ActLib) (s : Simulator) (cmd name : String) :
    ((process_skipcomm L s [cmd, name]).1 = LispRet.LISP_RET_TRUE
      ↔ ∃ type offset obj, id_to_siminfo_glob_raw L s name = .ok (type, offset, obj)
          ∧ obj.isChp = true
          ∧ (((s.getChan offset).phase = Phase.WaitingSender ∧ type = 3)
              ∨ ((s.getChan offset).phase = Phase.WaitingReceiver ∧ type = 2)))
    ∧ (∀ type offset obj, id_to_siminfo_glob_raw L s name = .ok (type, offset, obj) →
        (process_skipcomm L s [cmd, name]).1 = LispRet.LISP_RET_TRUE →
        (process_skipcomm L s [cmd, name]).2
            = s.skipChannelAction (if type = 3 then 1 else 0) offset
        ∧ (process_skipcomm L s [cmd, name]).2.calls
            = s.calls ++ [Call.skipChannelAction (if type = 3 then 1 else 0) offset]
        ∧ ((process_skipcomm L s [cmd, name]).2.getChan offset).phase = Phase.Idle
        ∧ ((process_skipcomm L s [cmd, name]).2.getChan offset).count
            = (s.getChan offset).count)
    ∧ ((process_skipcomm L s [cmd, name]).1 ≠ LispRet.LISP_RET_TRUE →
        (process_skipcomm L s [cmd, name]).1 = LispRet.LISP_RET_ERROR
        ∧ (process_skipcomm L s [cmd, name]).2.getChan = s.getChan
        ∧ (process_skipcomm L s [cmd, name]).2.calls = s.calls) := by
  refine ⟨⟨?_, ?_⟩, ?_, process_skipcomm_error L s [cmd, name]⟩
  · intro hret
    cases hres : id_to_siminfo_glob_raw L s name with
    | error msgs => simp [process_skipcomm, hres] at hret
    | ok r =>
      obtain ⟨type, offset, obj⟩ := r
      obtain ⟨hchp, hc⟩ := process_skipcomm_true_inv L s cmd name type offset obj hres hret
      exact ⟨type, offset, obj, rfl, hchp, hc⟩
  · rintro ⟨type, offset, obj, hres, hchp, hc⟩
    rw [process_skipcomm_eq L s cmd name type offset obj hres hchp]
    rcases hc with ⟨hph, ht⟩ | ⟨hph, ht⟩
    · simp [hph, ht]
    · simp [hph, ht]
  · intro type offset obj hres hret
    obtain ⟨hchp, hc⟩ := process_skipcomm_true_inv L s cmd name type offset obj hres hret
    rw [process_skipcomm_eq L s cmd name type offset obj hres hchp]
    rcases hc with ⟨hph, ht⟩ | ⟨hph, ht⟩
    · subst ht
      simp [hph, Simulator.skipChannelAction]
    · subst ht
      simp [hph, Simulator.skipChannelAction]

/-- C9, on the demonstration design: `C` waits for its sender to be met and is
named from the sending side, so `skip-comm C` skips the send and `C` becomes
idle; `D` is idle, so `skip-comm D` is an error. -/
theorem skipcomm_skips_iff_waiting_side_witness :
    id_to_siminfo_glob_raw stdLib demoSim "C" = .ok (3, 0, demoTop)
    ∧ (process_skipcomm stdLib demoSim ["skip-comm", "C"]).1 = LispRet.LISP_RET_TRUE
    ∧ ((process_skipcomm stdLib demoSim ["skip-comm", "C"]).2.getChan 0).phase = Phase.Idle
    ∧ (process_skipcomm stdLib demoSim ["skip-comm", "D"]).1 = LispRet.LISP_RET_ERROR
    ∧ (process_skipcomm stdLib demoSim ["skip-comm", "D"]).2.getChan = demoSim.getChan :=
  have h := skipcomm_skips_iff_waiting_side stdLib demoSim "skip-comm" "C"
  have g := skipcomm_skips_iff_waiting_side stdLib demoSim "skip-comm" "D"
  have hC : (process_skipcomm stdLib demoSim ["skip-comm", "C"]).1 = LispRet.LISP_RET_TRUE :=
    h.1.2 ⟨3, 0, demoTop, rfl, rfl, Or.inl ⟨rfl, rfl⟩⟩
  ⟨rfl, hC, (h.2.1 3 0 demoTop rfl hC).2.2.1, (g.2.2 (by decide)).1, (g.2.2 (by decide)).2.1⟩

/-! ## C10: `step` -/

/-- The dispatch loop of `Step` dispatches at most `n` events and keeps the
record of the events dispatched before. -/
theorem stepLoop_fired : ∀ (n : Nat) (s : Simulator),
    (Simulator.stepLoop n s).fired.length ≤ s.fired.length + n
    ∧ s.fired <+: (Simulator.stepLoop n s).fired := by
  intro n
  induction n with
  | zero => intro s; simp [Simulator.stepLoop]
  | succ n ih =>
    intro s
    unfold Simulator.stepLoop
    split_ifs
    · simp
    · split
      · simp
      · rename_i ev _
        obtain ⟨h1, h2⟩ := ih (s.dispatch ev)
        have e : (s.dispatch ev).fired = s.fired ++ [ev] := rfl
        rw [e] at h1 h2
        constructor
        · simp only [List.length_append, List.length_singleton] at h1
          omega
        · exact List.IsPrefix.trans (List.prefix_append s.fired [ev]) h2

/-- C10. Without an argument `step` runs as with `n` = 1.  With an argument
that `sscanf` reads as `n`: for `n ≤ 0` it returns `LISP_RET_ERROR` and
dispatches no event (queue, time and the record of dispatched events are
unchanged); for `n ≥ 1` it hands `n` to the kernel (`Step (n)`, which dispatches
at most `n` events) and then returns `LISP_RET_TRUE` iff events remain pending
in the queue and `LISP_RET_FALSE` iff the queue is empty. -/
theorem step_default_and_range (L : ActLib) (uninit : Int) (s : Simulator) (cmd a : String)
    (n : Int) (hn : L.sscanf_ld a = some n) :
    ((process_step L uninit s [cmd]).2 = s.Step 1
      ∧ ((process_step L uninit s [cmd]).1 = LispRet.LISP_RET_TRUE ↔ (s.Step 1).queue ≠ [])
      ∧ ((process_step L uninit s [cmd]).1 = LispRet.LISP_RET_FALSE ↔ (s.Step 1).queue = [])
      ∧ (n = 1 → process_step L uninit s [cmd, a] = process_step L uninit s [cmd]))
    ∧ (n ≤ 0 →
        (process_step L uninit s [cmd, a]).1 = LispRet.LISP_RET_ERROR
        ∧ (process_step L uninit s [cmd, a]).2 = s.eprintf [cmd ++ ": zero/negative steps?\n"]
        ∧ (process_step L uninit s [cmd, a]).2.queue = s.queue
        ∧ (process_step L uninit s [cmd, a]).2.fired = s.fired
        ∧ (process_step L uninit s [cmd, a]).2.CurTime = s.CurTime)
    ∧ (1 ≤ n →
        (process_step L uninit s [cmd, a]).2 = s.Step n
        ∧ ((process_step L uninit s [cmd, a]).1 = LispRet.LISP_RET_TRUE
            ↔ (s.Step n).queue ≠ [])
        ∧ ((process_step L uninit s [cmd, a]).1 = LispRet.LISP_RET_FALSE
            ↔ (s.Step n).queue = [])
        ∧ (s.Step n).fired.length ≤ s.fired.length + n.toNat
        ∧ s.fired <+: (s.Step n).fired) := by
  have hrun : ∀ k : Int, (step_run s k).2 = s.Step k
      ∧ ((step_run s k).1 = LispRet.LISP_RET_TRUE ↔ (s.Step k).queue ≠ [])
      ∧ ((step_run s k).1 = LispRet.LISP_RET_FALSE ↔ (s.Step k).queue = []) := by
    intro k
    unfold step_run
    cases hq : (s.Step k).queue with
    | nil => simp [Simulator.hasPendingEvent, hq]
    | cons e es => simp [Simulator.hasPendingEvent, hq]
  refine ⟨⟨?_, ?_, ?_, ?_⟩, ?_, ?_⟩
  · exact (hrun 1).1
  · exact (hrun 1).2.1
  · exact (hrun 1).2.2
  · intro h1
    subst h1
    simp [process_step, hn]
  · intro hle
    simp [process_step, hn, hle, Simulator.eprintf]
  · intro hge
    have hnot : ¬ n ≤ 0 := by omega
    have e : process_step L uninit s [cmd, a] = step_run s n := by
      simp [process_step, hn, hnot]
    rw [e]
    refine ⟨(hrun n).1, (hrun n).2.1, (hrun n).2.2, ?_, ?_⟩
    · exact (stepLoop_fired n.toNat { s with break_flag := false }).1
    · exact (stepLoop_fired n.toNat { s with break_flag := false }).2

/-- C10, on the demonstration design with three pending events: `step 0` is an
error and dispatches nothing; `step 2` dispatches the two events at time 3, in
the order they were posted, and returns `LISP_RET_TRUE` since the event at time
5 remains. -/
theorem step_default_and_range_witness :
    stdLib.sscanf_ld "0" = some 0
    ∧ (process_step stdLib 7 demoSimEv ["step", "0"]).1 = LispRet.LISP_RET_ERROR
    ∧ (process_step stdLib 7 demoSimEv ["step", "0"]).2.queue = demoSimEv.queue
    ∧ stdLib.sscanf_ld "2" = some 2
    ∧ (process_step stdLib 7 demoSimEv ["step", "2"]).1 = LispRet.LISP_RET_TRUE
    ∧ (process_step stdLib 7 demoSimEv ["step", "2"]).2.fired
        = [⟨3, 1, 2, Origin.chp⟩, ⟨3, 2, 1, Origin.hse⟩] :=
  have h0 := (step_default_and_range stdLib 7 demoSimEv "step" "0" 0 (by decide)).2.1
    (by decide)
  have h2 := (step_default_and_range stdLib 7 demoSimEv "step" "2" 2 (by decide)).2.2
    (by decide)
  ⟨by decide, h0.1, h0.2.2.1, by decide, h2.2.1.2 (by decide), by rw [h2.1]; decide⟩

/-! ## Shared lemmas on the event kernel -/

/-- The strict order of events, spelled out. -/
theorem Event.before_iff (a b : Event) :
    a.before b = true
      ↔ a.deadline < b.deadline ∨ (a.deadline = b.deadline ∧ a.tiebreak < b.tiebreak) := by
  simp [Event.before]

/-- The earliest event of a list belongs to the list, and no event of the list
comes strictly before it. -/
theorem earliest_spec : ∀ (l : List Event) (m : Event), earliest l = some m →
    m ∈ l ∧ ∀ e ∈ l, e.before m = false := by
  intro l
  induction l with
  | nil => intro m h; simp [earliest] at h
  | cons e es ih =>
    intro m h
    unfold earliest at h
    cases hes : earliest es with
    | none =>
      rw [hes] at h
      simp only [Option.some.injEq] at h
      subst h
      have hnil : es = [] := by
        cases es with
        | nil => rfl
        | cons x xs =>
          exfalso
          unfold earliest at hes
          cases h2 : earliest xs with
          | none => simp [h2] at hes
          | some m2 => rw [h2] at hes; simp only at hes; split_ifs at hes
      subst hnil
      refine ⟨List.mem_singleton.2 rfl, ?_⟩
      intro x hx
      rw [List.mem_singleton.1 hx]
      simp [Event.before]
    | some m2 =>
      rw [hes] at h
      obtain ⟨hm2, hmin⟩ := ih m2 hes
      simp only at h
      by_cases hb : m2.before e = true
      · rw [if_pos hb] at h
        simp only [Option.some.injEq] at h
        subst h
        refine ⟨List.mem_cons_of_mem e hm2, ?_⟩
        intro x hx
        rcases List.mem_cons.1 hx with rfl | hx
        · have := (Event.before_iff m2 x).1 hb
          cases hxm : x.before m2 with
          | false => rfl
          | true =>
            have := (Event.before_iff x m2).1 hxm
            omega
        · exact hmin x hx
      · rw [if_neg hb] at h
        simp only [Option.some.injEq] at h
        subst h
        refine ⟨List.mem_cons_self e es, ?_⟩
        intro x hx
        rcases List.mem_cons.1 hx with rfl | hx
        · simp [Event.before]
        · have h1 := hmin x hx
          cases hxe : x.before e with
          | false => rfl
          | true =>
            exfalso
            have h2 := (Event.before_iff x e).1 hxe
            have h3 : ¬ (x.deadline < m2.deadline
                ∨ (x.deadline = m2.deadline ∧ x.tiebreak < m2.tiebreak)) := by
              intro h; have := (Event.before_iff x m2).2 h; rw [h1] at this; cases this
            have h4 : ¬ (m2.deadline < e.deadline
                ∨ (m2.deadline = e.deadline ∧ m2.tiebreak < e.tiebreak)) := by
              intro h; exact hb ((Event.before_iff m2 e).2 h)
            omega

/-- A list that is not empty has an earliest event. -/
theorem earliest_isSome : ∀ (l : List Event), l ≠ [] → ∃ m, earliest l = some m := by
  intro l
  cases l with
  | nil => intro h; exact absurd rfl h
  | cons e es =>
    intro _
    unfold earliest
    cases earliest es with
    | none => exact ⟨e, rfl⟩
    | some m2 =>
      by_cases hb : m2.before e = true
      · exact ⟨m2, by simp [hb]⟩
      · exact ⟨e, by simp [hb]⟩

/-! ## Shared lemmas on `cycle` -/

/-- In reset mode the dispatch filter admits exactly the PRS and HSE events. -/
theorem eligible_reset (s : Simulator) (h : s.isResetMode = true) :
    s.eligible = _match_hseprs := by
  funext e
  simp [Simulator.eligible, _match_hseprs, h]

/-- In run mode the dispatch filter admits every event. -/
theorem eligible_run (s : Simulator) (h : s.isResetMode = false) (e : Event) :
    s.eligible e = true := by
  simp [Simulator.eligible, h]

/-- One turn of the dispatch loop with both flags clear dispatches the earliest
admitted event. -/
theorem stepLoop_one (t : Simulator) (ev : Event) (hi : t.interrupted = false)
    (hb : t.break_flag = false) (hev : earliest (t.queue.filter t.eligible) = some ev) :
    Simulator.stepLoop 1 t = t.dispatch ev := by
  simp [Simulator.stepLoop, hi, hb, hev]

/-- One step of the kernel in reset mode, with the interrupt flag clear and a
PRS or HSE event pending, dispatches exactly one event, of PRS or HSE origin. -/
theorem Step_one_reset (s : Simulator) (hr : s.isResetMode = true)
    (hi : s.interrupted = false) (hp : s.matchPendingEvent _match_hseprs = true) :
    ∃ ev, ev ∈ s.queue ∧ ev.kind ≠ Origin.chp
      ∧ s.Step 1 = ({ s with break_flag := false } : Simulator).dispatch ev
      ∧ (s.Step 1).fired = s.fired ++ [ev]
      ∧ (s.Step 1).isResetMode = true := by
  have hne : s.queue.filter _match_hseprs ≠ [] := by
    intro h
    simp only [Simulator.matchPendingEvent, List.any_eq_true] at hp
    obtain ⟨e, he, hm⟩ := hp
    have : e ∈ s.queue.filter _match_hseprs := List.mem_filter.2 ⟨he, hm⟩
    rw [h] at this
    cases this
  obtain ⟨ev, hev⟩ := earliest_isSome _ hne
  obtain ⟨hmem, _⟩ := earliest_spec _ ev hev
  obtain ⟨hq, hk⟩ := List.mem_filter.1 hmem
  have hel : ({ s with break_flag := false } : Simulator).eligible = _match_hseprs :=
    eligible_reset _ hr
  have hstep : s.Step 1 = ({ s with break_flag := false } : Simulator).dispatch ev := by
    have h1 : s.Step 1 = Simulator.stepLoop 1 { s with break_flag := false } := rfl
    rw [h1]
    exact stepLoop_one _ ev hi rfl (by rw [hel]; exact hev)
  refine ⟨ev, hq, ?_, hstep, ?_, ?_⟩
  · simpa [_match_hseprs] using hk
  · rw [hstep]; rfl
  · rw [hstep]; exact hr

/-- What the loop of `cycle` in reset mode guarantees when it ends: the
interrupt flag is raised or no PRS or HSE event is pending, and the events
dispatched on the way are all of PRS or HSE origin. -/
theorem cycle_reset_loop_spec (sig : Nat → Bool) : ∀ (fuel i : Nat) (s s1 : Simulator),
    s.isResetMode = true → cycle_reset_loop sig fuel i s = some s1 →
    (s1.interrupted = true ∨ s1.matchPendingEvent _match_hseprs = false)
    ∧ (∃ evs, s1.fired = s.fired ++ evs ∧ ∀ e ∈ evs, e.kind ≠ Origin.chp)
    ∧ s1.isResetMode = true := by
  intro fuel
  induction fuel with
  | zero =>
    intro i s s1 hr h
    unfold cycle_reset_loop at h
    have hf : (at_test sig i s).fired = s.fired := by
      unfold at_test; split_ifs <;> rfl
    have hm : (at_test sig i s).isResetMode = true := by
      unfold at_test; split_ifs <;> exact hr
    split_ifs at h with h1 h2
    · simp only [Option.some.injEq] at h; subst h
      exact ⟨Or.inl h1, ⟨[], by simp [hf], by simp⟩, hm⟩
    · simp only [Option.some.injEq] at h; subst h
      exact ⟨Or.inr (by simpa using h2), ⟨[], by simp [hf], by simp⟩, hm⟩
  | succ fuel ih =>
    intro i s s1 hr h
    unfold cycle_reset_loop at h
    have hf : (at_test sig i s).fired = s.fired := by
      unfold at_test; split_ifs <;> rfl
    have hm : (at_test sig i s).isResetMode = true := by
      unfold at_test; split_ifs <;> exact hr
    split_ifs at h with h1 h2
    · simp only [Option.some.injEq] at h; subst h
      exact ⟨Or.inl h1, ⟨[], by simp [hf], by simp⟩, hm⟩
    · simp only [Option.some.injEq] at h; subst h
      exact ⟨Or.inr (by simpa using h2), ⟨[], by simp [hf], by simp⟩, hm⟩
    · have hi : (at_test sig i s).interrupted = false := by simpa using h1
      have hp : (at_test sig i s).matchPendingEvent _match_hseprs = true := by simpa using h2
      obtain ⟨ev, _, hk, _, hfired, hmode⟩ := Step_one_reset _ hm hi hp
      obtain ⟨hexit, ⟨evs, hevs, hall⟩, hmode1⟩ := ih (i + 1) _ s1 hmode h
      refine ⟨hexit, ⟨ev :: evs, ?_, ?_⟩, hmode1⟩
      · rw [hevs, hfired, hf]; simp
      · intro e he
        rcases List.mem_cons.1 he with rfl | he
        · exact hk
        · exact hall e he

/-! ## C11: `cycle` with an empty queue -/

/-- C11, counterexample. In the demonstration design the queue is empty; in
reset mode and in run mode alike `cycle` returns `LISP_RET_TRUE` and leaves
standard output and standard error empty: nothing is reported, and the return
code is the one of a cycle that ran events. -/
theorem cycle_empty_reports_nothing :
    demoReset.queue = [] ∧ demoReset.isResetMode = true
    ∧ (∃ s1, process_cycle (fun _ => false) 0 demoReset ["cycle"]
          = some (LispRet.LISP_RET_TRUE, s1) ∧ s1.out = [] ∧ s1.err = [])
    ∧ demoSim.queue = [] ∧ demoSim.isResetMode = false
    ∧ (∃ s1, process_cycle (fun _ => false) 0 demoSim ["cycle"]
          = some (LispRet.LISP_RET_TRUE, s1) ∧ s1.out = [] ∧ s1.err = []) :=
  ⟨rfl, rfl, ⟨_, rfl, rfl, rfl⟩, rfl, rfl, ⟨_, rfl, rfl, rfl⟩⟩

/-- C11, amended. For a simulator state whose event queue is empty, `cycle`
returns `LISP_RET_TRUE` at once (with any fuel, also none) without dispatching
an event: the queue, the time and the record of dispatched events are as
before, and nothing is written to standard output or standard error.  In reset
mode the loop ends at its first test; in run mode the kernel's run has nothing
to dispatch. -/
theorem cycle_on_empty_queue (sig : Nat → Bool) (fuel : Nat) (s : Simulator) (cmd : String)
    (hq : s.queue = []) :
    ∃ s1, process_cycle sig fuel s [cmd] = some (LispRet.LISP_RET_TRUE, s1)
      ∧ s1.fired = s.fired ∧ s1.queue = [] ∧ s1.CurTime = s.CurTime
      ∧ s1.out = s.out ∧ s1.err = s.err
      ∧ (s.isResetMode = true → s1 = at_test sig 0 s)
      ∧ (s.isResetMode = false → s1 = { s with break_flag := false }) := by
  have hq1 : (at_test sig 0 s).queue = [] := by
    unfold at_test; split_ifs <;> exact hq
  have hm : (at_test sig 0 s).matchPendingEvent _match_hseprs = false := by
    simp [Simulator.matchPendingEvent, hq1]
  have hloop : cycle_reset_loop sig fuel 0 s = some (at_test sig 0 s) := by
    cases fuel with
    | zero => unfold cycle_reset_loop; simp [hm]
    | succ f => unfold cycle_reset_loop; simp [hm]
  have hrun : s.runSim fuel = some { s with break_flag := false } := by
    unfold Simulator.runSim
    cases fuel with
    | zero => simp [Simulator.runLoop, hq, earliest]
    | succ f => simp [Simulator.runLoop, hq, earliest]
  by_cases hr : s.isResetMode = true
  · refine ⟨at_test sig 0 s, ?_, ?_, hq1, ?_, ?_, ?_, fun _ => rfl, fun h => ?_⟩
    · simp [process_cycle, hr, hloop]
    · unfold at_test; split_ifs <;> rfl
    · unfold at_test; split_ifs <;> rfl
    · unfold at_test; split_ifs <;> rfl
    · unfold at_test; split_ifs <;> rfl
    · rw [h] at hr; cases hr
  · have hr2 : s.isResetMode = false := by simpa using hr
    refine ⟨{ s with break_flag := false }, ?_, rfl, hq, rfl, rfl, rfl, fun h => ?_, fun _ => rfl⟩
    · simp [process_cycle, hr2, hrun]
    · exact absurd h hr

/-- C11, amended, on the demonstration design in reset mode with SIGINT
delivered before the first test: `cycle` returns at once with no event
dispatched. -/
theorem cycle_on_empty_queue_witness :
    demoReset.queue = []
    ∧ ∃ s1, process_cycle (fun _ => true) 3 demoReset ["cycle"]
        = some (LispRet.LISP_RET_TRUE, s1) ∧ s1.fired = demoReset.fired ∧ s1.queue = [] :=
  ⟨rfl,
    (cycle_on_empty_queue (fun _ => true) 3 demoReset "cycle" rfl).elim
      (fun s1 h => ⟨s1, h.1, h.2.1, h.2.2.1⟩)⟩

/-! ## C19: `cycle` in reset mode -/

/-- C19. In reset mode `cycle` is the loop that tests the interrupt flag, then
whether a PRS or HSE event is pending, and then asks the kernel for one step.
The loop ends without a step as soon as the flag is raised or no PRS or HSE
event is pending; otherwise it makes exactly one step, which dispatches one
pending event of PRS or HSE origin, whatever the breakpoint flag, and goes on.
When `cycle` returns it returns `LISP_RET_TRUE`, every event it dispatched is of
PRS or HSE origin, and if the interrupt flag is not raised then no PRS or HSE
event is pending. -/
theorem cycle_reset_steps_while_pending (sig : Nat → Bool) (fuel : Nat) (s : Simulator)
    (cmd : String) (hr : s.isResetMode = true) :
    (process_cycle sig fuel s [cmd]
        = (cycle_reset_loop sig fuel 0 s).map (fun s1 => (LispRet.LISP_RET_TRUE, s1)))
    ∧ (∀ f i t, ((at_test sig i t).interrupted = true
          ∨ (at_test sig i t).matchPendingEvent _match_hseprs = false) →
        cycle_reset_loop sig f i t = some (at_test sig i t))
    ∧ (∀ f i t, t.isResetMode = true → (at_test sig i t).interrupted = false →
        (at_test sig i t).matchPendingEvent _match_hseprs = true →
        cycle_reset_loop sig (f + 1) i t
            = cycle_reset_loop sig f (i + 1) ((at_test sig i t).Step 1)
        ∧ ∃ ev, ev ∈ t.queue ∧ ev.kind ≠ Origin.chp
            ∧ ((at_test sig i t).Step 1).fired = t.fired ++ [ev])
    ∧ (∀ r s1, process_cycle sig fuel s [cmd] = some (r, s1) →
        r = LispRet.LISP_RET_TRUE
        ∧ (s1.interrupted = false → s1.matchPendingEvent _match_hseprs = false)
        ∧ ∃ evs, s1.fired = s.fired ++ evs ∧ ∀ e ∈ evs, e.kind ≠ Origin.chp) := by
  have hcyc : process_cycle sig fuel s [cmd]
      = (cycle_reset_loop sig fuel 0 s).map (fun s1 => (LispRet.LISP_RET_TRUE, s1)) := by
    unfold process_cycle
    cases cycle_reset_loop sig fuel 0 s <;> simp [hr]
  refine ⟨hcyc, ?_, ?_, ?_⟩
  · intro f i t h
    cases f with
    | zero =>
      unfold cycle_reset_loop
      rcases h with h | h
      · simp [h]
      · simp [h]
    | succ f =>
      unfold cycle_reset_loop
      rcases h with h | h
      · simp [h]
      · simp [h]
  · intro f i t ht hi hp
    have hm : (at_test sig i t).isResetMode = true := by
      unfold at_test; split_ifs <;> exact ht
    have hq : (at_test sig i t).queue = t.queue := by
      unfold at_test; split_ifs <;> rfl
    have hf : (at_test sig i t).fired = t.fired := by
      unfold at_test; split_ifs <;> rfl
    obtain ⟨ev, hmem, hk, _, hfired, _⟩ := Step_one_reset _ hm hi hp
    refine ⟨?_, ev, by rw [← hq]; exact hmem, hk, by rw [hfired, hf]⟩
    conv_lhs => unfold cycle_reset_loop
    simp [hi, hp]
  · intro r s1 h
    rw [hcyc] at h
    cases hl : cycle_reset_loop sig fuel 0 s with
    | none => rw [hl] at h; simp at h
    | some s2 =>
      rw [hl] at h
      simp only [Option.map_some', Option.some.injEq, Prod.mk.injEq] at h
      obtain ⟨h1, h2⟩ := h
      subst h1 h2
      obtain ⟨hexit, hevs, _⟩ := cycle_reset_loop_spec sig fuel 0 s s2 hr hl
      refine ⟨rfl, ?_, hevs⟩
      intro hni
      rcases hexit with h | h
      · rw [hni] at h; cases h
      · exact h

/-- C19, on the demonstration design in reset mode with an HSE event at time 3
and a PRS event at time 5, where every dispatch raises the breakpoint flag:
`cycle` dispatches both events, one step each, and returns with no PRS or HSE
event pending. -/
theorem cycle_reset_steps_while_pending_witness :
    demoSimBrk.isResetMode = true
    ∧ ∃ s1, process_cycle (fun _ => false) 2 demoSimBrk ["cycle"]
          = some (LispRet.LISP_RET_TRUE, s1)
        ∧ s1.fired = [⟨3, 0, 1, Origin.hse⟩, ⟨5, 1, 2, Origin.prs⟩]
        ∧ s1.break_flag = true
        ∧ s1.matchPendingEvent _match_hseprs = false := by
  refine ⟨rfl, ?_⟩
  have h := (cycle_reset_steps_while_pending (fun _ => false) 2 demoSimBrk "cycle" rfl).2.2.2
  cases hc : process_cycle (fun _ => false) 2 demoSimBrk ["cycle"] with
  | none =>
    have hs : (process_cycle (fun _ => false) 2 demoSimBrk ["cycle"]).isSome = true := by
      decide
    rw [hc] at hs
    cases hs
  | some p =>
    obtain ⟨r, s1⟩ := p
    obtain ⟨hr, hexit, _⟩ := h r s1 hc
    subst hr
    have hf : (process_cycle (fun _ => false) 2 demoSimBrk ["cycle"]).map (fun q => q.2.fired)
        = some [⟨3, 0, 1, Origin.hse⟩, ⟨5, 1, 2, Origin.prs⟩] := by decide
    have hb : (process_cycle (fun _ => false) 2 demoSimBrk ["cycle"]).map
        (fun q => (q.2.break_flag, q.2.interrupted)) = some (true, false) := by decide
    rw [hc] at hf hb
    simp only [Option.map_some', Option.some.injEq, Prod.mk.injEq] at hf hb
    exact ⟨s1, rfl, hf, hb.1, hexit hb.2⟩

/-! ## C12: `mode reset; mode run` -/

/-- C12, counterexample. The demonstration design in reset mode is in run mode
after `mode reset; mode run`: the mode flag is not what it was before the
sequence. -/
theorem mode_reset_run_from_reset :
    demoReset.isResetMode = true
    ∧ (process_mode demoReset ["mode", "reset"]).1 = LispRet.LISP_RET_TRUE
    ∧ (process_mode (process_mode demoReset ["mode", "reset"]).2 ["mode", "run"]).1
        = LispRet.LISP_RET_TRUE
    ∧ (process_mode (process_mode demoReset ["mode", "reset"]).2
        ["mode", "run"]).2.isResetMode = false
    ∧ (process_mode (process_mode demoReset ["mode", "reset"]).2
        ["mode", "run"]).2.isResetMode ≠ demoReset.isResetMode := by
  refine ⟨rfl, rfl, rfl, rfl, by decide⟩

/-- C12, amended. The sequence `mode reset; mode run` always ends in run mode:
it leaves the mode flag as it was exactly when the state was in run mode before
the sequence, in which case the whole state is as before.  Each of the two
commands succeeds and changes nothing but the mode flag; in particular neither
adds, removes or reorders an event of the queue. -/
theorem mode_reset_run (s : Simulator) (cmd : String) :
    (process_mode s [cmd, "reset"]).1 = LispRet.LISP_RET_TRUE
    ∧ (process_mode s [cmd, "reset"]).2 = { s with isResetMode := true }
    ∧ (process_mode s [cmd, "reset"]).2.queue = s.queue
    ∧ (process_mode (process_mode s [cmd, "reset"]).2 [cmd, "run"]).1
        = LispRet.LISP_RET_TRUE
    ∧ (process_mode (process_mode s [cmd, "reset"]).2 [cmd, "run"]).2
        = { s with isResetMode := false }
    ∧ (process_mode (process_mode s [cmd, "reset"]).2 [cmd, "run"]).2.queue = s.queue
    ∧ (process_mode (process_mode s [cmd, "reset"]).2 [cmd, "run"]).2.isResetMode = false
    ∧ ((process_mode (process_mode s [cmd, "reset"]).2 [cmd, "run"]).2.isResetMode
          = s.isResetMode ↔ s.isResetMode = false)
    ∧ (s.isResetMode = false →
        (process_mode (process_mode s [cmd, "reset"]).2 [cmd, "run"]).2 = s) := by
  have h1 : process_mode s [cmd, "reset"]
      = (LispRet.LISP_RET_TRUE, { s with isResetMode := true }) := by
    simp [process_mode, Simulator.setMode]
  have hne : ¬ ("run" = "reset") := by decide
  have h2 : process_mode { s with isResetMode := true } [cmd, "run"]
      = (LispRet.LISP_RET_TRUE, { s with isResetMode := false }) := by
    simp [process_mode, Simulator.setMode, hne]
  rw [h1, h2]
  refine ⟨rfl, rfl, rfl, rfl, rfl, rfl, rfl, ⟨fun h => h.symm, fun h => h.symm⟩, ?_⟩
  intro h
  cases s
  simp_all


/-- C12, amended, on the demonstration design in run mode with three pending
events: the sequence leaves the state, and so the queue, as it was. -/
theorem mode_reset_run_witness :
    demoSimEv.isResetMode = false
    ∧ (process_mode (process_mode demoSimEv ["mode", "reset"]).2 ["mode", "run"]).2
        = demoSimEv :=
  ⟨rfl, (mode_reset_run demoSimEv "mode").2.2.2.2.2.2.2.2 rfl⟩

/-! ## C13: `assert` -/

/-- The low word of a machine-word natural is the number. -/
theorem getVal_zero (b : BigInt) (h0 : 0 ≤ b.val) (h : b.val < 2 ^ 64) :
    ((b.getVal 0 : Nat) : Int) = b.val := by
  unfold BigInt.getVal
  simp only [Nat.mul_zero, pow_zero, Nat.div_one]
  have h1 : b.val.toNat < 2 ^ 64 := by omega
  rw [Nat.mod_eq_of_lt h1]
  exact Int.toNat_of_nonneg h0

/-- The tail of `assert` keeps the state it is given. -/
theorem assert_end_snd (r : Simulator × Bool) : (assert_end r).2 = r.1 := by
  unfold assert_end
  split_ifs <;> rfl

/-- What the tail of `assert` returns. -/
theorem assert_end_fst (r : Simulator × Bool) :
    (assert_end r).1
      = if r.2 = true then (if r.1.onWarning = 2 then LispRet.exited 2
          else LispRet.LISP_RET_FALSE)
        else LispRet.LISP_RET_TRUE := by
  unfold assert_end
  split_ifs <;> rfl

/-- A branch of the channel chain changes nothing but standard output, and
raises the flag exactly on a mismatch. -/
theorem assert_chan_spec (s : Simulator) (name text : String) (code expected_int : Nat) :
    (assert_chan s name code text expected_int).1
        = { s with out := (assert_chan s name code text expected_int).1.out }
    ∧ (assert_chan s name code text expected_int).1.onWarning = s.onWarning
    ∧ ((assert_chan s name code text expected_int).2 = true ↔ code ≠ expected_int) := by
  unfold assert_chan
  split_ifs with h
  · simp [h]
  · simp [h, Simulator.printf]

/-- The command `assert` changes nothing but the two output streams. -/
theorem process_assert_state (L : ActLib) (s : Simulator) (argv : List String) :
    (process_assert L s argv).2
      = { s with out := (process_assert L s argv).2.out
                 err := (process_assert L s argv).2.err } := by
  unfold process_assert
  repeat' split
  all_goals first
    | (simp [assert_end_snd, Simulator.printf, Simulator.eprintf]; done)
    | (simp only [assert_end_snd, assert_chan]; split_ifs <;>
        simp [assert_end_snd, Simulator.printf, Simulator.eprintf])


/-- What `assert` returns for an expected value it compares: `LISP_RET_TRUE` on
a match, and on a mismatch the end of the process with code 2 under
exit-on-warn, `LISP_RET_FALSE` otherwise. -/
theorem process_assert_ret (L : ActLib) (s : Simulator) (cmd name v : String)
    (type offset : Int) (obj : ActSimObj)
    (hres : id_to_siminfo_glob L s name = .ok (type, offset, obj))
    (hacc : assert_accepts L s type offset v) :
    (process_assert L s [cmd, name, v]).1
      = if assert_state s type offset = some (L.sscan v).val then LispRet.LISP_RET_TRUE
        else if s.onWarning = 2 then LispRet.exited 2 else LispRet.LISP_RET_FALSE := by
  by_cases h0 : type = 0
  · subst h0
    simp only [assert_accepts, if_true] at hacc
    obtain ⟨hg, hnn, hlt⟩ := hacc
    have hv := getVal_zero (L.sscan v) hnn hlt
    have hiff : (s.getBool offset = (L.sscan v).getVal 0)
        ↔ (((s.getBool offset : Nat) : Int) = (L.sscan v).val) := by
      rw [← hv]
      exact Nat.cast_inj.symm
    simp only [process_assert, hres, if_true, hg, if_false, assert_state]
    by_cases hb : s.getBool offset = (L.sscan v).getVal 0
    · rw [if_pos hb, assert_end_fst]
      have := hiff.1 hb
      simp [this]
    · rw [if_neg hb, assert_end_fst]
      have hne : ¬ (((s.getBool offset : Nat) : Int) = (L.sscan v).val) :=
        fun h => hb (hiff.2 h)
      simp [hne, Simulator.printf]
  · by_cases h1 : type = 1
    · subst h1
      simp only [assert_accepts, h0, if_false, if_true] at hacc
      obtain ⟨b, hb⟩ := Option.isSome_iff_exists.1 hacc
      simp only [process_assert, hres, h0, if_false, if_true, hb, assert_state, Option.map_some']
      by_cases he : b.val = (L.sscan v).val
      · have : b.eq (L.sscan v) = true := by simp [BigInt.eq, he]
        rw [if_pos this, assert_end_fst]
        simp [he]
      · have : ¬ (b.eq (L.sscan v) = true) := by simp [BigInt.eq, he]
        rw [if_neg this, assert_end_fst]
        simp [he, Simulator.printf]
    · simp only [assert_accepts, h0, h1, if_false] at hacc
      obtain ⟨hnn, hlt⟩ := hacc
      have hv := getVal_zero (L.sscan v) hnn hlt
      have hiff : ∀ code : Nat, (code = (L.sscan v).getVal 0)
          ↔ (((code : Nat) : Int) = (L.sscan v).val) := by
        intro code
        rw [← hv]
        exact Nat.cast_inj.symm
      have hbranch : ∀ (code : Nat) (text : String),
          (assert_end (assert_chan s name code text ((L.sscan v).getVal 0))).1
            = if ((code : Nat) : Int) = (L.sscan v).val then LispRet.LISP_RET_TRUE
              else if s.onWarning = 2 then LispRet.exited 2 else LispRet.LISP_RET_FALSE := by
        intro code text
        obtain ⟨_, hw, hflag⟩ := assert_chan_spec s name text code ((L.sscan v).getVal 0)
        rw [assert_end_fst, hw]
        by_cases hc : code = (L.sscan v).getVal 0
        · have h2 : ¬ ((assert_chan s name code text ((L.sscan v).getVal 0)).2 = true) :=
            fun h => (hflag.1 h) hc
          rw [if_neg h2, if_pos ((hiff code).1 hc)]
        · rw [if_pos (hflag.2 hc), if_neg (fun h => hc ((hiff code).2 h))]
      simp only [process_assert, hres, h0, h1, if_false, assert_state, chan_code]
      split_ifs <;> simp_all


/-- C13, counterexample. In the demonstration design under exit-on-warn the
Bool `n` holds 1; `assert n 3` is a mismatch, and yet the process does not end
with code 2: the guard on Bool values returns `LISP_RET_ERROR` before the
warning policy is consulted. -/
theorem assert_bool_guard_skips_policy :
    id_to_siminfo_glob stdLib demoExit "n" = .ok (0, 0, demoTop)
    ∧ demoExit.onWarning = 2
    ∧ assert_state demoExit 0 0 = some 1
    ∧ (stdLib.sscan "3").val = 3
    ∧ (process_assert stdLib demoExit ["assert", "n", "3"]).1 = LispRet.LISP_RET_ERROR
    ∧ (process_assert stdLib demoExit ["assert", "n", "3"]).1 ≠ LispRet.exited 2 := by
  refine ⟨rfl, rfl, by decide, by decide, by decide, by decide⟩

/-- The guard of `assert` on a Bool (line 989), for an expected value that is a
natural number held in its own width: the guard lets the value pass exactly when
it is 0, 1 or 2 and was read into one machine word. -/
theorem assert_bool_guard (e : BigInt) (hnn : 0 ≤ e.val) (hwf : e.val < 2 ^ e.width) :
    (¬ (e.getVal 0 > 2 ∨ e.getLen > 1) ↔ e.val ≤ 2 ∧ e.getLen ≤ 1)
    ∧ (e.getLen ≤ 1 → e.val < 2 ^ 64) := by
  have hword : e.getLen ≤ 1 → e.val < 2 ^ 64 := by
    intro hl
    have hw : e.width ≤ 64 := by
      unfold BigInt.getLen at hl
      omega
    exact lt_of_lt_of_le hwf (pow_le_pow_right₀ (by norm_num) hw)
  refine ⟨⟨?_, ?_⟩, hword⟩
  · intro h
    have h1 : e.getLen ≤ 1 := by omega
    have hv := getVal_zero e hnn (hword h1)
    refine ⟨?_, h1⟩
    have h2 : e.getVal 0 ≤ 2 := by omega
    omega
  · rintro ⟨h2, h1⟩
    have hv := getVal_zero e hnn (hword h1)
    omega

/-- C13, amended. For an expected value that `assert` compares (for a Bool the
value 0, 1 or 2 read into one machine word; for an Int any integer; for a
channel a machine-word natural), `assert <name> <value>` returns
`LISP_RET_TRUE` iff the current state of the named slot equals the expected
value (Bool: 0, 1 or 2 for X; Int: the integer; channel: the phase code 0 to 4).
On a mismatch it follows the warning policy: the process ends with code 2 iff
exit-on-warn is active, and otherwise the command returns `LISP_RET_FALSE`.  An
expected Bool value that is a natural number other than 0, 1 or 2, or that was
read into more than one machine word, gives `LISP_RET_ERROR`, whatever the
policy and whatever the Bool holds.  In every case the state after `assert`
differs from the one before only in the two output streams. -/
theorem assert_compares_and_follows_policy (L : ActLib) (s : Simulator)
    (cmd name v : String) (type offset : Int) (obj : ActSimObj)
    (hres : id_to_siminfo_glob L s name = .ok (type, offset, obj)) :
    (assert_accepts L s type offset v →
      ((process_assert L s [cmd, name, v]).1 = LispRet.LISP_RET_TRUE
          ↔ assert_state s type offset = some (L.sscan v).val)
      ∧ (assert_state s type offset ≠ some (L.sscan v).val →
          ((process_assert L s [cmd, name, v]).1 = LispRet.exited 2 ↔ s.onWarning = 2)
          ∧ (s.onWarning ≠ 2 →
              (process_assert L s [cmd, name, v]).1 = LispRet.LISP_RET_FALSE)))
    ∧ (type = 0 → 0 ≤ (L.sscan v).val → (L.sscan v).val < 2 ^ (L.sscan v).width →
        (assert_accepts L s type offset v
          ↔ (L.sscan v).val ≤ 2 ∧ (L.sscan v).getLen ≤ 1)
        ∧ (¬ ((L.sscan v).val ≤ 2 ∧ (L.sscan v).getLen ≤ 1) →
            (process_assert L s [cmd, name, v]).1 = LispRet.LISP_RET_ERROR))
    ∧ (type = 0 → ((L.sscan v).getVal 0 > 2 ∨ (L.sscan v).getLen > 1) →
        (process_assert L s [cmd, name, v]).1 = LispRet.LISP_RET_ERROR)
    ∧ (process_assert L s [cmd, name, v]).2
        = { s with out := (process_assert L s [cmd, name, v]).2.out
                   err := (process_assert L s [cmd, name, v]).2.err } := by
  have hguard : type = 0 → ((L.sscan v).getVal 0 > 2 ∨ (L.sscan v).getLen > 1) →
      (process_assert L s [cmd, name, v]).1 = LispRet.LISP_RET_ERROR := by
    intro h0 hg
    subst h0
    simp [process_assert, hres, hg]
  refine ⟨?_, ?_, hguard, process_assert_state L s [cmd, name, v]⟩
  · intro hacc
    rw [process_assert_ret L s cmd name v type offset obj hres hacc]
    by_cases hm : assert_state s type offset = some (L.sscan v).val
    · simp [hm]
    · by_cases hw : s.onWarning = 2
      · simp [hm, hw]
      · simp [hm, hw]
  · intro h0 hnn hwf
    obtain ⟨hiff, hword⟩ := assert_bool_guard (L.sscan v) hnn hwf
    refine ⟨?_, ?_⟩
    · subst h0
      simp only [assert_accepts, if_true]
      constructor
      · rintro ⟨hg, _, _⟩
        exact hiff.1 hg
      · intro h
        exact ⟨hiff.2 h, hnn, hword h.2⟩
    · intro hn
      apply hguard h0
      by_contra hg
      exact hn (hiff.1 hg)

/-- C13, amended, on the demonstration design, where `n` holds 1: `assert n 1`
returns `LISP_RET_TRUE`, `assert n 0` returns `LISP_RET_FALSE`, and under
exit-on-warn `assert n 0` ends the process with code 2, while `assert n 3`
returns `LISP_RET_ERROR`. -/
theorem assert_compares_and_follows_policy_witness :
    id_to_siminfo_glob stdLib demoSim "n" = .ok (0, 0, demoTop)
    ∧ assert_accepts stdLib demoSim 0 0 "1"
    ∧ (process_assert stdLib demoSim ["assert", "n", "1"]).1 = LispRet.LISP_RET_TRUE
    ∧ assert_accepts stdLib demoSim 0 0 "0"
    ∧ (process_assert stdLib demoSim ["assert", "n", "0"]).1 = LispRet.LISP_RET_FALSE
    ∧ (process_assert stdLib demoExit ["assert", "n", "0"]).1 = LispRet.exited 2
    ∧ (stdLib.sscan "3").val = 3
    ∧ (process_assert stdLib demoExit ["assert", "n", "3"]).1 = LispRet.LISP_RET_ERROR :=
  have h1c := assert_compares_and_follows_policy stdLib demoSim "assert" "n" "1" 0 0 demoTop rfl
  have h0c := assert_compares_and_follows_policy stdLib demoSim "assert" "n" "0" 0 0 demoTop rfl
  have h2c := assert_compares_and_follows_policy stdLib demoExit "assert" "n" "0" 0 0 demoTop rfl
  have h3c := assert_compares_and_follows_policy stdLib demoExit "assert" "n" "3" 0 0 demoTop rfl
  have a1 : assert_accepts stdLib demoSim 0 0 "1" :=
    (h1c.2.1 rfl (by decide) (by decide)).1.2 (by decide)
  have a0 : assert_accepts stdLib demoSim 0 0 "0" :=
    (h0c.2.1 rfl (by decide) (by decide)).1.2 (by decide)
  have e0 : assert_accepts stdLib demoExit 0 0 "0" :=
    (h2c.2.1 rfl (by decide) (by decide)).1.2 (by decide)
  ⟨rfl, a1, (h1c.1 a1).1.2 (by decide), a0, ((h0c.1 a0).2 (by decide)).2 (by decide),
    ((h2c.1 e0).2 (by decide)).1.2 rfl, by decide,
    (h3c.2.1 rfl (by decide) (by decide)).2 (by decide)⟩

/-! ## C14: `random` -/

/-- C14. What `random` hands to the simulator.  In the form `random min max`
the range is the pair of numbers typed, applied to all delays.  In the form
`random -u min max` the handler reads `argv[1]` and `argv[2]` again, so the
range is `atoi ("-u")` and the number typed as `min`, and the number typed as
`max` is not used: on `random -u 5 10` the range is `[0, 5]`, not `[5, 10]`. -/
theorem random_u_reads_flag_as_min (L : ActLib) (s : Simulator) (cmd a b : String) :
    process_random L s [cmd, a, b]
        = (LispRet.LISP_RET_TRUE, s.setRandomRange (L.atoi a) (L.atoi b) false)
    ∧ process_random L s [cmd, "-u", a, b]
        = (LispRet.LISP_RET_TRUE, s.setRandomRange (L.atoi "-u") (L.atoi a) true)
    ∧ stdLib.atoi "-u" = 0 ∧ stdLib.atoi "5" = 5 ∧ stdLib.atoi "10" = 10
    ∧ (process_random stdLib demoSim ["random", "-u", "5", "10"]).2.random
        = RandomCfg.range 0 5 true
    ∧ (process_random stdLib demoSim ["random", "-u", "5", "10"]).2.random
        ≠ RandomCfg.range 5 10 true := by
  refine ⟨?_, ?_, by decide, by decide, by decide, by decide, by decide⟩
  · simp [process_random]
  · simp [process_random]

/-! ## C15: `goto` -/

/-- What `jumpTo` does: it succeeds exactly for a process with one live thread
and a known label, then moves that thread to the label; otherwise it leaves the
program counters as they were. -/
theorem jumpTo_spec (s : Simulator) (chp : ActSimObj) (label : String) :
    ((s.jumpTo chp label).1 = true
        ↔ ∃ pc0 pc, s.chp_threads chp.name = [pc0] ∧ s.chp_labels chp.proc label = some pc)
    ∧ (∀ pc0 pc, s.chp_threads chp.name = [pc0] → s.chp_labels chp.proc label = some pc →
        (s.jumpTo chp label).2.chp_threads
          = fun k => if k = chp.name then [pc] else s.chp_threads k)
    ∧ ((s.jumpTo chp label).1 = false →
        (s.jumpTo chp label).2.chp_threads = s.chp_threads)
    ∧ ((s.chp_threads chp.name).length ≠ 1 → (s.jumpTo chp label).1 = false) := by
  unfold Simulator.jumpTo
  rcases ht : s.chp_threads chp.name with _ | ⟨pc0, _ | ⟨pc1, rest⟩⟩
  · simp
  · cases hl : s.chp_labels chp.proc label with
    | none => simp
    | some pc => simp
  · simp

/-- The command `goto` on a target that is a CHP object: it returns
`LISP_RET_TRUE` or `LISP_RET_ERROR` as `jumpTo` succeeds or fails, in the state
`jumpTo` leaves. -/
theorem process_goto_eq (L : ActLib) (s : Simulator) (argv : List String) (id : ActId)
    (inst : ActInstTable) (chp : ActSimObj)
    (hlen : argv.length = 2 ∨ argv.length = 3)
    (hid : goto_id L argv = some id)
    (ht : find_table id s.getInstTable = some inst)
    (hobj : inst.obj = some chp) (hchp : chp.isChp = true) :
    process_goto L s argv
      = (if (s.jumpTo chp (goto_label argv)).1 = true
          then LispRet.LISP_RET_TRUE else LispRet.LISP_RET_ERROR,
         (s.jumpTo chp (goto_label argv)).2) := by
  have h1 : ¬ (argv.length ≠ 3 ∧ argv.length ≠ 2) := by omega
  have h2 : inst.obj.filter (fun o => o.isChp) = some chp := by
    rw [hobj]; simp [Option.filter, hchp]
  unfold process_goto
  simp only [h1, if_false, hid, ht, h2]
  split_ifs <;> rfl

/-- C15. For `goto [<inst>] <label>` whose target instance is found and is a CHP
process: the command returns `LISP_RET_TRUE` iff the jump is accepted, that is
iff the process has exactly one live thread and the label exists, and then that
thread is at the label and no other program counter has changed; for a process
that has more than one live thread (or none) it returns `LISP_RET_ERROR` and no
program counter changes.  When the instance name does not parse, the instance
is not found, or its object is missing or not a CHP process, the command returns
`LISP_RET_ERROR`, makes no call and changes no program counter. -/
theorem goto_iff_single_thread (L : ActLib) (s : Simulator) (argv : List String)
    (hlen : argv.length = 2 ∨ argv.length = 3) :
    (∀ id inst chp, goto_id L argv = some id → find_table id s.getInstTable = some inst →
        inst.obj = some chp → chp.isChp = true →
        ((process_goto L s argv).1 = LispRet.LISP_RET_TRUE
            ↔ ∃ pc0 pc, s.chp_threads chp.name = [pc0]
                ∧ s.chp_labels chp.proc (goto_label argv) = some pc)
        ∧ (∀ pc0 pc, s.chp_threads chp.name = [pc0] →
            s.chp_labels chp.proc (goto_label argv) = some pc →
            (process_goto L s argv).2.chp_threads
              = fun k => if k = chp.name then [pc] else s.chp_threads k)
        ∧ ((s.chp_threads chp.name).length ≠ 1 →
            (process_goto L s argv).1 = LispRet.LISP_RET_ERROR
            ∧ (process_goto L s argv).2.chp_threads = s.chp_threads)
        ∧ ((process_goto L s argv).1 ≠ LispRet.LISP_RET_TRUE →
            (process_goto L s argv).1 = LispRet.LISP_RET_ERROR
            ∧ (process_goto L s argv).2.chp_threads = s.chp_threads))
    ∧ (goto_id L argv = none →
        (process_goto L s argv).1 = LispRet.LISP_RET_ERROR
        ∧ (process_goto L s argv).2.chp_threads = s.chp_threads
        ∧ (process_goto L s argv).2.calls = s.calls)
    ∧ (∀ id, goto_id L argv = some id → find_table id s.getInstTable = none →
        (process_goto L s argv).1 = LispRet.LISP_RET_ERROR
        ∧ (process_goto L s argv).2.chp_threads = s.chp_threads
        ∧ (process_goto L s argv).2.calls = s.calls)
    ∧ (∀ id inst, goto_id L argv = some id → find_table id s.getInstTable = some inst →
        (∀ o, inst.obj = some o → o.isChp = false) →
        (process_goto L s argv).1 = LispRet.LISP_RET_ERROR
        ∧ (process_goto L s argv).2.chp_threads = s.chp_threads
        ∧ (process_goto L s argv).2.calls = s.calls) := by
  have h1 : ¬ (argv.length ≠ 3 ∧ argv.length ≠ 2) := by omega
  refine ⟨?_, ?_, ?_, ?_⟩
  · intro id inst chp hid ht hobj hchp
    rw [process_goto_eq L s argv id inst chp hlen hid ht hobj hchp]
    obtain ⟨j1, j2, j3, j4⟩ := jumpTo_spec s chp (goto_label argv)
    refine ⟨?_, ?_, ?_, ?_⟩
    · rw [← j1]
      by_cases hj : (s.jumpTo chp (goto_label argv)).1 = true
      · simp [hj]
      · simp [hj]
    · intro pc0 pc h0 hl
      exact j2 pc0 pc h0 hl
    · intro hn
      have hj := j4 hn
      exact ⟨by simp [hj], j3 hj⟩
    · intro hne
      by_cases hj : (s.jumpTo chp (goto_label argv)).1 = true
      · simp [hj] at hne
      · have hj2 : (s.jumpTo chp (goto_label argv)).1 = false := by simpa using hj
        exact ⟨by simp [hj2], j3 hj2⟩
  · intro hid
    simp [process_goto, h1, hid, Simulator.eprintf]
  · intro id hid ht
    simp [process_goto, h1, hid, ht, Simulator.eprintf]
  · intro id inst hid ht hno
    have h2 : inst.obj.filter (fun o => o.isChp) = none := by
      cases ho : inst.obj with
      | none => rfl
      | some o => simp [Option.filter, hno o ho]
    simp [process_goto, h1, hid, ht, h2, Simulator.eprintf]

/-- C15, on the demonstration design: with `top` in one thread, `goto L0`
returns `LISP_RET_TRUE` and the thread is at the label; with `top` in the two
threads of a parallel composition, `goto L0` returns `LISP_RET_ERROR` and both
program counters stay. -/
theorem goto_iff_single_thread_witness :
    goto_id stdLib ["goto", "L0"] = some []
    ∧ find_table [] demoOneThread.getInstTable = some demoOneThread.getInstTable
    ∧ (process_goto stdLib demoOneThread ["goto", "L0"]).1 = LispRet.LISP_RET_TRUE
    ∧ (process_goto stdLib demoOneThread ["goto", "L0"]).2.chp_threads demoTop.name = [9]
    ∧ demoTwoThreads.chp_threads demoTop.name = [4, 6]
    ∧ (process_goto stdLib demoTwoThreads ["goto", "L0"]).1 = LispRet.LISP_RET_ERROR
    ∧ (process_goto stdLib demoTwoThreads ["goto", "L0"]).2.chp_threads
        = demoTwoThreads.chp_threads :=
  have h1 := (goto_iff_single_thread stdLib demoOneThread ["goto", "L0"] (Or.inl rfl)).1
    [] demoOneThread.getInstTable demoTop rfl rfl rfl rfl
  have h2 := (goto_iff_single_thread stdLib demoTwoThreads ["goto", "L0"] (Or.inl rfl)).1
    [] demoTwoThreads.getInstTable demoTop rfl rfl rfl rfl
  ⟨rfl, rfl, h1.1.2 ⟨4, 9, rfl, rfl⟩, by rw [h1.2.1 4 9 rfl rfl]; rfl, rfl,
    (h2.2.2.1 (by decide)).1, (h2.2.2.1 (by decide)).2⟩

/-! ## Shared lemmas on a successful `set` -/

/-- The watchpoint blocks of `set` touch neither the slots, nor the fanout, nor
the calls made. -/
theorem set_bool_watch_slots (s : Simulator) (offset type : Int) (val : Nat) :
    (set_bool_watch s offset type val).getBool = s.getBool
    ∧ (set_bool_watch s offset type val).getInt = s.getInt
    ∧ (set_bool_watch s offset type val).getFO = s.getFO
    ∧ (set_bool_watch s offset type val).calls = s.calls := by
  unfold set_bool_watch
  split
  · split_ifs <;> simp [Simulator.printf, Simulator.recordTrace]
  · simp

theorem set_int_watch_slots (s : Simulator) (offset type : Int) (otmp rd : BigInt) :
    (set_int_watch s offset type otmp rd).getBool = s.getBool
    ∧ (set_int_watch s offset type otmp rd).getInt = s.getInt
    ∧ (set_int_watch s offset type otmp rd).getFO = s.getFO
    ∧ (set_int_watch s offset type otmp rd).calls = s.calls := by
  unfold set_int_watch
  split
  · split_ifs <;> simp [Simulator.printf, Simulator.recordTrace]
  · simp

/-- A `set` that returns `LISP_RET_TRUE` was given a name and a value, and the
name resolved. -/
theorem process_set_true_shape (L : ActLib) (s : Simulator) (argv : List String)
    (hok : (process_set L s argv).1 = LispRet.LISP_RET_TRUE) :
    ∃ cmd name v type offset obj, argv = [cmd, name, v]
      ∧ id_to_siminfo_glob L s name = .ok (type, offset, obj) := by
  unfold process_set at hok
  split at hok
  · rename_i cmd name v
    cases hres : id_to_siminfo_glob L s name with
    | error msgs => simp [hres] at hok
    | ok r =>
      obtain ⟨type, offset, obj⟩ := r
      exact ⟨cmd, name, v, type, offset, obj, rfl, hres⟩
  · simp at hok

/-- The slots, the cause and the calls after a successful `set`. -/
theorem process_set_true_effect (L : ActLib) (s : Simulator) (cmd name v : String)
    (type offset : Int) (obj : ActSimObj)
    (hres : id_to_siminfo_glob L s name = .ok (type, offset, obj))
    (hok : (process_set L s [cmd, name, v]).1 = LispRet.LISP_RET_TRUE) :
    (process_set L s [cmd, name, v]).2.calls
        = s.calls ++ (s.getFO offset type).map (fun p => Call.propagate p offset)
    ∧ (process_set L s [cmd, name, v]).2.gid = offset
    ∧ ((type = 0 ∧ (process_set L s [cmd, name, v]).2.getInt = s.getInt)
        ∨ (type = 1 ∧ ∃ b, s.getInt offset = some b
            ∧ 0 ≤ (L.sscan v).val ∧ (L.sscan v).val < 2 ^ b.width
            ∧ (process_set L s [cmd, name, v]).2.getInt
                = fun k => if k = offset then some ((L.sscan v).setWidth b.getWidth)
                    else s.getInt k)) := by
  rcases process_set_true_inv L s cmd name v type offset obj hres hok with
    ⟨ht, val, hl⟩ | ⟨ht, b, hint, h0, hfit⟩
  · subst ht
    rw [process_set_bool_eq L s cmd name v offset obj val hres hl, set_fanout_eq]
    obtain ⟨_, hi, hfo, hc⟩ := set_bool_watch_slots s offset 0 val
    refine ⟨?_, rfl, Or.inl ⟨rfl, ?_⟩⟩
    · simp [Simulator.setBool, hfo, hc]
    · simp [Simulator.setBool, hi]
  · subst ht
    rw [process_set_int_eq L s cmd name v offset obj b hres hint h0 hfit, set_fanout_eq]
    obtain ⟨_, hi, hfo, hc⟩ := set_int_watch_slots s offset 1 b ⟨b.width, (L.sscan v).val⟩
    have e := (emod_two_pow_eq_self_iff _ b.width h0).2 hfit
    refine ⟨?_, rfl, Or.inr ⟨rfl, b, hint, h0, hfit, ?_⟩⟩
    · simp [Simulator.setInt, hfo, hc]
    · simp [Simulator.setInt, hi, BigInt.setWidth, BigInt.getWidth, e]

/-! ## C16: `set` keeps every Int slot within its width -/

/-- C16. If every Int slot holds a value in `[0, 2^W)`, `W` being its declared
width, before a `set` command, then every Int slot does so after it, whether
the command succeeds or is rejected, and every slot keeps its declared width.
The value a successful `set` writes to an Int slot is the value typed, re-sized
to the declared width of the slot (`setWidth`), which is the value typed
itself. -/
theorem set_keeps_int_slots_in_range (L : ActLib) (s : Simulator) (argv : List String)
    (hinv : int_slots_in_range s) :
    int_slots_in_range (process_set L s argv).2
    ∧ (∀ k b, s.getInt k = some b →
        ∃ b1, (process_set L s argv).2.getInt k = some b1 ∧ b1.width = b.width)
    ∧ (∀ cmd name v offset obj b, argv = [cmd, name, v] →
        id_to_siminfo_glob L s name = .ok (1, offset, obj) → s.getInt offset = some b →
        (process_set L s argv).1 = LispRet.LISP_RET_TRUE →
        (process_set L s argv).2.getInt offset = some ((L.sscan v).setWidth b.getWidth)
        ∧ ((L.sscan v).setWidth b.getWidth).val = (L.sscan v).val
        ∧ ((L.sscan v).setWidth b.getWidth).width = b.width) := by
  by_cases hok : (process_set L s argv).1 = LispRet.LISP_RET_TRUE
  · obtain ⟨cmd, name, v, type, offset, obj, hargv, hres⟩ := process_set_true_shape L s argv hok
    subst hargv
    obtain ⟨_, _, heff⟩ := process_set_true_effect L s cmd name v type offset obj hres hok
    rcases heff with ⟨ht, hsame⟩ | ⟨ht, b, hint, h0, hfit, hnew⟩
    · subst ht
      refine ⟨?_, ?_, ?_⟩
      · intro k b hk; rw [hsame] at hk; exact hinv k b hk
      · intro k b hk; exact ⟨b, by rw [hsame]; exact hk, rfl⟩
      · intro cmd1 name1 v1 offset1 obj1 b1 hargv hres1 _ _
        simp only [List.cons.injEq, and_true] at hargv
        obtain ⟨_, hn, _⟩ := hargv
        subst hn
        rw [hres] at hres1
        simp at hres1
    · subst ht
      have e := (emod_two_pow_eq_self_iff _ b.width h0).2 hfit
      refine ⟨?_, ?_, ?_⟩
      · intro k b1 hk
        rw [hnew] at hk
        by_cases hko : k = offset
        · simp only [hko, if_true, Option.some.injEq] at hk
          subst hk
          simp only [BigInt.setWidth, BigInt.getWidth, e]
          exact ⟨h0, hfit⟩
        · simp only [hko, if_false] at hk
          exact hinv k b1 hk
      · intro k b1 hk
        rw [hnew]
        by_cases hko : k = offset
        · subst hko
          rw [hint] at hk
          simp only [Option.some.injEq] at hk
          subst hk
          exact ⟨(L.sscan v).setWidth b.getWidth, by simp, rfl⟩
        · exact ⟨b1, by simp [hko, hk], rfl⟩
      · intro cmd1 name1 v1 offset1 obj1 b1 hargv hres1 hint1 _
        simp only [List.cons.injEq, and_true] at hargv
        obtain ⟨_, hn, hv⟩ := hargv
        subst hn hv
        rw [hres] at hres1
        simp only [Except.ok.injEq, Prod.mk.injEq, true_and] at hres1
        obtain ⟨ho, _⟩ := hres1
        subst ho
        rw [hint] at hint1
        simp only [Option.some.injEq] at hint1
        subst hint1
        rw [hnew]
        simp [BigInt.setWidth, BigInt.getWidth, e]
  · obtain ⟨_, hsame, _⟩ := process_set_rejected L s argv hok
    refine ⟨?_, ?_, ?_⟩
    · intro k b hk; rw [hsame] at hk; exact hinv k b hk
    · intro k b hk; exact ⟨b, by rw [hsame]; exact hk, rfl⟩
    · intro _ _ _ _ _ _ _ _ _ h; exact absurd h hok

/-- The Int slots of the demonstration design are within their widths. -/
theorem demoSim_int_slots_in_range : int_slots_in_range demoSim := by
  intro k b hk
  have hg : demoSim.getInt k
      = if k = 0 then some ⟨4, 3⟩ else if k = 1 then some ⟨128, 5⟩ else none := rfl
  rw [hg] at hk
  split_ifs at hk
  · simp only [Option.some.injEq] at hk; subst hk; exact ⟨by norm_num, by norm_num⟩
  · simp only [Option.some.injEq] at hk; subst hk; exact ⟨by norm_num, by norm_num⟩

/-- C16, on the demonstration design: after `set x 9`, and after the rejected
`set x 16`, every Int slot is within its width, and `x` holds 9 in four bits
after the first. -/
theorem set_keeps_int_slots_in_range_witness :
    int_slots_in_range demoSim
    ∧ int_slots_in_range (process_set stdLib demoSim ["set", "x", "9"]).2
    ∧ int_slots_in_range (process_set stdLib demoSim ["set", "x", "16"]).2
    ∧ (process_set stdLib demoSim ["set", "x", "9"]).2.getInt 0 = some ⟨4, 9⟩ :=
  ⟨demoSim_int_slots_in_range,
    (set_keeps_int_slots_in_range stdLib demoSim ["set", "x", "9"]
      demoSim_int_slots_in_range).1,
    (set_keeps_int_slots_in_range stdLib demoSim ["set", "x", "16"]
      demoSim_int_slots_in_range).1,
    ((set_keeps_int_slots_in_range stdLib demoSim ["set", "x", "9"]
      demoSim_int_slots_in_range).2.2 "set" "x" "9" 0 demoTop ⟨4, 3⟩ rfl rfl rfl
      (by decide)).1⟩

/-! ## C17: `set` propagates to the fanout -/

/-- C17. After a successful `set` of the Bool or Int slot at global offset `g`,
the calls made are exactly one `propagate` on each entry of the fanout list of
the slot, in list order, each with the cause `glob_dummy` whose global index was
set to `g`; nothing in this depends on the value written, so the propagation
also happens when the value written equals the old one. -/
theorem set_propagates_to_fanout (L : ActLib) (s : Simulator) (cmd name v : String)
    (type g : Int) (obj : ActSimObj)
    (hres : id_to_siminfo_glob L s name = .ok (type, g, obj))
    (hok : (process_set L s [cmd, name, v]).1 = LispRet.LISP_RET_TRUE) :
    (type = 0 ∨ type = 1)
    ∧ (process_set L s [cmd, name, v]).2.calls
        = s.calls ++ (s.getFO g type).map (fun p => Call.propagate p g)
    ∧ (process_set L s [cmd, name, v]).2.gid = g
    ∧ (∀ p, ((process_set L s [cmd, name, v]).2.calls.drop s.calls.length).count
          (Call.propagate p g) = (s.getFO g type).count p) := by
  obtain ⟨hc, hg, heff⟩ := process_set_true_effect L s cmd name v type g obj hres hok
  refine ⟨?_, hc, hg, ?_⟩
  · rcases heff with ⟨ht, _⟩ | ⟨ht, _⟩
    · exact Or.inl ht
    · exact Or.inr ht
  · intro p
    rw [hc, List.drop_left]
    have hinj : Function.Injective (fun q => Call.propagate q g) := by
      intro a b h
      simpa using h
    exact List.count_map_of_injective _ _ hinj p

/-- C17, on the demonstration design, where the Bool `n` holds 1 and has the
fanout entries 7 and 8: `set n 1` writes the value the slot already has, and
`propagate` is called on 7 and then on 8, with cause 0. -/
theorem set_propagates_to_fanout_witness :
    id_to_siminfo_glob stdLib demoSim "n" = .ok (0, 0, demoTop)
    ∧ demoSim.getBool 0 = 1
    ∧ demoSim.getFO 0 0 = [7, 8]
    ∧ (process_set stdLib demoSim ["set", "n", "1"]).1 = LispRet.LISP_RET_TRUE
    ∧ (process_set stdLib demoSim ["set", "n", "1"]).2.calls
        = demoSim.calls ++ [Call.propagate 7 0, Call.propagate 8 0] :=
  ⟨rfl, rfl, rfl, by decide,
    (set_propagates_to_fanout stdLib demoSim "set" "n" "1" 0 0 demoTop rfl (by decide)).2.1⟩

/-! ## C20: `initialize` -/

/-- The two outcomes of `process_initialize`: the simulator of a process that is
found and expanded is installed, or one message is written to the standard
error and nothing else changes. -/
theorem process_initialize_cases (A : Act) (s : Simulator) (argv : List String) :
    (∃ p, process_initialize A s argv = (LispRet.LISP_RET_TRUE, A.install s p)
      ∧ (∃ cmd n p, argv = [cmd, n] ∧ A.findProcess n = some p ∧ p.isExpanded = true)
      ∧ ∀ cmd n q, argv = [cmd, n] → A.findProcess n = some q → q = p)
    ∨ (∃ msg, process_initialize A s argv = (LispRet.LISP_RET_ERROR, s.eprintf [msg])
      ∧ ¬ ∃ cmd n p, argv = [cmd, n] ∧ A.findProcess n = some p ∧ p.isExpanded = true) := by
  match argv with
  | [] => exact Or.inr ⟨_, rfl, by simp⟩
  | [_] => exact Or.inr ⟨_, rfl, by simp⟩
  | _ :: _ :: _ :: _ => exact Or.inr ⟨_, rfl, by simp⟩
  | [cmd, n] =>
    cases hp : A.findProcess n with
    | none =>
      refine Or.inr ⟨_, by simp only [ process_initialize, hp]; rfl, ?_⟩
      rintro ⟨c, m, p, hargv, hq, _⟩
      simp only [List.cons.injEq, and_true] at hargv
      rw [← hargv.2, hp] at hq
      cases hq
    | some p =>
      cases hx : p.isExpanded with
      | false =>
        refine Or.inr ⟨_, by simp only [ process_initialize, hp, hx]; rfl, ?_⟩
        rintro ⟨c, m, q, hargv, hq, hqx⟩
        simp only [List.cons.injEq, and_true] at hargv
        rw [← hargv.2, hp] at hq
        simp only [Option.some.injEq] at hq
        rw [← hq, hx] at hqx
        cases hqx
      | true =>
        refine Or.inl ⟨p, by simp only [ process_initialize, hp, hx]; rfl,
          ⟨cmd, n, p, rfl, hp, hx⟩, ?_⟩
        intro c m q hargv hq
        simp only [List.cons.injEq, and_true] at hargv
        rw [← hargv.2, hp] at hq
        simpa using hq.symm

/-- C20. `initialize` returns `LISP_RET_TRUE` or `LISP_RET_ERROR`.  It returns
`LISP_RET_TRUE` exactly when it is given one argument that names a process
which is found and expanded; the old simulator and state pass are then deleted,
the event kernel is initialised again, and the state pass and the simulator of
that process are built and initialised, in this order: afterwards the state
pass, the instance table, every slot, the watchpoints and breakpoints, the
fanout, the mode, the warning and timing policies, the threads, and the time,
queue and counters of the kernel are those of the new design, and nothing of
the old simulator is left; only the output streams, the interpreter return
value, `glob_dummy`, the interrupt flag, the file system and the records of the
embedding stay.  In every other case (wrong argument count, process not found,
process not expanded) it returns `LISP_RET_ERROR` and only writes one message to
the standard error: no deletion, construction or initialisation is made, and the
simulator, its state pass and the event kernel are as they were. -/
theorem initialize_replaces_only_on_success (A : Act) (s : Simulator) (argv : List String) :
    (( process_initialize A s argv).1 = LispRet.LISP_RET_TRUE
      ∨ ( process_initialize A s argv).1 = LispRet.LISP_RET_ERROR)
    ∧ (( process_initialize A s argv).1 = LispRet.LISP_RET_TRUE
        ↔ ∃ cmd n p, argv = [cmd, n] ∧ A.findProcess n = some p ∧ p.isExpanded = true)
    ∧ (∀ cmd n p, argv = [cmd, n] → A.findProcess n = some p → p.isExpanded = true →
        ( process_initialize A s argv).2
          = { getStateInfo := (A.design p).getStateInfo
              getInstTable := (A.design p).getInstTable
              getBool := (A.design p).getBool
              getInt := (A.design p).getInt
              getChan := (A.design p).getChan
              chkWatchPt := (A.design p).chkWatchPt
              chkBreakPt := (A.design p).chkBreakPt
              getFO := (A.design p).getFO
              isResetMode := (A.design p).isResetMode
              onWarning := (A.design p).onWarning
              CurTime := (A.design p).CurTime
              queue := (A.design p).queue
              seq := (A.design p).seq
              break_flag := (A.design p).break_flag
              react := (A.design p).react
              random := (A.design p).random
              chp_threads := (A.design p).chp_threads
              chp_labels := (A.design p).chp_labels
              interrupted := s.interrupted
              fired := s.fired
              gid := s.gid
              lispReturn := s.lispReturn
              out := s.out
              err := s.err
              trace := s.trace
              fopen_fails := s.fopen_fails
              calls := s.calls ++ [Call.delete_glob_sim, Call.delete_glob_sp,
                Call.SimDES_Init, Call.new_ActStatePass p.name, Call.new_ActSim p.name,
                Call.runInit] }
        ∧ ( process_initialize A s argv).2.calls
            = s.calls ++ [Call.delete_glob_sim, Call.delete_glob_sp, Call.SimDES_Init,
                Call.new_ActStatePass p.name, Call.new_ActSim p.name, Call.runInit]
        ∧ ( process_initialize A s argv).2.queue = (A.design p).queue
        ∧ ( process_initialize A s argv).2.CurTime = (A.design p).CurTime)
    ∧ (( process_initialize A s argv).1 = LispRet.LISP_RET_ERROR →
        (∃ msg, ( process_initialize A s argv).2 = s.eprintf [msg])
        ∧ { ( process_initialize A s argv).2 with err := s.err } = s
        ∧ ( process_initialize A s argv).2.calls = s.calls) := by
  rcases process_initialize_cases A s argv with ⟨p, heq, hex, huniq⟩ | ⟨msg, heq, hnex⟩
  · rw [heq]
    refine ⟨Or.inl rfl, ⟨fun _ => hex, fun _ => rfl⟩, ?_, ?_⟩
    · intro cmd n q hargv hq hx
      have hpq : q = p := huniq cmd n q hargv hq
      subst hpq
      exact ⟨rfl, rfl, rfl, rfl⟩
    · intro h
      cases h
  · rw [heq]
    refine ⟨Or.inr rfl, Iff.intro (fun h => by simp at h) (fun h => absurd h hnex), ?_, ?_⟩
    · intro cmd n q hargv hq hx
      exact absurd ⟨cmd, n, q, hargv, hq, hx⟩ hnex
    · intro _
      exact ⟨⟨msg, rfl⟩, rfl, rfl⟩

/-- C20, on the design `demoAct`, whose process `top` is built as the
demonstration design.  From the design with three pending events, with `x`
watched, or with `n` at X, `initialize top` succeeds, makes the six calls, and
leaves the state of the new design: no pending event, nothing watched, `n` at 1.
`initialize cell` (not expanded), `initialize nope` (not found) and `initialize`
(no argument) return an error, make no call and leave the pending events. -/
theorem initialize_replaces_only_on_success_witness :
    ( process_initialize demoAct demoSimEv ["initialize", "top"]).1 = LispRet.LISP_RET_TRUE
    ∧ ( process_initialize demoAct demoSimEv ["initialize", "top"]).2.calls
        = [Call.delete_glob_sim, Call.delete_glob_sp, Call.SimDES_Init,
            Call.new_ActStatePass "top", Call.new_ActSim "top", Call.runInit]
    ∧ demoSimEv.queue.length = 3
    ∧ ( process_initialize demoAct demoSimEv ["initialize", "top"]).2.queue = []
    ∧ demoWatchX.chkWatchPt 1 0 = some "x"
    ∧ ( process_initialize demoAct demoWatchX ["initialize", "top"]).2.chkWatchPt 1 0 = none
    ∧ demoSimX.getBool 0 = 2
    ∧ ( process_initialize demoAct demoSimX ["initialize", "top"]).2.getBool 0 = 1
    ∧ ( process_initialize demoAct demoSimEv ["initialize", "cell"]).1 = LispRet.LISP_RET_ERROR
    ∧ ( process_initialize demoAct demoSimEv ["initialize", "cell"]).2.calls = []
    ∧ ( process_initialize demoAct demoSimEv ["initialize", "cell"]).2.queue = demoSimEv.queue
    ∧ ( process_initialize demoAct demoSimEv ["initialize", "nope"]).2.calls = []
    ∧ ( process_initialize demoAct demoSimEv ["initialize"]).2.calls = [] :=
  ⟨by decide,
    ((initialize_replaces_only_on_success demoAct demoSimEv ["initialize", "top"]).2.2.1
      "initialize" "top" ⟨"top", true⟩ rfl rfl rfl).2.1,
    by decide,
    by decide,
    rfl,
    congrArg (fun t => t.chkWatchPt 1 0)
      ((initialize_replaces_only_on_success demoAct demoWatchX ["initialize", "top"]).2.2.1
        "initialize" "top" ⟨"top", true⟩ rfl rfl rfl).1,
    rfl,
    congrArg (fun t => t.getBool 0)
      ((initialize_replaces_only_on_success demoAct demoSimX ["initialize", "top"]).2.2.1
        "initialize" "top" ⟨"top", true⟩ rfl rfl rfl).1,
    by decide,
    ((initialize_replaces_only_on_success demoAct demoSimEv ["initialize", "cell"]).2.2.2
      (by decide)).2.2,
    by decide,
    ((initialize_replaces_only_on_success demoAct demoSimEv ["initialize", "nope"]).2.2.2
      (by decide)).2.2,
    ((initialize_replaces_only_on_success demoAct demoSimEv ["initialize"]).2.2.2
      (by decide)).2.2⟩

/-! ## Shared lemmas on what `get` returns -/

/-- Every channel state has one phase code, between 0 and 4, and the code tells
the phase. -/
theorem chan_code_spec (c : act_channel_state) :
    chan_code c ≤ 4
    ∧ (chan_code c = 0 ↔ c.phase = Phase.Idle)
    ∧ (chan_code c = 1 ↔ c.phase = Phase.WaitingSender)
    ∧ (chan_code c = 2 ↔ c.phase = Phase.WaitingSendProbe)
    ∧ (chan_code c = 3 ↔ c.phase = Phase.WaitingReceiver)
    ∧ (chan_code c = 4 ↔ c.phase = Phase.WaitingRecvProbe) := by
  obtain ⟨ph, d, n⟩ := c
  cases ph <;>
    simp [chan_code, WAITING_SENDER, WAITING_SEND_PROBE, WAITING_RECEIVER, WAITING_RECV_PROBE]

/-- The number `get` returns is the state `assert` compares with: the value of
the Bool, the value of the Int (for a slot within its width), the phase code of
the channel. -/
theorem get_value_eq_state (L : ActLib) (s : Simulator) (name : String)
    (type offset : Int) (obj : ActSimObj) (argv2 : List String)
    (hres : id_to_siminfo_glob L s name = .ok (type, offset, obj))
    (hrange : ∀ b, s.getInt offset = some b → 0 ≤ b.val ∧ b.val < 2 ^ b.width)
    (hargv : (∃ cmd2, argv2 = [cmd2, name]) ∨ (∃ cmd2 flag, argv2 = [cmd2, name, flag])) :
    get_value (process_get L s argv2) = assert_state s type offset := by
  have hlen : ¬ (argv2.length ≠ 2 ∧ argv2.length ≠ 3) := by
    rcases hargv with ⟨c, h⟩ | ⟨c, f, h⟩ <;> simp [h]
  have hname : argv2.getD 1 "" = name := by
    rcases hargv with ⟨c, h⟩ | ⟨c, f, h⟩ <;> simp [h]
  unfold process_get
  simp only [hlen, hname, hres, if_false]
  by_cases h0 : type = 0
  · subst h0
    simp only [if_true, assert_state]
    split_ifs <;> simp [get_value, Simulator.printf]
  · by_cases h1 : type = 1
    · subst h1
      simp only [h0, if_false, if_true, assert_state]
      cases hint : s.getInt offset with
      | none => simp [get_value]
      | some b =>
        obtain ⟨hnn, hfit⟩ := hrange b hint
        simp only [Option.map_some']
        by_cases hl : b.getLen > 1
        · have hwv := wordsValue_getVal b hnn hfit
          simp only [hl, if_true]
          split_ifs <;> simp [get_value, Simulator.printf, hwv]
        · have hw : b.width ≤ 64 := by
            unfold BigInt.getLen at hl
            omega
          have hv := getVal_zero b hnn
            (lt_of_lt_of_le hfit (pow_le_pow_right₀ (by norm_num) hw))
          simp only [hl, if_false]
          split_ifs <;> simp [get_value, Simulator.printf, hv]
    · simp [h0, h1, assert_state, get_value, Simulator.printf]

/-- What `assert` does on a channel: it compares the phase code with the low
machine word of the expected value. -/
theorem process_assert_chan (L : ActLib) (s : Simulator) (cmd name v : String)
    (type offset : Int) (obj : ActSimObj)
    (hres : id_to_siminfo_glob L s name = .ok (type, offset, obj))
    (h0 : type ≠ 0) (h1 : type ≠ 1) :
    (process_assert L s [cmd, name, v]).1
      = if chan_code (s.getChan offset) = (L.sscan v).getVal 0 then LispRet.LISP_RET_TRUE
        else if s.onWarning = 2 then LispRet.exited 2 else LispRet.LISP_RET_FALSE := by
  have hbranch : ∀ (code : Nat) (text : String),
      (assert_end (assert_chan s name code text ((L.sscan v).getVal 0))).1
        = if code = (L.sscan v).getVal 0 then LispRet.LISP_RET_TRUE
          else if s.onWarning = 2 then LispRet.exited 2 else LispRet.LISP_RET_FALSE := by
    intro code text
    obtain ⟨_, hw, hflag⟩ := assert_chan_spec s name text code ((L.sscan v).getVal 0)
    rw [assert_end_fst, hw]
    by_cases hc : code = (L.sscan v).getVal 0
    · have h2 : ¬ ((assert_chan s name code text ((L.sscan v).getVal 0)).2 = true) :=
        fun h => (hflag.1 h) hc
      rw [if_neg h2, if_pos hc]
    · rw [if_pos (hflag.2 hc), if_neg hc]
  simp only [process_assert, hres, h0, h1, if_false, chan_code]
  split_ifs <;> rw [hbranch] <;> split_ifs <;> rfl

/-! ## C24: `get` and `assert` -/

/-- C24. For a slot that resolves, with its Int value within the declared width:
for every expected value that `assert` compares as a whole (0, 1 or 2 for a
Bool, any integer for an Int, a machine-word natural for a channel), `assert`
reports a match iff the number `get` returns is the expected value.  On a
channel both handlers use the phase code of the same chain of tests, one code
between 0 and 4 for each channel state, which `get` returns and which `assert`
compares with the low machine word of the expected value: an expected value of
2^64 or more is matched by the code its low word equals, although `get` does not
return that value. -/
theorem get_assert_agree_up_to_low_word (L : ActLib) (s : Simulator)
    (cmd cmd2 name v : String) (type offset : Int) (obj : ActSimObj)
    (hres : id_to_siminfo_glob L s name = .ok (type, offset, obj))
    (hrange : ∀ b, s.getInt offset = some b → 0 ≤ b.val ∧ b.val < 2 ^ b.width) :
    (assert_accepts L s type offset v →
      ((process_assert L s [cmd, name, v]).1 = LispRet.LISP_RET_TRUE
        ↔ get_value (process_get L s [cmd2, name]) = some (L.sscan v).val))
    ∧ (type ≠ 0 → type ≠ 1 →
        get_value (process_get L s [cmd2, name])
            = some (Int.ofNat (chan_code (s.getChan offset)))
        ∧ chan_code (s.getChan offset) ≤ 4
        ∧ ((process_assert L s [cmd, name, v]).1 = LispRet.LISP_RET_TRUE
            ↔ chan_code (s.getChan offset) = (L.sscan v).getVal 0)) := by
  have hget := get_value_eq_state L s name type offset obj [cmd2, name] hres hrange
    (Or.inl ⟨cmd2, rfl⟩)
  refine ⟨?_, ?_⟩
  · intro hacc
    rw [hget, process_assert_ret L s cmd name v type offset obj hres hacc]
    by_cases hm : assert_state s type offset = some (L.sscan v).val
    · simp [hm]
    · by_cases hw : s.onWarning = 2
      · simp [hm, hw]
      · simp [hm, hw]
  · intro h0 h1
    refine ⟨?_, (chan_code_spec _).1, ?_⟩
    · rw [hget]
      simp [assert_state, h0, h1]
    · rw [process_assert_chan L s cmd name v type offset obj hres h0 h1]
      by_cases hm : chan_code (s.getChan offset) = (L.sscan v).getVal 0
      · simp [hm]
      · by_cases hw : s.onWarning = 2
        · simp [hm, hw]
        · simp [hm, hw]

/-- C24, on the demonstration design.  The channel `D` is idle: `get D` returns
the code 0, and `assert D 18446744073709551616` reports a match, the low machine
word of 2^64 being 0.  On the Bool `n`, which holds 1, `assert n 1` reports a
match and `get n` returns 1. -/
theorem get_assert_agree_up_to_low_word_witness :
    id_to_siminfo_glob stdLib demoSim "D" = .ok (2, 1, demoTop)
    ∧ (stdLib.sscan "18446744073709551616").val = 2 ^ 64
    ∧ (process_assert stdLib demoSim ["assert", "D", "18446744073709551616"]).1
        = LispRet.LISP_RET_TRUE
    ∧ get_value (process_get stdLib demoSim ["get", "D"]) = some 0
    ∧ id_to_siminfo_glob stdLib demoSim "n" = .ok (0, 0, demoTop)
    ∧ assert_accepts stdLib demoSim 0 0 "1"
    ∧ ((process_assert stdLib demoSim ["assert", "n", "1"]).1 = LispRet.LISP_RET_TRUE
        ↔ get_value (process_get stdLib demoSim ["get", "n"]) = some 1) := by
  have hD := (get_assert_agree_up_to_low_word stdLib demoSim "assert" "get" "D"
    "18446744073709551616" 2 1 demoTop rfl (demoSim_int_slots_in_range 1)).2
    (by decide) (by decide)
  have a1 : assert_accepts stdLib demoSim 0 0 "1" := by
    simp only [assert_accepts, if_true]; decide
  have hn := (get_assert_agree_up_to_low_word stdLib demoSim "assert" "get" "n"
    "1" 0 0 demoTop rfl (demoSim_int_slots_in_range 0)).1 a1
  exact ⟨rfl, by decide, hD.2.2.2 (by decide), hD.1, rfl, a1, hn⟩

/-! ## C25: `mget` and `get` -/

/-- What `mget` does with one name that resolves to a Bool or to an Int whose
slot exists: it prints one line and returns `LISP_RET_TRUE`; the line of an Int
shows the low machine word of the slot. -/
theorem process_mget_one (L : ActLib) (s : Simulator) (cmd name : String)
    (type offset : Int) (obj : ActSimObj)
    (hres : id_to_siminfo_glob L s name = .ok (type, offset, obj)) :
    (type = 0 →
      process_mget L s [cmd, name]
        = (LispRet.LISP_RET_TRUE, s.printf (Out.text (name ++ ": "
            ++ (if s.getBool offset = 0 then "0" else if s.getBool offset = 1 then "1" else "X")
            ++ "\n"))))
    ∧ (type = 1 → ∀ b, s.getInt offset = some b →
      process_mget L s [cmd, name]
        = (LispRet.LISP_RET_TRUE, s.printf (Out.text (name ++ ": " ++ decPrint (b.getVal 0) 0
            ++ "  (0x" ++ hexPrint (b.getVal 0) ++ ")\n")))) := by
  refine ⟨?_, ?_⟩
  · intro h0
    subst h0
    simp [process_mget, mget_loop, hres]
  · intro h1 b hb
    subst h1
    simp [process_mget, mget_loop, hres, hb]

/-- C25. For one name that resolves to a Bool, `mget` prints the line `get`
prints: the same one of 0, 1, X.  For a name that resolves to an Int, `mget`
prints the low machine word of the slot: this is the line `get` prints when the
slot has one machine word (a declared width of at most 64) or holds a value
below 2^64, and for a wider slot `get` prints the whole value instead. -/
theorem mget_prints_low_word (L : ActLib) (s : Simulator) (cmd cmd2 name : String)
    (type offset : Int) (obj : ActSimObj)
    (hres : id_to_siminfo_glob L s name = .ok (type, offset, obj)) :
    (type = 0 →
      (process_mget L s [cmd, name]).1 = LispRet.LISP_RET_TRUE
      ∧ (process_mget L s [cmd, name]).2.out = (process_get L s [cmd2, name]).2.out)
    ∧ (type = 1 → ∀ b, s.getInt offset = some b →
      (process_mget L s [cmd, name]).1 = LispRet.LISP_RET_TRUE
      ∧ (process_mget L s [cmd, name]).2.out
          = s.out ++ [Out.text (name ++ ": " ++ decPrint (b.getVal 0) 0
              ++ "  (0x" ++ hexPrint (b.getVal 0) ++ ")\n")]
      ∧ (b.getLen > 1 →
          (process_get L s [cmd2, name]).2.out
            = s.out ++ [Out.text (name ++ ": " ++ decPrint b.val.toNat 0
                ++ "  (0x" ++ hexPrint b.val.toNat ++ ")\n")])
      ∧ (b.getLen ≤ 1 ∨ (0 ≤ b.val ∧ b.val < 2 ^ 64) →
          (process_mget L s [cmd, name]).2.out = (process_get L s [cmd2, name]).2.out)) := by
  obtain ⟨hb0, hb1⟩ := process_mget_one L s cmd name type offset obj hres
  refine ⟨?_, ?_⟩
  · intro h0
    rw [hb0 h0]
    subst h0
    refine ⟨rfl, ?_⟩
    simp [process_get, hres, Simulator.printf]
  · intro h1 b hb
    rw [hb1 h1 b hb]
    subst h1
    have hgw : b.getLen > 1 →
        (process_get L s [cmd2, name]).2.out
          = s.out ++ [Out.text (name ++ ": " ++ decPrint b.val.toNat 0
              ++ "  (0x" ++ hexPrint b.val.toNat ++ ")\n")] := by
      intro hl
      simp [process_get, hres, hb, hl, Simulator.printf]
    refine ⟨rfl, rfl, hgw, ?_⟩
    intro h
    by_cases hl : b.getLen > 1
    · rw [hgw hl]
      rcases h with h | ⟨hnn, hlt⟩
      · omega
      · have hv := getVal_zero b hnn hlt
        have hv2 : b.getVal 0 = b.val.toNat := by omega
        simp [Simulator.printf, hv2]
    · simp [process_get, hres, hb, hl, Simulator.printf]

/-- C25, on the demonstration design.  With `y : int<128>` holding 2^64 + 5,
`mget y` prints 5 and `get y` prints 18446744073709551621.  With `x : int<4>`
holding 3 both print the same line. -/
theorem mget_prints_low_word_witness :
    id_to_siminfo_glob stdLib demoWide "y" = .ok (1, 1, demoTop)
    ∧ demoWide.getInt 1 = some ⟨128, 18446744073709551621⟩
    ∧ (18446744073709551621 : Int) = 2 ^ 64 + 5
    ∧ (process_mget stdLib demoWide ["mget", "y"]).1 = LispRet.LISP_RET_TRUE
    ∧ (process_mget stdLib demoWide ["mget", "y"]).2.out = [Out.text "y: 5  (0x5)\n"]
    ∧ (process_get stdLib demoWide ["get", "y"]).2.out
        = [Out.text "y: 18446744073709551621  (0x10000000000000005)\n"]
    ∧ id_to_siminfo_glob stdLib demoSim "x" = .ok (1, 0, demoTop)
    ∧ (process_mget stdLib demoSim ["mget", "x"]).2.out
        = (process_get stdLib demoSim ["get", "x"]).2.out := by
  have hy := (mget_prints_low_word stdLib demoWide "mget" "get" "y" 1 1 demoTop rfl).2 rfl
    ⟨128, 18446744073709551621⟩ rfl
  have hx := (mget_prints_low_word stdLib demoSim "mget" "get" "x" 1 0 demoTop rfl).2 rfl
    ⟨4, 3⟩ rfl
  refine ⟨rfl, rfl, by norm_num, hy.1, ?_, ?_, rfl, hx.2.2.2 (Or.inl (by decide))⟩
  · rw [hy.2.1]; decide
  · rw [hy.2.2.1 (by decide)]; decide

/-! ## C21: `procinfo` and `coverage` -/

/-- C21. What `procinfo` and `coverage` do with the two arguments `<filename>`
and `<inst-name>`.  The output goes to the stream of the first argument, the
standard output for `-` and otherwise the file opened under that name, as the
help text says.  The instance, however, is read from the first argument as well
(`my_parse_id (argv[1])`): the second argument is not used, so the result is the
same whatever instance it names.  On the demonstration tree `procinfo a b`
writes the state of the instance `a` to the file `a`, and `procinfo - b` looks
for an instance called `-`, finds none, and writes nothing about `b`. -/
theorem procinfo_reads_filename_as_instance (L : ActLib) (s : Simulator)
    (cmd file inst inst2 : String) :
    process_procinfo L s [cmd, file, inst] = process_procinfo L s [cmd, file, inst2]
    ∧ process_coverage L s [cmd, file, inst] = process_coverage L s [cmd, file, inst2]
    ∧ (∀ id, file ≠ "-" → s.fopen_fails file = false → my_parse_id L file = some id →
        (process_procinfo L s [cmd, file, inst]).1 = LispRet.LISP_RET_TRUE
        ∧ (process_procinfo L s [cmd, file, inst]).2.calls
            = s.calls ++ [Call.fopen file]
                ++ dump_state_at (FILE.file file) (find_table id s.getInstTable)
                ++ [Call.fclose file]
        ∧ (process_coverage L s [cmd, file, inst]).1 = LispRet.LISP_RET_TRUE
        ∧ (process_coverage L s [cmd, file, inst]).2.calls
            = s.calls ++ [Call.fopen file]
                ++ dump_coverage_at (FILE.file file) (find_table id s.getInstTable)
                ++ [Call.fclose file])
    ∧ (∀ id, my_parse_id L "-" = some id →
        (process_procinfo L s [cmd, "-", inst]).2.calls
            = s.calls ++ dump_state_at FILE.stdout (find_table id s.getInstTable)
        ∧ (process_coverage L s [cmd, "-", inst]).2.calls
            = s.calls ++ dump_coverage_at FILE.stdout (find_table id s.getInstTable))
    ∧ (process_procinfo stdLib demoTree ["procinfo", "a", "b"]).2.calls
        = [Call.fopen "a", Call.dumpState (FILE.file "a") "a", Call.fclose "a"]
    ∧ (process_coverage stdLib demoTree ["coverage", "a", "b"]).2.calls
        = [Call.fopen "a", Call.dumpStats (FILE.file "a") "a", Call.fclose "a"]
    ∧ (process_procinfo stdLib demoTree ["procinfo", "-", "b"]).1 = LispRet.LISP_RET_TRUE
    ∧ (process_procinfo stdLib demoTree ["procinfo", "-", "b"]).2.calls
        = [Call.warning "Didn't find info; is this a valid instance?"]
    ∧ (process_coverage stdLib demoTree ["coverage", "-", "b"]).2.calls
        = [Call.warning "Didn't find info; is this a valid instance?"] := by
  refine ⟨rfl, rfl, ?_, ?_, by decide, by decide, by decide, by decide, by decide⟩
  · intro id hf ho hp
    simp [process_procinfo, process_coverage, open_out, close_out, hf, ho, hp]
  · intro id hp
    simp [process_procinfo, process_coverage, open_out, close_out, hp]

/-- C21, on the demonstration tree, which has the instances `a` and `b`:
`procinfo a b` and `coverage a b` open the file `a` and write to it the state
and the coverage of the instance `a`; nothing of the instance `b` is written. -/
theorem procinfo_reads_filename_as_instance_witness :
    my_parse_id stdLib "a" = some [⟨"a", none, false⟩]
    ∧ (find_table [⟨"b", none, false⟩] demoTree.getInstTable).map
        (fun t => t.obj.map (fun o => o.name)) = some (some "b")
    ∧ (process_procinfo stdLib demoTree ["procinfo", "a", "b"]).1 = LispRet.LISP_RET_TRUE
    ∧ (process_procinfo stdLib demoTree ["procinfo", "a", "b"]).2.calls
        = [Call.fopen "a", Call.dumpState (FILE.file "a") "a", Call.fclose "a"]
    ∧ (process_coverage stdLib demoTree ["coverage", "a", "b"]).2.calls
        = [Call.fopen "a", Call.dumpStats (FILE.file "a") "a", Call.fclose "a"] := by
  have h := (procinfo_reads_filename_as_instance stdLib demoTree "procinfo" "a" "b" "b").2.2.1
    [⟨"a", none, false⟩] (by decide) rfl rfl
  have hc := (procinfo_reads_filename_as_instance stdLib demoTree "coverage" "a" "b" "b").2.2.1
    [⟨"a", none, false⟩] (by decide) rfl rfl
  exact ⟨rfl, by decide, h.1, h.2.1, hc.2.2.2⟩

/-! ## Shared lemmas on the instance table -/

/-- A link that prints in fewer than 1024 bytes is in the buffer whole. -/
theorem sPrintBuf_eq (c : ActIdComp) (h : (cstr c.sPrint).length < 1024) :
    c.sPrintBuf 1024 = cstr c.sPrint := by
  unfold ActIdComp.sPrintBuf
  exact List.take_of_length_le (by omega)

/-- One step of `find_table` on a link that fits the buffer: the lookup of the
first link, then the rest of the path from the sub-table found. -/
theorem find_table_cons (c : ActIdComp) (rest : ActId) (x : ActInstTable)
    (hc : (cstr c.sPrint).length < 1024) :
    find_table (c :: rest) x = (x.child c).bind (find_table rest) := by
  conv_lhs => unfold find_table
  unfold ActInstTable.child
  rw [sPrintBuf_eq c hc]
  cases x.H with
  | none => rfl
  | some h =>
    simp only
    cases hash_lookup h (cstr c.sPrint) with
    | none => rfl
    | some t => rfl

/-- A table has no sub-table under a link exactly when it has no child map or
the map has no such key. -/
theorem child_eq_none (t : ActInstTable) (c : ActIdComp) :
    t.child c = none
      ↔ t.H = none ∨ ∃ h, t.H = some h ∧ hash_lookup h (cstr c.sPrint) = none := by
  unfold ActInstTable.child
  cases t.H with
  | none => simp
  | some h => simp

/-- The table reached along a path made of two parts is the one reached along
the second part from the table reached along the first. -/
theorem find_table_append : ∀ (p q : ActId) (x : ActInstTable),
    (∀ c ∈ p, (cstr c.sPrint).length < 1024) →
    find_table (p ++ q) x = (find_table p x).bind (find_table q) := by
  intro p
  induction p with
  | nil => intro q x _; simp [find_table]
  | cons c p ih =>
    intro q x hlen
    have hc := hlen c (List.mem_cons_self _ _)
    rw [List.cons_append, find_table_cons c (p ++ q) x hc, find_table_cons c p x hc]
    cases x.child c with
    | none => rfl
    | some t => simp [ih q t (fun c2 h2 => hlen c2 (List.mem_cons_of_mem _ h2))]

/-- On a path whose links fit the buffer, the source function and the walk in
the words of the specification give the same table. -/
theorem find_table_eq_walk : ∀ (id : ActId) (x : ActInstTable),
    (∀ c ∈ id, (cstr c.sPrint).length < 1024) →
    find_table id x = table_walk id x := by
  intro id
  induction id with
  | nil => intro x _; simp [find_table, table_walk]
  | cons c rest ih =>
    intro x hlen
    rw [find_table_cons c rest x (hlen c (List.mem_cons_self _ _))]
    unfold table_walk
    rw [List.foldlM_cons]
    cases x.child c with
    | none => rfl
    | some t => exact ih t (fun c2 h2 => hlen c2 (List.mem_cons_of_mem _ h2))

/-- When `find_table` finds no table, the path leaves the tree at some link:
the part before it reaches a table that has no sub-table under that link. -/
theorem find_table_none : ∀ (id : ActId) (x : ActInstTable),
    (∀ c ∈ id, (cstr c.sPrint).length < 1024) → find_table id x = none →
    ∃ pre c post t, id = pre ++ c :: post ∧ find_table pre x = some t ∧ t.child c = none := by
  intro id
  induction id with
  | nil => intro x _ h; simp [find_table] at h
  | cons c rest ih =>
    intro x hlen h
    have hc := hlen c (List.mem_cons_self _ _)
    rw [find_table_cons c rest x hc] at h
    cases hch : x.child c with
    | none => exact ⟨[], c, rest, x, rfl, by simp [find_table], hch⟩
    | some t1 =>
      rw [hch] at h
      obtain ⟨pre, c2, post, t, hid, hpre, hch2⟩ :=
        ih t1 (fun c2 h2 => hlen c2 (List.mem_cons_of_mem _ h2)) h
      have hpl : (cstr c.sPrint).length < 1024 := hc
      refine ⟨c :: pre, c2, post, t, by rw [hid]; rfl, ?_, hch2⟩
      rw [find_table_cons c pre x hpl, hch]
      exact hpre

/-! ## C22: `find_table` -/

set_option maxRecDepth 1000000 in
/-- C22, counterexample. The root of `demoLongTable` has one child, named by
1023 times `a`.  The link `demoLongLink` prints as 1023 times `a` followed by
`b`, 1024 bytes, which is not a key of the child map; the walk in the words of
the specification finds no table.  `find_table` looks up the first 1023 bytes,
which the buffer holds, and returns the child. -/
theorem find_table_long_link :
    (cstr demoLongLink.sPrint).length = 1024
    ∧ (demoLongTable.child demoLongLink).isNone = true
    ∧ (table_walk [demoLongLink] demoLongTable).isNone = true
    ∧ (find_table [demoLongLink] demoLongTable).map (fun t => t.obj.map (fun o => o.name))
        = some (some "a") := by
  decide

/-- C22, amended. For every instance table `x` and every path whose links each
print in fewer than 1024 bytes, `find_table` returns the table reached by
looking up the first component in the child map of `x`, the second in the map of
that child, and so on (`table_walk`); it returns `x` itself for the empty path;
and it returns no table iff the path has a component that is absent from the
child map reached so far, or that is reached at a table without a child map.
The function is total: it is defined by recursion on the path. -/
theorem find_table_follows_path (id : ActId) (x : ActInstTable)
    (hlen : ∀ c ∈ id, (cstr c.sPrint).length < 1024) :
    find_table id x = table_walk id x
    ∧ find_table [] x = some x
    ∧ (∀ c rest, id = c :: rest →
        find_table (c :: rest) x = (x.child c).bind (find_table rest))
    ∧ (find_table id x = none
        ↔ ∃ pre c post t, id = pre ++ c :: post ∧ find_table pre x = some t
            ∧ (t.H = none ∨ ∃ h, t.H = some h ∧ hash_lookup h (cstr c.sPrint) = none))
    ∧ (∀ t, find_table id x = some t → ∀ post, find_table (id ++ post) x = find_table post t) := by
  refine ⟨find_table_eq_walk id x hlen, by simp [find_table], ?_, ⟨?_, ?_⟩, ?_⟩
  · intro c rest hid
    exact find_table_cons c rest x (hlen c (by rw [hid]; exact List.mem_cons_self _ _))
  · intro h
    obtain ⟨pre, c, post, t, hid, hpre, hch⟩ := find_table_none id x hlen h
    exact ⟨pre, c, post, t, hid, hpre, (child_eq_none t c).1 hch⟩
  · rintro ⟨pre, c, post, t, hid, hpre, hch⟩
    have hpl : ∀ c2 ∈ pre, (cstr c2.sPrint).length < 1024 := by
      intro c2 h2
      exact hlen c2 (by rw [hid]; exact List.mem_append_left _ h2)
    have hcl : (cstr c.sPrint).length < 1024 :=
      hlen c (by rw [hid]; exact List.mem_append_right _ (List.mem_cons_self _ _))
    rw [hid, find_table_append pre (c :: post) x hpl, hpre, Option.some_bind,
      find_table_cons c post t hcl, (child_eq_none t c).2 hch]
    rfl
  · intro t ht post
    rw [find_table_append id post x hlen, ht, Option.some_bind]

/-- C22 amended, on the demonstration tree: the path `b.c` reaches the leaf of
`b.c`, as the walk does; `b.d` reaches no table, `d` being absent from the child
map of `b`; and `a.c` reaches no table, the leaf `a` having no child map. -/
theorem find_table_follows_path_witness :
    (∀ c ∈ ([⟨"b", none, false⟩, ⟨"c", none, false⟩] : ActId), (cstr c.sPrint).length < 1024)
    ∧ (find_table [⟨"b", none, false⟩, ⟨"c", none, false⟩] demoTreeTable).map
        (fun t => t.obj.map (fun o => o.name)) = some (some "b.c")
    ∧ find_table [⟨"b", none, false⟩, ⟨"c", none, false⟩] demoTreeTable
        = table_walk [⟨"b", none, false⟩, ⟨"c", none, false⟩] demoTreeTable
    ∧ find_table [⟨"b", none, false⟩, ⟨"d", none, false⟩] demoTreeTable = none
    ∧ find_table [⟨"a", none, false⟩, ⟨"c", none, false⟩] demoTreeTable = none :=
  ⟨by decide, by decide,
    (find_table_follows_path [⟨"b", none, false⟩, ⟨"c", none, false⟩] demoTreeTable
      (by decide)).1,
    (find_table_follows_path [⟨"b", none, false⟩, ⟨"d", none, false⟩] demoTreeTable
      (by decide)).2.2.2.1.2
      ⟨[⟨"b", none, false⟩], ⟨"d", none, false⟩, [],
        .mk (some demoObjB) (some [("c", .mk (some demoObjBC) none)]), rfl, rfl,
        Or.inr ⟨_, rfl, rfl⟩⟩,
    (find_table_follows_path [⟨"a", none, false⟩, ⟨"c", none, false⟩] demoTreeTable
      (by decide)).2.2.2.1.2
      ⟨[⟨"a", none, false⟩], ⟨"c", none, false⟩, [], .mk (some demoObjA) none, rfl, rfl,
        Or.inl rfl⟩⟩

/-! ## C23: `find_object` -/

set_option maxRecDepth 1000000 in
/-- C23, counterexample. The root of `demoLongTable` has one child, named by
1023 times `a`.  The link `demoLongLink` prints as 1023 times `a` followed by
`b`, 1024 bytes, and is not a key of the child map; yet `find_object` consumes
it, the buffer holding its first 1023 bytes, and returns the object of the child
with nothing left of the identifier. -/
theorem find_object_long_link :
    demoLongLink.ns = false
    ∧ (cstr demoLongLink.sPrint).length = 1024
    ∧ (demoLongTable.child demoLongLink).isNone = true
    ∧ (find_object [demoLongLink] demoLongTable).2 = []
    ∧ (find_object [demoLongLink] demoLongTable).1.map (fun o => o.name) = some "a" := by
  decide

/-- C23, amended. For an identifier without a namespace component whose links
each print in fewer than 1024 bytes, `find_object` consumes a prefix of `k`
links such that the table walk along the prefix succeeds, returns the object
stored at the table reached, and leaves the identifier at the remaining links;
the prefix followed by the remainder is the identifier.  The prefix is the
longest one: the first remaining link, if any, is not a key of the child map of
the table reached (or that table has no child map), and the walk along any
longer prefix finds no table. -/
theorem find_object_prefix_longest : ∀ (id : ActId) (x : ActInstTable),
    (∀ c ∈ id, c.ns = false) → (∀ c ∈ id, (cstr c.sPrint).length < 1024) →
    ∃ k t, k ≤ id.length
      ∧ find_table (id.take k) x = some t
      ∧ find_object id x = (t.obj, id.drop k)
      ∧ id.take k ++ (find_object id x).2 = id
      ∧ (∀ c, (find_object id x).2.head? = some c → t.child c = none)
      ∧ (∀ j, k < j → j ≤ id.length → find_table (id.take j) x = none) := by
  intro id
  induction id with
  | nil =>
    intro x _ _
    refine ⟨0, x, le_refl _, by simp [find_table], by simp [find_object], by simp [find_object],
      by simp [find_object], ?_⟩
    intro j h1 h2
    simp at h2
    omega
  | cons c rest ih =>
    intro x hns hlen
    have hc : c.ns = false := hns c (List.mem_cons_self _ _)
    have hcl : (cstr c.sPrint).length < 1024 := hlen c (List.mem_cons_self _ _)
    have hbuf := sPrintBuf_eq c hcl
    have stay : x.child c = none → find_object (c :: rest) x = (x.obj, c :: rest) := by
      intro h
      unfold ActInstTable.child at h
      unfold find_object
      cases hH : x.H with
      | none => rfl
      | some hh =>
        rw [hH] at h
        simp only at h
        simp [hc, hbuf, h]
    cases hch : x.child c with
    | none =>
      have hfo := stay hch
      refine ⟨0, x, Nat.zero_le _, by simp [find_table], by rw [hfo]; rfl, by rw [hfo]; rfl,
        ?_, ?_⟩
      · intro c2 h
        rw [hfo] at h
        simp only [List.head?_cons, Option.some.injEq] at h
        rw [← h]
        exact hch
      · intro j h1 h2
        obtain ⟨j2, rfl⟩ : ∃ j2, j = j2 + 1 := ⟨j - 1, by omega⟩
        rw [List.take_succ_cons, find_table_cons c _ x hcl, hch]
        rfl
    | some t1 =>
      have hfo : find_object (c :: rest) x = find_object rest t1 := by
        unfold ActInstTable.child at hch
        conv_lhs => unfold find_object
        cases hH : x.H with
        | none => rw [hH] at hch; cases hch
        | some hh =>
          rw [hH] at hch
          simp only at hch
          simp [hc, hbuf, hch]
      obtain ⟨k, t, hk, hft, hobj, happ, hhead, hmax⟩ :=
        ih t1 (fun c2 h2 => hns c2 (List.mem_cons_of_mem _ h2))
          (fun c2 h2 => hlen c2 (List.mem_cons_of_mem _ h2))
      refine ⟨k + 1, t, by simp; omega, ?_, ?_, ?_, ?_, ?_⟩
      · rw [List.take_succ_cons, find_table_cons c _ x hcl, hch]
        exact hft
      · rw [hfo, hobj]
        rfl
      · rw [hfo, List.take_succ_cons, List.cons_append, happ]
      · intro c2 h
        rw [hfo] at h
        exact hhead c2 h
      · intro j h1 h2
        obtain ⟨j2, rfl⟩ : ∃ j2, j = j2 + 1 := ⟨j - 1, by omega⟩
        rw [List.take_succ_cons, find_table_cons c _ x hcl, hch]
        simp only [List.length_cons] at h2
        exact hmax j2 (by omega) (by omega)

/-- C23 amended, on the demonstration tree: for `b.c.n` the links `b` and `c`
are consumed, the object of `b.c` is returned, and the identifier is left at
`n`. -/
theorem find_object_prefix_longest_witness :
    (∀ c ∈ ([⟨"b", none, false⟩, ⟨"c", none, false⟩, ⟨"n", none, false⟩] : ActId), c.ns = false)
    ∧ (∀ c ∈ ([⟨"b", none, false⟩, ⟨"c", none, false⟩, ⟨"n", none, false⟩] : ActId),
        (cstr c.sPrint).length < 1024)
    ∧ (∃ k t, k ≤ 3
        ∧ find_table (([⟨"b", none, false⟩, ⟨"c", none, false⟩, ⟨"n", none, false⟩] : ActId).take k)
            demoTreeTable = some t
        ∧ find_object [⟨"b", none, false⟩, ⟨"c", none, false⟩, ⟨"n", none, false⟩] demoTreeTable
            = (t.obj, ([⟨"b", none, false⟩, ⟨"c", none, false⟩, ⟨"n", none, false⟩] : ActId).drop k))
    ∧ (find_object [⟨"b", none, false⟩, ⟨"c", none, false⟩, ⟨"n", none, false⟩]
        demoTreeTable).2 = [⟨"n", none, false⟩]
    ∧ (find_object [⟨"b", none, false⟩, ⟨"c", none, false⟩, ⟨"n", none, false⟩]
        demoTreeTable).1.map (fun o => o.name) = some "b.c" :=
  ⟨by decide, by decide,
    (find_object_prefix_longest [⟨"b", none, false⟩, ⟨"c", none, false⟩, ⟨"n", none, false⟩]
      demoTreeTable (by decide) (by decide)).elim
      (fun k h => h.elim (fun t ht => ⟨k, t, ht.1, ht.2.1, ht.2.2.1⟩)),
    by decide, by decide⟩

/-! ## Shared lemmas on the order of dispatch -/

end Actsim
